import Mathlib

/-!
# Storefront backend: tables, request handlers and their contracts

A shallow embedding of `backend/database.js` (the three sqlite tables) and
`backend/index.js` (the express handlers), followed by the parts of the client
that the contracts speak of: the cart context, the validation of the checkout
page and the image utilities.

Modelling conventions.

* A table is the list of its rows in scan order (ascending rowid); an
  `INSERT` appends the new row.
* `INTEGER PRIMARY KEY AUTOINCREMENT` is modelled by `nextRowid`: one more
  than the largest rowid the table ever held (the `sqlite_sequence` entry,
  kept in the store) and than every rowid now in the table.  Rowids are
  natural numbers; the 64-bit limit of sqlite is not modelled.
* JSON numbers (prices, quantities) are integers with exact arithmetic; JSON
  strings are `String`; a field that is absent or `null` is `none`, which is
  also how an SQL `NULL` is written.
* The `price` of a product request is a JSON number or a JSON string holding
  the decimal numeral of a number: the admin page posts `formData`, whose
  `price` is the text of its number input.  Column `price REAL NOT NULL`
  converts such a string to the number it denotes (column affinity), so the
  row holds the number in both cases.
* `CURRENT_TIMESTAMP` has a resolution of one second.  The handlers that
  insert a row take the current second `now` as an argument.
* `ORDER BY created_at DESC` is a stable sort: sqlite's sorter returns rows
  with equal keys in scan order.
* `FOREIGN KEY (product_id) REFERENCES products (id)` is declared but not
  enforced: `database.js` never issues `PRAGMA foreign_keys = ON`, and sqlite
  leaves foreign keys off by default.
* In the client, a JavaScript string is the list of its characters, numbers
  are rendered in decimal, and `toLowerCase` is given by the lowercase form of
  each character, taken as a parameter where nothing depends on it.
* sqlite executes the statements of all handlers without error, except in
  `postCheckout`, whose two statements take the error reported by sqlite (if
  any) as an argument because the handler treats the second one as not fatal.
-/

namespace Ecom

/-! ## Tables (database.js) -/

/-- Row of table `products`. -/
structure Product where
  id : Nat
  name : String
  price : Int
  description : Option String
  imageUrl : Option String
deriving DecidableEq, Repr

/-- Row of table `cart_items`. -/
structure CartItem where
  id : Nat
  product_id : Nat
  quantity : Int
  created_at : Nat
deriving DecidableEq, Repr

/-- Element of the `cartItems` array of a checkout request; the array is what
column `orders.order_items` stores (as JSON text). -/
structure LineItem where
  id : Nat
  name : String
  price : Int
  quantity : Int
  imageUrl : Option String
deriving DecidableEq, Repr

/-- Row of table `orders`.  Column `order_items` holds `JSON.stringify(cartItems)`;
the row keeps the array that text encodes. -/
structure Order where
  id : Nat
  customer_name : String
  customer_email : String
  customer_address : String
  customer_city : String
  customer_zip : String
  total_amount : Int
  order_items : List LineItem
  created_at : Nat
deriving DecidableEq, Repr

/-- The database file: three tables and, for each, its `sqlite_sequence` entry. -/
structure Store where
  products : List Product
  productsSeq : Nat
  cart_items : List CartItem
  cartSeq : Nat
  orders : List Order
  ordersSeq : Nat
deriving DecidableEq, Repr

/-- Rowid given to a row inserted into an AUTOINCREMENT table holding rowids `ids`
whose `sqlite_sequence` entry is `seq`. -/
def nextRowid (ids : List Nat) (seq : Nat) : Nat :=
  ids.foldl max seq + 1

/-- Rowids handed out by AUTOINCREMENT start at 1: no row has rowid 0. -/
def Store.rowidsPositive (s : Store) : Prop :=
  (∀ p ∈ s.products, p.id ≠ 0) ∧ (∀ c ∈ s.cart_items, c.id ≠ 0) ∧ (∀ o ∈ s.orders, o.id ≠ 0)

instance (s : Store) : Decidable s.rowidsPositive := by
  unfold Store.rowidsPositive; infer_instance

/-! ## Responses -/

/-- What a handler answers: `res.json(body)` (status 200) or
`res.status(code).json(...)` with the error text. -/
inductive Response (α : Type) where
  | ok (body : α)
  | error (status : Nat) (message : String)
deriving DecidableEq, Repr

/-- HTTP status code of a response. -/
def Response.status {α : Type} : Response α → Nat
  | .ok _ => 200
  | .error code _ => code

/-- JavaScript truthiness of a value that is a string or absent. -/
def truthyStr : Option String → Bool
  | none => false
  | some v => v != ""

/-! ## Catalog handlers (index.js 75-174) -/

/-- The `price` of a request body: a JSON number, or a JSON string that is the
decimal numeral of `value` ("0" for 0, "999" for 999), which is what
`AdminPage.jsx` posts.  Strings that are not numerals are not modelled. -/
inductive PriceField where
  | number (value : Int)
  | numeral (value : Int)
deriving DecidableEq, Repr

/-- JavaScript truthiness of a price, the negation of `!price`: the number 0 is
falsy and every other number is truthy; a numeral is a non-empty string, so it
is truthy whatever number it denotes, "0" included. -/
def PriceField.truthy : PriceField → Bool
  | .number value => value != 0
  | .numeral _ => true

/-- What column `price REAL NOT NULL` holds once the price has been bound to the
statement: a number as it is, a numeral as the number it denotes. -/
def PriceField.stored : PriceField → Int
  | .number value => value
  | .numeral value => value

/-- Body of `POST /api/products` and `PUT /api/products/:id`. -/
structure ProductBody where
  name : Option String
  price : Option PriceField
  description : Option String
  imageUrl : Option String
deriving DecidableEq, Repr

/-- Handler of `GET /api/products`. -/
def getProducts (s : Store) : Response (List Product) :=
  .ok s.products

/-- Handler of `GET /api/products/:id`. -/
def getProductsId (id : Nat) (s : Store) : Response Product :=
  match s.products.find? (fun p => p.id == id) with
  | none => .error 404 "Product not found."
  | some row => .ok row

/-- Handler of `POST /api/products`; the body of the answer is `this.lastID`. -/
def postProducts (body : ProductBody) (s : Store) : Response Nat × Store :=
  match body.name, body.price with
  | some name, some price =>
    if name == "" || !price.truthy then
      (.error 400 "Name and price are required.", s)
    else
      let lastID := nextRowid (s.products.map (·.id)) s.productsSeq
      (.ok lastID,
        { s with
          products :=
            s.products ++ [⟨lastID, name, price.stored, body.description, body.imageUrl⟩]
          productsSeq := lastID })
  | _, _ => (.error 400 "Name and price are required.", s)

/-- Handler of `PUT /api/products/:id`; the body of the answer is `this.changes`. -/
def putProductsId (id : Nat) (body : ProductBody) (s : Store) : Response Nat × Store :=
  match body.name, body.price with
  | some name, some price =>
    if name == "" || !price.truthy then
      (.error 400 "Name and price are required.", s)
    else
      let changes := (s.products.filter (fun p => p.id == id)).length
      if changes == 0 then
        (.error 404 "Product not found.", s)
      else
        (.ok changes,
          { s with
            products := s.products.map (fun p =>
              if p.id == id then ⟨p.id, name, price.stored, body.description, body.imageUrl⟩
              else p) })
  | _, _ => (.error 400 "Name and price are required.", s)

/-- Handler of `DELETE /api/products/:id`; the body of the answer is `this.changes`. -/
def deleteProductsId (id : Nat) (s : Store) : Response Nat × Store :=
  let changes := (s.products.filter (fun p => p.id == id)).length
  if changes == 0 then
    (.error 404 "Product not found.", s)
  else
    (.ok changes, { s with products := s.products.filter (fun p => !(p.id == id)) })

/-! ## Cart handlers (index.js 176-323) -/

/-- Body of `POST /api/cart`.  For `quantity`, `none` is an absent key (the
destructuring default `quantity = 1` applies to it). -/
structure CartBody where
  productId : Option Nat
  quantity : Option Int
deriving DecidableEq, Repr

/-- The two success answers of `POST /api/cart`. -/
inductive CartAnswer where
  | updated (productId : Nat) (newQuantity : Int)
  | added (cartItemId : Nat) (productId : Nat) (quantity : Int)
deriving DecidableEq, Repr

/-- Handler of `POST /api/cart`. -/
def postCart (now : Nat) (body : CartBody) (s : Store) : Response CartAnswer × Store :=
  let quantity := body.quantity.getD 1
  match body.productId with
  | none => (.error 400 "Product ID is required.", s)
  | some productId =>
    if productId == 0 then
      (.error 400 "Product ID is required.", s)
    else
      match s.products.find? (fun p => p.id == productId) with
      | none => (.error 404 "Product not found.", s)
      | some _ =>
        match s.cart_items.find? (fun c => c.product_id == productId) with
        | some cartItem =>
          (.ok (.updated productId (cartItem.quantity + quantity)),
            { s with
              cart_items := s.cart_items.map (fun c =>
                if c.product_id == productId then { c with quantity := c.quantity + quantity }
                else c) })
        | none =>
          let lastID := nextRowid (s.cart_items.map (·.id)) s.cartSeq
          (.ok (.added lastID productId quantity),
            { s with
              cart_items := s.cart_items ++ [⟨lastID, productId, quantity, now⟩]
              cartSeq := lastID })

/-- Row of the result of the query of `GET /api/cart`. -/
structure CartRow where
  cart_item_id : Nat
  quantity : Int
  id : Nat
  name : String
  price : Int
  description : Option String
  imageUrl : Option String
  subtotal : Int
deriving DecidableEq, Repr

/-- Field `data` of the answer of `GET /api/cart`. -/
structure CartData where
  items : List CartRow
  total : Int
  totalItems : Int
deriving DecidableEq, Repr

/-- Result of `FROM cart_items ci JOIN products p ON ci.product_id = p.id`, one pair
per cart row and product with that id, cart rows in scan order. -/
def cartJoin (s : Store) : List (CartItem × Product) :=
  s.cart_items.flatMap (fun ci =>
    (s.products.filter (fun p => p.id == ci.product_id)).map (fun p => (ci, p)))

/-- Order of `ORDER BY ci.created_at DESC`. -/
def cartNewerFirst (a b : CartItem × Product) : Prop :=
  b.1.created_at ≤ a.1.created_at

instance : DecidableRel cartNewerFirst :=
  fun a b => inferInstanceAs (Decidable (b.1.created_at ≤ a.1.created_at))

/-- The select list of the query of `GET /api/cart`. -/
def cartRow (x : CartItem × Product) : CartRow :=
  ⟨x.1.id, x.1.quantity, x.2.id, x.2.name, x.2.price, x.2.description, x.2.imageUrl,
    x.2.price * x.1.quantity⟩

/-- Handler of `GET /api/cart`. -/
def getCart (s : Store) : Response CartData :=
  let rows := ((cartJoin s).insertionSort cartNewerFirst).map cartRow
  let total := rows.foldl (fun sum item => sum + item.subtotal) 0
  let totalItems := rows.foldl (fun sum item => sum + item.quantity) 0
  .ok ⟨rows, total, totalItems⟩

/-- Handler of `DELETE /api/cart/:id`; the body of the answer is `this.changes`. -/
def deleteCartId (id : Nat) (s : Store) : Response Nat × Store :=
  let changes := (s.cart_items.filter (fun c => c.id == id)).length
  if changes == 0 then
    (.error 404 "Cart item not found.", s)
  else
    (.ok changes, { s with cart_items := s.cart_items.filter (fun c => !(c.id == id)) })

/-- Handler of `PUT /api/cart/:id` with body `quantity`; the body of the answer is
`this.changes`. -/
def putCartId (id : Nat) (quantity : Option Int) (s : Store) : Response Nat × Store :=
  match quantity with
  | none => (.error 400 "Valid quantity is required.", s)
  | some q =>
    if q == 0 || q < 1 then
      (.error 400 "Valid quantity is required.", s)
    else
      let changes := (s.cart_items.filter (fun c => c.id == id)).length
      if changes == 0 then
        (.error 404 "Cart item not found.", s)
      else
        (.ok changes,
          { s with
            cart_items := s.cart_items.map (fun c =>
              if c.id == id then { c with quantity := q } else c) })

/-! ## Checkout and order history (index.js 325-429) -/

/-- Field `customerInfo` of a checkout request. -/
structure CustomerInfo where
  name : Option String
  email : Option String
  address : Option String
  city : Option String
  zip : Option String
deriving DecidableEq, Repr

/-- Body of `POST /api/checkout`. -/
structure CheckoutBody where
  customerInfo : Option CustomerInfo
  cartItems : Option (List LineItem)
deriving DecidableEq, Repr

/-- Field `receipt` of the answer of `POST /api/checkout`, without `timestamp` and
`orderDate` (renderings of the wall clock). -/
structure Receipt where
  orderId : Nat
  customerName : String
  customerEmail : String
  items : List LineItem
  total : Int
deriving DecidableEq, Repr

/-- The `totalAmount` of the checkout handler. -/
def totalAmount (cartItems : List LineItem) : Int :=
  cartItems.foldl (fun sum item => sum + item.price * item.quantity) 0

/-- Handler of `POST /api/checkout`.  `insertErr` and `clearErr` are the `err`
that sqlite passes to the callbacks of the `INSERT INTO orders` and of the
`DELETE FROM cart_items` (`none`: the statement was executed). -/
def postCheckout (insertErr clearErr : Option String) (now : Nat) (body : CheckoutBody)
    (s : Store) : Response Receipt × Store :=
  match body.customerInfo with
  | none => (.error 400 "Customer name and email are required.", s)
  | some customerInfo =>
    if !truthyStr customerInfo.name || !truthyStr customerInfo.email then
      (.error 400 "Customer name and email are required.", s)
    else
      match body.cartItems with
      | none => (.error 400 "Cart items are required.", s)
      | some cartItems =>
        if cartItems.length == 0 then
          (.error 400 "Cart items are required.", s)
        else
          match insertErr with
          | some message => (.error 500 message, s)
          | none =>
            let lastID := nextRowid (s.orders.map (·.id)) s.ordersSeq
            let order : Order :=
              { id := lastID
                customer_name := customerInfo.name.getD ""
                customer_email := customerInfo.email.getD ""
                customer_address := customerInfo.address.getD ""
                customer_city := customerInfo.city.getD ""
                customer_zip := customerInfo.zip.getD ""
                total_amount := totalAmount cartItems
                order_items := cartItems
                created_at := now }
            let s1 := { s with orders := s.orders ++ [order], ordersSeq := lastID }
            let s2 := match clearErr with
              | some _ => s1
              | none => { s1 with cart_items := [] }
            (.ok ⟨lastID, order.customer_name, order.customer_email, cartItems,
              totalAmount cartItems⟩, s2)

/-- Order of `ORDER BY created_at DESC` on table `orders`. -/
def ordersNewerFirst (a b : Order) : Prop :=
  b.created_at ≤ a.created_at

instance : DecidableRel ordersNewerFirst :=
  fun a b => inferInstanceAs (Decidable (b.created_at ≤ a.created_at))

instance : IsTotal Order ordersNewerFirst :=
  ⟨fun a b => Nat.le_total b.created_at a.created_at⟩

instance : IsTrans Order ordersNewerFirst :=
  ⟨fun _ _ _ hab hbc => Nat.le_trans hbc hab⟩

/-- Handler of `GET /api/orders`. -/
def getOrders (s : Store) : Response (List Order) :=
  .ok (s.orders.insertionSort ordersNewerFirst)

/-- Handler of `GET /api/orders/:id`. -/
def getOrdersId (id : Nat) (s : Store) : Response Order :=
  match s.orders.find? (fun o => o.id == id) with
  | none => .error 404 "Order not found."
  | some row => .ok row

/-! ## Sequences of requests -/

/-- A request that writes to the store. -/
inductive Op where
  | postProducts (body : ProductBody)
  | putProductsId (id : Nat) (body : ProductBody)
  | deleteProductsId (id : Nat)
  | postCart (now : Nat) (body : CartBody)
  | putCartId (id : Nat) (quantity : Option Int)
  | deleteCartId (id : Nat)
  | postCheckout (insertErr clearErr : Option String) (now : Nat) (body : CheckoutBody)
deriving DecidableEq, Repr

/-- Store after the handler of one request has run. -/
def Op.apply : Op → Store → Store
  | .postProducts body, s => (Ecom.postProducts body s).2
  | .putProductsId id body, s => (Ecom.putProductsId id body s).2
  | .deleteProductsId id, s => (Ecom.deleteProductsId id s).2
  | .postCart now body, s => (Ecom.postCart now body s).2
  | .putCartId id quantity, s => (Ecom.putCartId id quantity s).2
  | .deleteCartId id, s => (Ecom.deleteCartId id s).2
  | .postCheckout insertErr clearErr now body, s =>
    (Ecom.postCheckout insertErr clearErr now body s).2

/-- Store after a sequence of requests, handled one after the other. -/
def run (ops : List Op) (s : Store) : Store :=
  ops.foldl (fun st op => op.apply st) s

/-- A request that is not a `POST /api/cart`, or is one whose quantity is absent
or at least 1. -/
def Op.addsAtLeastOne : Op → Prop
  | .postCart _ body => 1 ≤ body.quantity.getD 1
  | _ => True

/-- A request that does not create or update a product, or is one whose price is
absent or denotes a number greater than 0. -/
def Op.pricePositive : Op → Prop
  | .postProducts body => 0 < (body.price.map PriceField.stored).getD 1
  | .putProductsId _ body => 0 < (body.price.map PriceField.stored).getD 1
  | _ => True

/-! ## Client: cart context (frontend/src/context/CartContext.jsx) -/

/-- Element of the `cartItems` state of the cart context: a row of the answer of
`GET /api/cart`, or, in the local fallback of `addToCart`, a product with a
quantity, which has no `cart_item_id` and no `subtotal`. -/
structure ClientItem where
  cart_item_id : Option Nat
  quantity : Int
  id : Nat
  name : String
  price : Int
  description : Option String
  imageUrl : Option String
  subtotal : Option Int
deriving DecidableEq, Repr

/-- A row of the answer of `GET /api/cart` as held by the client. -/
def ClientItem.ofCartRow (row : CartRow) : ClientItem :=
  ⟨some row.cart_item_id, row.quantity, row.id, row.name, row.price, row.description,
    row.imageUrl, some row.subtotal⟩

/-- The object `{ ...product, quantity: 1 }` of the fallback of `addToCart`. -/
def ClientItem.ofProduct (product : Product) : ClientItem :=
  ⟨none, 1, product.id, product.name, product.price, product.description, product.imageUrl, none⟩

/-- State of `CartProvider`: the three `useState` values the claims speak of and
the entry `cartItems` of `localStorage` (JSON text, kept as the array it
encodes; `none` when the entry does not exist). -/
structure CartContextState where
  cartItems : List ClientItem
  totalAmount : Int
  totalItems : Int
  localStorage : Option (List ClientItem)
deriving DecidableEq, Repr

/-- State after `fetchCartData`; `response` is the `data` of the answer of
`GET /api/cart`, or `none` when the request failed. -/
def fetchCartData (response : Option CartData) (st : CartContextState) : CartContextState :=
  match response with
  | some data =>
    { st with
      cartItems := data.items.map ClientItem.ofCartRow
      totalAmount := data.total
      totalItems := data.totalItems }
  | none =>
    let items := st.localStorage.getD []
    { st with
      cartItems := items
      totalAmount := items.foldl (fun sum item => sum + item.price * item.quantity) 0
      totalItems := items.foldl (fun sum item => sum + item.quantity) 0 }

/-- The updater that the fallback of `addToCart` passes to `setCartItems`. -/
def addToCartFallback (product : Product) (prevItems : List ClientItem) : List ClientItem :=
  match prevItems.find? (fun item => item.id == product.id) with
  | some _ =>
    prevItems.map (fun item =>
      if item.id == product.id then { item with quantity := item.quantity + 1 } else item)
  | none => prevItems ++ [ClientItem.ofProduct product]

/-- State after `addToCart(product)`; `posted` tells whether `POST /api/cart` was
answered with success, `response` is what the following `GET /api/cart`
returned. -/
def addToCart (posted : Bool) (response : Option CartData) (product : Product)
    (st : CartContextState) : CartContextState :=
  if posted then
    fetchCartData response st
  else
    let newItems := addToCartFallback product st.cartItems
    { st with cartItems := newItems, localStorage := some newItems }

/-- State after `removeFromCart(cartItemId)`; `deleted` tells whether
`DELETE /api/cart/:id` was answered with success. -/
def removeFromCart (deleted : Bool) (response : Option CartData) (cartItemId : Nat)
    (st : CartContextState) : CartContextState :=
  if deleted then
    fetchCartData response st
  else
    let newItems := st.cartItems.filter (fun item => !(item.cart_item_id == some cartItemId))
    { st with cartItems := newItems, localStorage := some newItems }

/-- State after `clearCart()`; `deleted` tells whether every `DELETE /api/cart/:id`
of the loop was answered with success. -/
def clearCart (deleted : Bool) (response : Option CartData) (st : CartContextState) :
    CartContextState :=
  if deleted then
    fetchCartData response st
  else
    { st with cartItems := [], localStorage := some [] }

/-- The `getTotalItems` of the cart context. -/
def getTotalItems (st : CartContextState) : Int :=
  st.totalItems

/-- The `getTotalAmount` of the cart context. -/
def getTotalAmount (st : CartContextState) : Int :=
  st.totalAmount

/-! ## Client: checkout page (frontend/src/pages/CheckoutPage.jsx) -/

/-- The `formData` state of the checkout page. -/
structure CheckoutForm where
  name : String
  email : String
  address : String
  city : String
  zip : String
deriving DecidableEq, Repr

/-- Characters matched by `\s` in a JavaScript regular expression. -/
def isRegexSpace (c : Char) : Bool :=
  c.toNat == 9 || c.toNat == 10 || c.toNat == 11 || c.toNat == 12 || c.toNat == 13 ||
  c.toNat == 32 || c.toNat == 160 || c.toNat == 5760 ||
  (8192 ≤ c.toNat && c.toNat ≤ 8202) || c.toNat == 8232 || c.toNat == 8233 ||
  c.toNat == 8239 || c.toNat == 8287 || c.toNat == 12288 || c.toNat == 65279

/-- A match of `[^\s@]+`: a non-empty run of characters that are neither white
space nor `@`. -/
def regexPlainRun (l : List Char) : Bool :=
  !l.isEmpty && l.all (fun c => !isRegexSpace c && c != '@')

/-- The test `/^[^\s@]+@[^\s@]+\.[^\s@]+$/.test(email)`: the string splits as a run,
`@`, a run, `.`, a run. -/
def emailRegexTest (email : List Char) : Bool :=
  (List.range email.length).any (fun i =>
    (List.range email.length).any (fun j =>
      decide (i < j) && email.get? i == some '@' && email.get? j == some '.' &&
      regexPlainRun (email.take i) && regexPlainRun ((email.take j).drop (i + 1)) &&
      regexPlainRun (email.drop (j + 1))))

/-- The `checkoutItems` of `handleSubmit`. -/
def checkoutItems (cartItems : List ClientItem) : List LineItem :=
  cartItems.map (fun item => ⟨item.id, item.name, item.price, item.quantity, item.imageUrl⟩)

/-- The `handleSubmit` of the checkout page up to the request: the error it sets,
or the body it posts to `/api/checkout`. -/
def handleSubmit (formData : CheckoutForm) (cartItems : List ClientItem) :
    Except String CheckoutBody :=
  if formData.name == "" || formData.email == "" || formData.address == "" ||
      formData.city == "" || formData.zip == "" then
    .error "Please fill in all required fields."
  else if !emailRegexTest formData.email.toList then
    .error "Please enter a valid email address."
  else
    .ok ⟨some ⟨some formData.name, some formData.email, some formData.address,
      some formData.city, some formData.zip⟩, some (checkoutItems cartItems)⟩

/-! ## Client: image utilities (frontend/src/utils/imageUtils.js)

A JavaScript string is the list of its characters. -/

/-- The test `s.startsWith(pattern)`. -/
def startsWith : List Char → List Char → Bool
  | [], _ => true
  | _ :: _, [] => false
  | p :: ps, c :: cs => p == c && startsWith ps cs

/-- The test `s.includes(pattern)`. -/
def includes (pattern : List Char) : List Char → Bool
  | [] => startsWith pattern []
  | c :: cs => startsWith pattern (c :: cs) || includes pattern cs

/-- The value of `s.split('?')[0]`: the part of `s` before its first `?`. -/
def beforeQuestionMark (s : List Char) : List Char :=
  s.takeWhile (fun c => c != '?')

/-- Decimal digits of a number, as a template literal renders it. -/
def digits (n : Nat) : List Char :=
  (Nat.repr n).toList

/-- The `getImageUrl` of imageUtils.js; `none` is an absent (or null) argument. -/
def getImageUrl (imageUrl : Option (List Char)) : List Char :=
  match imageUrl with
  | none => []
  | some url =>
    if url.isEmpty then []
    else if startsWith "http".toList url then url
    else "/images/products/".toList ++ url

/-- The `getOptimizedImageUrl` of imageUtils.js; for `width` and `height`, `none` is
an absent argument, which takes the default 600 or 400. -/
def getOptimizedImageUrl (imageUrl : Option (List Char)) (width height : Option Nat) :
    List Char :=
  let fullUrl := getImageUrl imageUrl
  if fullUrl.isEmpty then []
  else if includes "unsplash.com".toList fullUrl then
    beforeQuestionMark fullUrl ++ "?w=".toList ++ digits (width.getD 600) ++ "&h=".toList ++
      digits (height.getD 400) ++ "&fit=crop&q=80".toList
  else fullUrl

/-- JavaScript's `toLowerCase`, character by character: `lowerChar c` is the
lowercase form of `c`, which may be longer than one character. -/
def toLowerCase (lowerChar : Char → List Char) (s : List Char) : List Char :=
  s.flatMap lowerChar

/-- The lowercase mapping of JavaScript on the characters used below: the letters
A to Z, and U+0130 (capital I with dot above), whose lowercase form is `i`
followed by U+0307; any other character is returned as it is. -/
def jsLowerChar (c : Char) : List Char :=
  if c.toNat == 0x130 then ['i', Char.ofNat 0x307]
  else [c.toLower]

/-- The value of `s.lastIndexOf(c)`: -1 when `c` does not occur. -/
def lastIndexOf (c : Char) : List Char → Int
  | [] => -1
  | x :: xs =>
    if 0 ≤ lastIndexOf c xs then lastIndexOf c xs + 1
    else if x == c then 0
    else -1

/-- The value of `s.substring(start)`: a negative start counts as 0. -/
def substring (start : Int) (s : List Char) : List Char :=
  s.drop start.toNat

/-- The `validExtensions` of `isValidImageFile`. -/
def validExtensions : List (List Char) :=
  [".jpg".toList, ".jpeg".toList, ".png".toList, ".gif".toList, ".webp".toList, ".svg".toList]

/-- The `isValidImageFile` of imageUtils.js. -/
def isValidImageFile (lowerChar : Char → List Char) (filename : List Char) : Bool :=
  let extension := substring (lastIndexOf '.' filename) (toLowerCase lowerChar filename)
  validExtensions.contains extension

/-- Characters matched by `[a-z0-9.]`. -/
def isSafeChar (c : Char) : Bool :=
  (97 ≤ c.toNat && c.toNat ≤ 122) || (48 ≤ c.toNat && c.toNat ≤ 57) || c == '.'

/-- The second `replace` of `generateSafeFilename` (pattern `-+`, global): every
run of `-` becomes one `-`. -/
def collapseDashes : List Char → List Char
  | [] => []
  | [c] => [c]
  | c :: d :: cs =>
    if c == '-' && d == '-' then collapseDashes (d :: cs)
    else c :: collapseDashes (d :: cs)

/-- The third `replace` of `generateSafeFilename` (pattern `^-|-$`, global): a `-`
at the start is removed, and a `-` at the end of what remains. -/
def stripDashes (s : List Char) : List Char :=
  let t := match s with
    | '-' :: cs => cs
    | _ => s
  if t.getLast? == some '-' then t.dropLast else t

/-- The `safeName` of `generateSafeFilename`. -/
def safeName (lowerChar : Char → List Char) (originalName : List Char) : List Char :=
  stripDashes (collapseDashes
    ((toLowerCase lowerChar originalName).map (fun c => if isSafeChar c then c else '-')))

/-- The `generateSafeFilename` of imageUtils.js; `timestamp` is the value of
`Date.now()`. -/
def generateSafeFilename (lowerChar : Char → List Char) (timestamp : Nat)
    (originalName productId : List Char) : List Char :=
  "product-".toList ++ productId ++ "-".toList ++ digits timestamp ++ "-".toList ++
    safeName lowerChar originalName

/-! ## The statements of `POST /api/cart`, one at a time (index.js 178-238)

Between its sqlite statements the handler waits for a callback, and the
statements of another request can be executed in between.  Each statement is
executed by sqlite as a whole. -/

/-- Where the handler of one `POST /api/cart` request stands: nothing executed
yet; the product lookup has returned a row; the cart lookup has returned
`cartItem`; the answer has been sent. -/
inductive CartRun where
  | received
  | productChecked
  | cartChecked (cartItem : Option CartItem)
  | answered (response : Response CartAnswer)
deriving DecidableEq, Repr

/-- The next statement of the handler of `POST /api/cart` and the code of its
callback: the guard and the product lookup; the cart lookup; the `UPDATE` or
the `INSERT` and the answer. -/
def postCartStep (now : Nat) (body : CartBody) : CartRun → Store → CartRun × Store
  | .received, s =>
    match body.productId with
    | none => (.answered (.error 400 "Product ID is required."), s)
    | some productId =>
      if productId == 0 then
        (.answered (.error 400 "Product ID is required."), s)
      else
        match s.products.find? (fun p => p.id == productId) with
        | none => (.answered (.error 404 "Product not found."), s)
        | some _ => (.productChecked, s)
  | .productChecked, s =>
    (.cartChecked (s.cart_items.find? (fun c => c.product_id == body.productId.getD 0)), s)
  | .cartChecked (some cartItem), s =>
    (.answered (.ok (.updated (body.productId.getD 0)
        (cartItem.quantity + body.quantity.getD 1))),
      { s with
        cart_items := s.cart_items.map (fun c =>
          if c.product_id == body.productId.getD 0 then
            { c with quantity := c.quantity + body.quantity.getD 1 }
          else c) })
  | .cartChecked none, s =>
    let lastID := nextRowid (s.cart_items.map (·.id)) s.cartSeq
    (.answered (.ok (.added lastID (body.productId.getD 0) (body.quantity.getD 1))),
      { s with
        cart_items := s.cart_items ++ [⟨lastID, body.productId.getD 0, body.quantity.getD 1, now⟩]
        cartSeq := lastID })
  | .answered response, s => (.answered response, s)

/-- Two `POST /api/cart` requests in flight, and the store. -/
structure Race where
  first : CartRun
  second : CartRun
  store : Store
deriving DecidableEq, Repr

/-- The next statement of the first request (`pick = true`) or of the second
request (`pick = false`) is executed. -/
def raceStep (now1 now2 : Nat) (body1 body2 : CartBody) (r : Race) (pick : Bool) : Race :=
  if pick then
    ⟨(postCartStep now1 body1 r.first r.store).1, r.second,
      (postCartStep now1 body1 r.first r.store).2⟩
  else
    ⟨r.first, (postCartStep now2 body2 r.second r.store).1,
      (postCartStep now2 body2 r.second r.store).2⟩

/-- The two requests and the store after the statements have been executed in the
order given by `schedule`. -/
def race (now1 now2 : Nat) (body1 body2 : CartBody) (schedule : List Bool) (s : Store) : Race :=
  schedule.foldl (raceStep now1 now2 body1 body2) ⟨.received, .received, s⟩

/-- Whether the request has been answered. -/
def CartRun.isAnswered : CartRun → Bool
  | .answered _ => true
  | _ => false

/-- The cart lines that refer to product `p`. -/
def linesFor (p : Nat) (cart : List CartItem) : List CartItem :=
  cart.filter (fun c => c.product_id == p)

/-- The quantity stored for product `p`: the sum over its cart lines. -/
def quantityFor (p : Nat) (cart : List CartItem) : Int :=
  ((linesFor p cart).map (·.quantity)).sum

/-- The quantity a request has still to add: `q` until it is answered. -/
def CartRun.pending (q : Int) : CartRun → Int
  | .answered _ => 0
  | _ => q

/-- Number of cart lines the request has inserted. -/
def CartRun.inserted : CartRun → Nat
  | .answered (.ok (.added _ _ _)) => 1
  | _ => 0

/-- The cart lookup of the request found no line (whether or not the line has
been inserted since). -/
def CartRun.foundNoLine : CartRun → Bool
  | .cartChecked none => true
  | .answered (.ok (.added _ _ _)) => true
  | _ => false

/-- The cart lookup of the request found no line and the insert is still to come. -/
def CartRun.aboutToInsert : CartRun → Bool
  | .cartChecked none => true
  | _ => false

/-- The cart lookup of the request found a line (whether or not the update has
been executed since). -/
def CartRun.foundLine : CartRun → Bool
  | .cartChecked (some _) => true
  | .answered (.ok (.updated _ _)) => true
  | _ => false

/-- The request was answered with an error. -/
def CartRun.failed : CartRun → Bool
  | .answered (.error _ _) => true
  | _ => false

/-- What every interleaving keeps, for two requests that add `qa` and `qb` of
product `p` to a store that started as `s0`; `ra` and `rb` are the requests and
`st` the store now. -/
def RaceInv (p : Nat) (s0 : Store) (qa qb : Int) (ra rb : CartRun) (st : Store) : Prop :=
  ra.failed = false ∧ rb.failed = false ∧
  st.products = s0.products ∧
  (linesFor p st.cart_items).length
    = (linesFor p s0.cart_items).length + ra.inserted + rb.inserted ∧
  quantityFor p st.cart_items + ra.pending qa + rb.pending qb
    = quantityFor p s0.cart_items + qa + qb ∧
  ((ra.foundNoLine || rb.foundNoLine) = true → (linesFor p s0.cart_items).length = 0) ∧
  (ra.foundLine && rb.aboutToInsert) = false ∧
  (rb.foundLine && ra.aboutToInsert) = false ∧
  ((ra.foundLine || rb.foundLine) = true → (linesFor p st.cart_items).length = 1)

/-! ## Auxiliary facts -/

theorem find?_product_isSome (l : List Product) (p : Nat) (h : ∃ x ∈ l, x.id = p) :
    ∃ row, l.find? (fun x => x.id == p) = some row := by
  obtain ⟨x, hx, hxp⟩ := h
  cases hf : l.find? (fun x => x.id == p) with
  | some row => exact ⟨row, rfl⟩
  | none =>
    rw [List.find?_eq_none] at hf
    exact absurd (by simpa using hxp) (hf x hx)

theorem find?_cart_none (l : List CartItem) (p : Nat) (h : ∀ c ∈ l, c.product_id ≠ p) :
    l.find? (fun c => c.product_id == p) = none := by
  rw [List.find?_eq_none]
  intro c hc
  simpa using h c hc

theorem map_bump_of_absent (l : List CartItem) (p : Nat) (q : Int)
    (h : ∀ c ∈ l, c.product_id ≠ p) :
    l.map (fun c => if c.product_id == p then { c with quantity := c.quantity + q } else c)
      = l := by
  have hid : l.map (fun c =>
      if c.product_id == p then { c with quantity := c.quantity + q } else c) = l.map id :=
    List.map_congr_left (fun c hc => by simp [h c hc])
  rw [hid, List.map_id]

theorem filter_product_of_absent (l : List CartItem) (p : Nat)
    (h : ∀ c ∈ l, c.product_id ≠ p) :
    l.filter (fun c => c.product_id == p) = [] := by
  rw [List.filter_eq_nil_iff]
  intro c hc
  simpa using h c hc

/-! ## Adding to the cart -/

/-- C1: in a store where product `p` exists and no cart line refers to it, two
`POST /api/cart` requests for `p` with quantities `q1` and `q2`, handled one
after the other, both succeed (the first inserts a line, the second updates
it) and leave exactly one cart line for `p`, whose quantity is `q1 + q2`. -/
theorem postCart_twice_one_line (s : Store) (p : Nat) (q1 q2 : Int) (t1 t2 : Nat)
    (hs : s.rowidsPositive) (hp : ∃ x ∈ s.products, x.id = p)
    (hc : ∀ c ∈ s.cart_items, c.product_id ≠ p) :
    ∃ cartItemId,
      (postCart t1 ⟨some p, some q1⟩ s).1 = .ok (.added cartItemId p q1) ∧
      (postCart t2 ⟨some p, some q2⟩ (postCart t1 ⟨some p, some q1⟩ s).2).1
        = .ok (.updated p (q1 + q2)) ∧
      (postCart t2 ⟨some p, some q2⟩ (postCart t1 ⟨some p, some q1⟩ s).2).2.cart_items.filter
        (fun c => c.product_id == p) = [⟨cartItemId, p, q1 + q2, t1⟩] := by
  have hp0 : p ≠ 0 := by
    obtain ⟨x, hx, hxp⟩ := hp
    exact hxp ▸ hs.1 x hx
  obtain ⟨row, hrow⟩ := find?_product_isSome s.products p hp
  have hnone := find?_cart_none s.cart_items p hc
  refine ⟨nextRowid (s.cart_items.map (·.id)) s.cartSeq, ?_, ?_, ?_⟩
  · simp [postCart, hp0, hrow, hnone]
  · simp [postCart, hp0, hrow, hnone, List.find?_append]
  · have hmap := map_bump_of_absent s.cart_items p q2 hc
    have hfil := filter_product_of_absent s.cart_items p hc
    simp only [beq_iff_eq] at hmap hfil
    simp [postCart, hp0, hrow, hnone, List.find?_append, List.filter_append, hmap, hfil]

theorem postCart_twice_one_line_witness :
    ∃ cartItemId,
      (postCart 5 ⟨some 1, some 2⟩ ⟨[⟨1, "Mouse", 999, none, none⟩], 1, [], 0, [], 0⟩).1
        = .ok (.added cartItemId 1 2) ∧
      (postCart 6 ⟨some 1, some 3⟩
        (postCart 5 ⟨some 1, some 2⟩ ⟨[⟨1, "Mouse", 999, none, none⟩], 1, [], 0, [], 0⟩).2).1
        = .ok (.updated 1 (2 + 3)) ∧
      (postCart 6 ⟨some 1, some 3⟩
        (postCart 5 ⟨some 1, some 2⟩
          ⟨[⟨1, "Mouse", 999, none, none⟩], 1, [], 0, [], 0⟩).2).2.cart_items.filter
        (fun c => c.product_id == 1) = [⟨cartItemId, 1, 2 + 3, 5⟩] :=
  postCart_twice_one_line ⟨[⟨1, "Mouse", 999, none, none⟩], 1, [], 0, [], 0⟩ 1 2 3 5 6
    (by decide) ⟨⟨1, "Mouse", 999, none, none⟩, by simp, rfl⟩ (by simp)

/-! ## One cart line per product -/

theorem map_product_id_update (l : List CartItem) (f : CartItem → CartItem)
    (hf : ∀ c, (f c).product_id = c.product_id) :
    (l.map f).map (·.product_id) = l.map (·.product_id) := by
  rw [List.map_map]
  exact List.map_congr_left (fun c _ => by simp [hf c])

theorem apply_keeps_distinct_refs (op : Op) (s : Store)
    (h : (s.cart_items.map (·.product_id)).Nodup) :
    ((op.apply s).cart_items.map (·.product_id)).Nodup := by
  cases op with
  | postProducts body =>
    simp only [Op.apply, postProducts]
    split
    · split <;> exact h
    · exact h
  | putProductsId id body =>
    simp only [Op.apply, putProductsId]
    split
    · split
      · exact h
      · split <;> exact h
    · exact h
  | deleteProductsId id =>
    simp only [Op.apply, deleteProductsId]
    split <;> exact h
  | postCart now body =>
    simp only [Op.apply, postCart]
    split
    · exact h
    · split
      · exact h
      · split
        · exact h
        · split
          · rw [map_product_id_update]
            · exact h
            · intro c
              split <;> rfl
          · rename_i productId _ _ _ _ hnone
            rw [List.find?_eq_none] at hnone
            simp only [List.map_append, List.map_cons, List.map_nil]
            refine List.Nodup.append h (List.nodup_singleton _) ?_
            rw [List.disjoint_singleton]
            intro hmem
            obtain ⟨c, hc, hcp⟩ := List.mem_map.1 hmem
            exact hnone c hc (by simpa using hcp)
  | putCartId id quantity =>
    simp only [Op.apply, putCartId]
    split
    · exact h
    · split
      · exact h
      · split
        · exact h
        · rw [map_product_id_update]
          · exact h
          · intro c
            split <;> rfl
  | deleteCartId id =>
    simp only [Op.apply, deleteCartId]
    split
    · exact h
    · exact h.sublist ((List.filter_sublist _).map _)
  | postCheckout insertErr clearErr now body =>
    simp only [Op.apply, postCheckout]
    repeat (first | exact h | exact List.nodup_nil | split)

theorem run_keeps_distinct_refs (ops : List Op) (s : Store)
    (h : (s.cart_items.map (·.product_id)).Nodup) :
    ((run ops s).cart_items.map (·.product_id)).Nodup := by
  induction ops generalizing s with
  | nil => exact h
  | cons op ops ih => exact ih (op.apply s) (apply_keeps_distinct_refs op s h)

/-- C2: in every store reached from one with an empty cart by a sequence of
requests handled one after the other (product create, update, delete; cart
add, update, remove; checkout), each product is referred to by at most one
cart line. -/
theorem cart_one_line_per_product (ops : List Op) (s0 : Store) (h0 : s0.cart_items = [])
    (p : Nat) :
    ((run ops s0).cart_items.filter (fun c => c.product_id == p)).length ≤ 1 := by
  have hnd := run_keeps_distinct_refs ops s0 (by simp [h0])
  have hcount := List.nodup_iff_count_le_one.1 hnd p
  have hlen : ((run ops s0).cart_items.filter (fun c => c.product_id == p)).length
      = ((run ops s0).cart_items.map (·.product_id)).count p := by
    rw [List.count, List.countP_map, List.countP_eq_length_filter]
    rfl
  omega

theorem cart_one_line_per_product_witness :
    ((run [.postCart 1 ⟨some 1, some 2⟩, .postCart 2 ⟨some 1, none⟩, .putCartId 1 (some 7)]
      ⟨[⟨1, "Mouse", 999, none, none⟩], 1, [], 0, [], 0⟩).cart_items.filter
        (fun c => c.product_id == 1)).length ≤ 1 :=
  cart_one_line_per_product _ _ rfl 1

/-! ## Checkout -/

theorem foldl_add_eq_sum {α : Type} (f : α → Int) (l : List α) (a : Int) :
    l.foldl (fun sum item => sum + f item) a = a + (l.map f).sum := by
  induction l generalizing a with
  | nil => simp
  | cons x l ih => simp [List.foldl_cons, ih, add_assoc]

theorem totalAmount_eq_sum (cartItems : List LineItem) :
    totalAmount cartItems = (cartItems.map (fun item => item.price * item.quantity)).sum := by
  simp [totalAmount, foldl_add_eq_sum (fun item : LineItem => item.price * item.quantity)]

theorem postCheckout_insert_failed (message : String) (clearErr : Option String) (now : Nat)
    (name email : String) (address city zip : Option String) (items : List LineItem)
    (s : Store) (hname : name ≠ "") (hemail : email ≠ "") (hitems : items ≠ []) :
    postCheckout (some message) clearErr now
        ⟨some ⟨some name, some email, address, city, zip⟩, some items⟩ s
      = (.error 500 message, s) := by
  have hlen : items.length ≠ 0 := fun h => hitems (List.length_eq_zero.1 h)
  simp [postCheckout, truthyStr, hname, hemail, hlen]

theorem postCheckout_executed (clearErr : Option String) (now : Nat)
    (name email : String) (address city zip : Option String) (items : List LineItem)
    (s : Store) (hname : name ≠ "") (hemail : email ≠ "") (hitems : items ≠ []) :
    postCheckout none clearErr now
        ⟨some ⟨some name, some email, address, city, zip⟩, some items⟩ s
      = (.ok ⟨nextRowid (s.orders.map (·.id)) s.ordersSeq, name, email, items, totalAmount items⟩,
          { s with
            cart_items := match clearErr with
              | some _ => s.cart_items
              | none => []
            orders := s.orders ++ [⟨nextRowid (s.orders.map (·.id)) s.ordersSeq, name, email,
              address.getD "", city.getD "", zip.getD "", totalAmount items, items, now⟩]
            ordersSeq := nextRowid (s.orders.map (·.id)) s.ordersSeq }) := by
  have hlen : items.length ≠ 0 := fun h => hitems (List.length_eq_zero.1 h)
  cases clearErr <;> simp [postCheckout, truthyStr, hname, hemail, hlen]

/-- C3: for a checkout request with non-empty name and email and a non-empty
item list, the handler answers with a receipt exactly when the order insert is
executed, and every such answer comes with exactly one order appended to the
order store; the total_amount of that order and the total of the receipt both
equal the sum of price × quantity over the submitted items. -/
theorem postCheckout_one_order (insertErr clearErr : Option String) (now : Nat)
    (name email : String) (address city zip : Option String) (items : List LineItem)
    (s : Store) (hname : name ≠ "") (hemail : email ≠ "") (hitems : items ≠ []) :
    ((∃ r, (postCheckout insertErr clearErr now
        ⟨some ⟨some name, some email, address, city, zip⟩, some items⟩ s).1 = .ok r)
      ↔ insertErr = none) ∧
    ∀ r s1, postCheckout insertErr clearErr now
        ⟨some ⟨some name, some email, address, city, zip⟩, some items⟩ s = (.ok r, s1) →
      ∃ o, s1.orders = s.orders ++ [o] ∧ r.orderId = o.id ∧
        o.total_amount = (items.map (fun item => item.price * item.quantity)).sum ∧
        r.total = (items.map (fun item => item.price * item.quantity)).sum := by
  cases insertErr with
  | some message =>
    rw [postCheckout_insert_failed message clearErr now name email address city zip items s
      hname hemail hitems]
    simp
  | none =>
    rw [postCheckout_executed clearErr now name email address city zip items s
      hname hemail hitems]
    refine ⟨by simp, ?_⟩
    intro r s1 h
    simp only [Prod.mk.injEq, Response.ok.injEq] at h
    obtain ⟨hr, hs1⟩ := h
    subst hr
    subst hs1
    exact ⟨_, rfl, rfl, totalAmount_eq_sum items, totalAmount_eq_sum items⟩

theorem postCheckout_one_order_witness :
    ((∃ r, (postCheckout none none 9
        ⟨some ⟨some "A", some "a@b.com", none, none, none⟩, some [⟨1, "Mouse", 999, 2, none⟩]⟩
        ⟨[⟨1, "Mouse", 999, none, none⟩], 1, [⟨1, 1, 2, 5⟩], 1, [], 0⟩).1 = .ok r)
      ↔ (none : Option String) = none) ∧
    ∀ r s1, postCheckout none none 9
        ⟨some ⟨some "A", some "a@b.com", none, none, none⟩, some [⟨1, "Mouse", 999, 2, none⟩]⟩
        ⟨[⟨1, "Mouse", 999, none, none⟩], 1, [⟨1, 1, 2, 5⟩], 1, [], 0⟩ = (.ok r, s1) →
      ∃ o, s1.orders = [] ++ [o] ∧ r.orderId = o.id ∧
        o.total_amount
          = (([⟨1, "Mouse", 999, 2, none⟩] : List LineItem).map
              (fun item => item.price * item.quantity)).sum ∧
        r.total
          = (([⟨1, "Mouse", 999, 2, none⟩] : List LineItem).map
              (fun item => item.price * item.quantity)).sum :=
  postCheckout_one_order none none 9 "A" "a@b.com" none none none [⟨1, "Mouse", 999, 2, none⟩]
    ⟨[⟨1, "Mouse", 999, none, none⟩], 1, [⟨1, 1, 2, 5⟩], 1, [], 0⟩
    (by decide) (by decide) (by simp)

theorem getCart_of_empty (s : Store) (h : s.cart_items = []) : getCart s = .ok ⟨[], 0, 0⟩ := by
  simp [getCart, cartJoin, h]

/-- C4, as stated, fails: with one line in the cart, a checkout whose order
insert is executed and whose `DELETE FROM cart_items` reports an error is
answered with the receipt (status 200) although the cart still holds the line,
and `GET /api/cart` afterwards does not return an empty cart. -/
theorem postCheckout_success_cart_kept :
    (postCheckout none (some "SQLITE_BUSY: database is locked") 9
        ⟨some ⟨some "A", some "a@b.com", none, none, none⟩, some [⟨1, "Mouse", 999, 2, none⟩]⟩
        ⟨[⟨1, "Mouse", 999, none, none⟩], 1, [⟨1, 1, 2, 5⟩], 1, [], 0⟩).1.status = 200 ∧
    (postCheckout none (some "SQLITE_BUSY: database is locked") 9
        ⟨some ⟨some "A", some "a@b.com", none, none, none⟩, some [⟨1, "Mouse", 999, 2, none⟩]⟩
        ⟨[⟨1, "Mouse", 999, none, none⟩], 1, [⟨1, 1, 2, 5⟩], 1, [], 0⟩).2.cart_items ≠ [] ∧
    getCart (postCheckout none (some "SQLITE_BUSY: database is locked") 9
        ⟨some ⟨some "A", some "a@b.com", none, none, none⟩, some [⟨1, "Mouse", 999, 2, none⟩]⟩
        ⟨[⟨1, "Mouse", 999, none, none⟩], 1, [⟨1, 1, 2, 5⟩], 1, [], 0⟩).2
      ≠ .ok ⟨[], 0, 0⟩ := by
  decide

/-- C4, amended: for a checkout request with non-empty name and email and a
non-empty item list, when sqlite executes both statements the handler answers
with a receipt, and after every answer with a receipt for which the
`DELETE FROM cart_items` was executed the cart store holds no line at all,
whatever it held before and whatever the submitted items were, so that
`GET /api/cart` returns items = [], total = 0 and totalItems = 0. -/
theorem postCheckout_clears_cart (insertErr : Option String) (now : Nat)
    (name email : String) (address city zip : Option String) (items : List LineItem)
    (s : Store) (hname : name ≠ "") (hemail : email ≠ "") (hitems : items ≠ []) :
    (∃ r, (postCheckout none none now
        ⟨some ⟨some name, some email, address, city, zip⟩, some items⟩ s).1 = .ok r) ∧
    ∀ r s1, postCheckout insertErr none now
        ⟨some ⟨some name, some email, address, city, zip⟩, some items⟩ s = (.ok r, s1) →
      s1.cart_items = [] ∧ getCart s1 = .ok ⟨[], 0, 0⟩ := by
  refine ⟨?_, ?_⟩
  · rw [postCheckout_executed none now name email address city zip items s hname hemail hitems]
    exact ⟨_, rfl⟩
  · intro r s1 h
    cases insertErr with
    | some message =>
      rw [postCheckout_insert_failed message none now name email address city zip items s
        hname hemail hitems] at h
      simp at h
    | none =>
      rw [postCheckout_executed none now name email address city zip items s
        hname hemail hitems] at h
      simp only [Prod.mk.injEq] at h
      obtain ⟨_, hs1⟩ := h
      subst hs1
      exact ⟨rfl, getCart_of_empty _ rfl⟩

theorem postCheckout_clears_cart_witness :
    (∃ r, (postCheckout none none 9
        ⟨some ⟨some "A", some "a@b.com", none, none, none⟩, some [⟨1, "Mouse", 999, 2, none⟩]⟩
        ⟨[⟨1, "Mouse", 999, none, none⟩, ⟨2, "Pad", 50, none, none⟩], 2,
          [⟨1, 1, 2, 5⟩, ⟨2, 2, 1, 6⟩], 2, [], 0⟩).1 = .ok r) ∧
    ∀ r s1, postCheckout none none 9
        ⟨some ⟨some "A", some "a@b.com", none, none, none⟩, some [⟨1, "Mouse", 999, 2, none⟩]⟩
        ⟨[⟨1, "Mouse", 999, none, none⟩, ⟨2, "Pad", 50, none, none⟩], 2,
          [⟨1, 1, 2, 5⟩, ⟨2, 2, 1, 6⟩], 2, [], 0⟩ = (.ok r, s1) →
      s1.cart_items = [] ∧ getCart s1 = .ok ⟨[], 0, 0⟩ :=
  postCheckout_clears_cart none 9 "A" "a@b.com" none none none [⟨1, "Mouse", 999, 2, none⟩]
    ⟨[⟨1, "Mouse", 999, none, none⟩, ⟨2, "Pad", 50, none, none⟩], 2,
      [⟨1, 1, 2, 5⟩, ⟨2, 2, 1, 6⟩], 2, [], 0⟩
    (by decide) (by decide) (by simp)

/-- C5: whatever the store holds, `POST /api/checkout` answers 400 when
customerInfo is missing, when its name or its email is missing or empty, and
when cartItems is missing or empty; in each case the store is left as it was
(no order is created and the cart is unchanged). -/
theorem postCheckout_invalid (insertErr clearErr : Option String) (now : Nat)
    (body : CheckoutBody) (s : Store)
    (h : body.customerInfo = none ∨
      (∃ info, body.customerInfo = some info ∧
        (info.name = none ∨ info.name = some "" ∨ info.email = none ∨ info.email = some "")) ∨
      body.cartItems = none ∨ body.cartItems = some []) :
    (postCheckout insertErr clearErr now body s).1.status = 400 ∧
    (postCheckout insertErr clearErr now body s).2 = s := by
  obtain ⟨customerInfo, cartItems⟩ := body
  cases customerInfo with
  | none => simp [postCheckout, Response.status]
  | some info =>
    by_cases hinfo : (!truthyStr info.name || !truthyStr info.email) = true
    · simp [postCheckout, Response.status, hinfo]
    · have hitems : cartItems = none ∨ cartItems = some [] := by
        rcases h with h | ⟨i, hi, h⟩ | h
        · simp at h
        · exfalso
          simp only [Option.some.injEq] at hi
          subst hi
          apply hinfo
          rcases h with h | h | h | h <;> simp [truthyStr, h]
        · exact h
      rcases hitems with h | h <;> simp [postCheckout, Response.status, hinfo, h]

theorem postCheckout_invalid_witness :
    (postCheckout none none 9 ⟨some ⟨some "A", some "", none, none, none⟩,
        some [⟨1, "Mouse", 999, 2, none⟩]⟩
        ⟨[⟨1, "Mouse", 999, none, none⟩], 1, [⟨1, 1, 2, 5⟩], 1, [], 0⟩).1.status = 400 ∧
    (postCheckout none none 9 ⟨some ⟨some "A", some "", none, none, none⟩,
        some [⟨1, "Mouse", 999, 2, none⟩]⟩
        ⟨[⟨1, "Mouse", 999, none, none⟩], 1, [⟨1, 1, 2, 5⟩], 1, [], 0⟩).2
      = ⟨[⟨1, "Mouse", 999, none, none⟩], 1, [⟨1, 1, 2, 5⟩], 1, [], 0⟩ :=
  postCheckout_invalid none none 9 _ _
    (Or.inr (Or.inl ⟨_, rfl, Or.inr (Or.inr (Or.inr rfl))⟩))

/-! ## Catalog -/

theorem le_foldl_max (ids : List Nat) (seq : Nat) :
    seq ≤ ids.foldl max seq ∧ ∀ x ∈ ids, x ≤ ids.foldl max seq := by
  induction ids generalizing seq with
  | nil => simp
  | cons a ids ih =>
    obtain ⟨h1, h2⟩ := ih (max seq a)
    refine ⟨le_trans (le_max_left _ _) h1, ?_⟩
    intro x hx
    rcases List.mem_cons.1 hx with rfl | hx
    · exact le_trans (le_max_right _ _) h1
    · exact h2 x hx

theorem nextRowid_fresh (ids : List Nat) (seq : Nat) :
    nextRowid ids seq ≠ 0 ∧ seq < nextRowid ids seq ∧ ∀ x ∈ ids, x < nextRowid ids seq := by
  obtain ⟨h1, h2⟩ := le_foldl_max ids seq
  refine ⟨by simp [nextRowid], Nat.lt_succ_of_le h1, fun x hx => Nat.lt_succ_of_le (h2 x hx)⟩

theorem find?_product_none (l : List Product) (id : Nat) (h : ∀ x ∈ l, x.id ≠ id) :
    l.find? (fun x => x.id == id) = none := by
  rw [List.find?_eq_none]
  intro x hx
  simpa using h x hx

/-- C6: for a creation request with a non-empty name and a price greater than
0, with description and imageUrl present or absent, `POST /api/products`
answers with an id, and `GET /api/products/:id` with that id then returns the
product with that id whose name, price, description and imageUrl are those of
the request. -/
theorem postProducts_then_get (name : String) (price : Int) (description imageUrl : Option String)
    (s : Store) (hname : name ≠ "") (hprice : 0 < price) :
    ∃ id, (postProducts ⟨some name, some (.number price), description, imageUrl⟩ s).1 = .ok id ∧
      getProductsId id
          (postProducts ⟨some name, some (.number price), description, imageUrl⟩ s).2
        = .ok ⟨id, name, price, description, imageUrl⟩ := by
  have hp : price ≠ 0 := ne_of_gt hprice
  have hfresh := (nextRowid_fresh (s.products.map (·.id)) s.productsSeq).2.2
  have hnone : s.products.find? (fun x => x.id == nextRowid (s.products.map (·.id)) s.productsSeq)
      = none := by
    apply find?_product_none
    intro x hx
    exact ne_of_lt (hfresh x.id (List.mem_map_of_mem _ hx))
  refine ⟨nextRowid (s.products.map (·.id)) s.productsSeq, ?_, ?_⟩
  · simp [postProducts, PriceField.truthy, hname, hp]
  · simp [postProducts, PriceField.truthy, PriceField.stored, getProductsId, hname, hp,
      List.find?_append, hnone]

theorem postProducts_then_get_witness :
    ∃ id, (postProducts ⟨some "Mouse", some (.number 999), none, some "mouse.jpg"⟩
        ⟨[⟨3, "Pad", 50, none, none⟩], 7, [], 0, [], 0⟩).1 = .ok id ∧
      getProductsId id (postProducts ⟨some "Mouse", some (.number 999), none, some "mouse.jpg"⟩
        ⟨[⟨3, "Pad", 50, none, none⟩], 7, [], 0, [], 0⟩).2
        = .ok ⟨id, "Mouse", 999, none, some "mouse.jpg"⟩ :=
  postProducts_then_get "Mouse" 999 none (some "mouse.jpg")
    ⟨[⟨3, "Pad", 50, none, none⟩], 7, [], 0, [], 0⟩ (by decide) (by decide)

/-- C7: deleting a product that exists succeeds and `GET /api/products/:id`
with the same id then answers 404; `DELETE /api/products/:id` for an id that no
product has answers 404 and leaves the store as it was. -/
theorem deleteProductsId_then_get (id : Nat) (s : Store) :
    ((∃ x ∈ s.products, x.id = id) →
      (∃ changes, (deleteProductsId id s).1 = .ok changes) ∧
      getProductsId id (deleteProductsId id s).2 = .error 404 "Product not found.") ∧
    ((∀ x ∈ s.products, x.id ≠ id) →
      deleteProductsId id s = (.error 404 "Product not found.", s)) := by
  constructor
  · rintro ⟨x, hx, hxid⟩
    have hlen : (s.products.filter (fun p => p.id == id)).length ≠ 0 := by
      intro h
      have hmem : x ∈ s.products.filter (fun p => p.id == id) :=
        List.mem_filter.2 ⟨hx, by simpa using hxid⟩
      rw [List.length_eq_zero.1 h] at hmem
      exact List.not_mem_nil _ hmem
    have hnone : (s.products.filter (fun p => !(p.id == id))).find? (fun p => p.id == id)
        = none := by
      apply find?_product_none
      intro y hy
      simpa using (List.mem_filter.1 hy).2
    simp only [beq_iff_eq] at hlen
    simp [deleteProductsId, getProductsId, hlen, hnone]
  · intro h
    have hnil : s.products.filter (fun p => p.id == id) = [] := by
      rw [List.filter_eq_nil_iff]
      intro x hx
      simpa using h x hx
    simp [deleteProductsId, hnil]

theorem deleteProductsId_then_get_witness :
    ((∃ changes, (deleteProductsId 1
        ⟨[⟨1, "Mouse", 999, none, none⟩, ⟨2, "Pad", 50, none, none⟩], 2, [], 0, [], 0⟩).1
        = .ok changes) ∧
      getProductsId 1 (deleteProductsId 1
        ⟨[⟨1, "Mouse", 999, none, none⟩, ⟨2, "Pad", 50, none, none⟩], 2, [], 0, [], 0⟩).2
        = .error 404 "Product not found.") ∧
    deleteProductsId 5 ⟨[⟨1, "Mouse", 999, none, none⟩], 1, [], 0, [], 0⟩
      = (.error 404 "Product not found.", ⟨[⟨1, "Mouse", 999, none, none⟩], 1, [], 0, [], 0⟩) :=
  ⟨(deleteProductsId_then_get 1
      ⟨[⟨1, "Mouse", 999, none, none⟩, ⟨2, "Pad", 50, none, none⟩], 2, [], 0, [], 0⟩).1
      ⟨⟨1, "Mouse", 999, none, none⟩, by simp, rfl⟩,
    (deleteProductsId_then_get 5 ⟨[⟨1, "Mouse", 999, none, none⟩], 1, [], 0, [], 0⟩).2
      (by simp)⟩

/-! ## Removing a cart line -/

theorem filter_cart_id_of_absent (l : List CartItem) (id : Nat) (h : ∀ x ∈ l, x.id ≠ id) :
    l.filter (fun x => x.id == id) = [] ∧ l.filter (fun x => !(x.id == id)) = l := by
  constructor
  · rw [List.filter_eq_nil_iff]
    intro x hx
    simpa using h x hx
  · rw [List.filter_eq_self]
    intro x hx
    simpa using h x hx

theorem filter_cart_id_of_mem (l : List CartItem) (c : CartItem)
    (hpk : (l.map (·.id)).Nodup) (hc : c ∈ l) :
    l.filter (fun x => x.id == c.id) = [c] ∧ l.filter (fun x => !(x.id == c.id)) = l.erase c := by
  induction l with
  | nil => exact absurd hc (List.not_mem_nil _)
  | cons a l ih =>
    rw [List.map_cons, List.nodup_cons] at hpk
    obtain ⟨ha, hl⟩ := hpk
    have hrest : ∀ x ∈ l, x.id ≠ a.id := fun x hx hxa => ha (hxa ▸ List.mem_map_of_mem _ hx)
    by_cases hac : a = c
    · subst hac
      obtain ⟨h1, h2⟩ := filter_cart_id_of_absent l a.id hrest
      simp [List.filter_cons, h1, h2]
    · have hcl : c ∈ l := by
        rcases List.mem_cons.1 hc with h | h
        · exact absurd h.symm hac
        · exact h
      have hid : a.id ≠ c.id := fun h => hrest c hcl h.symm
      obtain ⟨h1, h2⟩ := ih hl hcl
      have hbeq : (a == c) = false := by simpa using hac
      simp [List.filter_cons, hid, h1, h2, List.erase_cons, hbeq]

/-- C8: for a cart whose lines have distinct ids (the primary key) and a line
`c` of it, the first `DELETE /api/cart/:id` with the id of `c` succeeds with one
change and leaves the cart with `c` taken out and every other line where and as
it was, the rest of the store untouched; a second `DELETE /api/cart/:id` with
the same id answers 404 and leaves the store as it was. -/
theorem deleteCartId_twice (c : CartItem) (s : Store)
    (hpk : (s.cart_items.map (·.id)).Nodup) (hc : c ∈ s.cart_items) :
    (deleteCartId c.id s).1 = .ok 1 ∧
    (deleteCartId c.id s).2 = { s with cart_items := s.cart_items.erase c } ∧
    (∀ x, x ∈ (deleteCartId c.id s).2.cart_items ↔ x ∈ s.cart_items ∧ x ≠ c) ∧
    deleteCartId c.id (deleteCartId c.id s).2
      = (.error 404 "Cart item not found.", (deleteCartId c.id s).2) := by
  obtain ⟨h1, h2⟩ := filter_cart_id_of_mem s.cart_items c hpk hc
  have hstep : deleteCartId c.id s = (.ok 1, { s with cart_items := s.cart_items.erase c }) := by
    simp [deleteCartId, h1, h2]
  have hnd : s.cart_items.Nodup := List.Nodup.of_map _ hpk
  have habs : ∀ x ∈ s.cart_items.erase c, x.id ≠ c.id := by
    intro x hx
    rw [← h2] at hx
    simpa using (List.mem_filter.1 hx).2
  obtain ⟨h3, _⟩ := filter_cart_id_of_absent (s.cart_items.erase c) c.id habs
  refine ⟨by rw [hstep], by rw [hstep], ?_, ?_⟩
  · intro x
    rw [hstep]
    simp only [hnd.mem_erase_iff]
    tauto
  · rw [hstep]
    simp [deleteCartId, h3]

theorem deleteCartId_twice_witness :
    (deleteCartId 1 ⟨[], 0, [⟨1, 1, 2, 5⟩, ⟨2, 2, 1, 6⟩], 2, [], 0⟩).1 = .ok 1 ∧
    (deleteCartId 1 ⟨[], 0, [⟨1, 1, 2, 5⟩, ⟨2, 2, 1, 6⟩], 2, [], 0⟩).2
      = ⟨[], 0, ([⟨1, 1, 2, 5⟩, ⟨2, 2, 1, 6⟩] : List CartItem).erase ⟨1, 1, 2, 5⟩, 2, [], 0⟩ ∧
    (∀ x, x ∈ (deleteCartId 1 ⟨[], 0, [⟨1, 1, 2, 5⟩, ⟨2, 2, 1, 6⟩], 2, [], 0⟩).2.cart_items ↔
      x ∈ ([⟨1, 1, 2, 5⟩, ⟨2, 2, 1, 6⟩] : List CartItem) ∧ x ≠ ⟨1, 1, 2, 5⟩) ∧
    deleteCartId 1 (deleteCartId 1 ⟨[], 0, [⟨1, 1, 2, 5⟩, ⟨2, 2, 1, 6⟩], 2, [], 0⟩).2
      = (.error 404 "Cart item not found.",
          (deleteCartId 1 ⟨[], 0, [⟨1, 1, 2, 5⟩, ⟨2, 2, 1, 6⟩], 2, [], 0⟩).2) :=
  deleteCartId_twice ⟨1, 1, 2, 5⟩ ⟨[], 0, [⟨1, 1, 2, 5⟩, ⟨2, 2, 1, 6⟩], 2, [], 0⟩
    (by decide) (by simp)

/-! ## Order history -/

/-- What `GET /api/orders` guarantees: all orders, none with a later created_at
after one with an earlier created_at. -/
theorem getOrders_sorted (s : Store) :
    ∃ rows, getOrders s = .ok rows ∧ rows.Perm s.orders ∧
      rows.Pairwise (fun a b => b.created_at ≤ a.created_at) :=
  ⟨_, rfl, List.perm_insertionSort _ _, List.sorted_insertionSort ordersNewerFirst s.orders⟩

/-- C9 at its failing input: two checkouts that succeed one after the other
within the same second (created_at 9 for both); `GET /api/orders` then returns
the order created first (id 1) before the order created second (id 2). -/
theorem getOrders_same_second_earlier_first :
    getOrders (postCheckout none none 9
        ⟨some ⟨some "B", some "b@c.com", none, none, none⟩, some [⟨2, "Pad", 50, 1, none⟩]⟩
        (postCheckout none none 9
          ⟨some ⟨some "A", some "a@b.com", none, none, none⟩, some [⟨1, "Mouse", 999, 2, none⟩]⟩
          ⟨[⟨1, "Mouse", 999, none, none⟩, ⟨2, "Pad", 50, none, none⟩], 2, [], 0, [], 0⟩).2).2
      = .ok [⟨1, "A", "a@b.com", "", "", "", 1998, [⟨1, "Mouse", 999, 2, none⟩], 9⟩,
          ⟨2, "B", "b@c.com", "", "", "", 50, [⟨2, "Pad", 50, 1, none⟩], 9⟩] := by
  decide

/-! ## Reading the cart -/

/-- C10: whatever the store holds, `GET /api/cart` succeeds; each returned item
comes from a cart line and the product that line refers to and has subtotal
equal to that product's price × the line's quantity; the returned total is
the sum of the items' subtotals and the returned totalItems is the sum of the
items' quantities; for an empty cart there are no items and both are 0. -/
theorem getCart_totals (s : Store) :
    ∃ d, getCart s = .ok d ∧
      (∀ item ∈ d.items, ∃ ci ∈ s.cart_items, ∃ p ∈ s.products,
        p.id = ci.product_id ∧ item.cart_item_id = ci.id ∧ item.id = p.id ∧
        item.quantity = ci.quantity ∧ item.price = p.price ∧
        item.subtotal = p.price * ci.quantity ∧ item.subtotal = item.price * item.quantity) ∧
      d.total = (d.items.map (·.subtotal)).sum ∧
      d.totalItems = (d.items.map (·.quantity)).sum ∧
      (s.cart_items = [] → d.items = [] ∧ d.total = 0 ∧ d.totalItems = 0) := by
  refine ⟨_, rfl, ?_, ?_, ?_, ?_⟩
  · intro item hitem
    obtain ⟨x, hx, rfl⟩ := List.mem_map.1 hitem
    have hx2 : x ∈ cartJoin s := (List.perm_insertionSort _ _).mem_iff.1 hx
    obtain ⟨ci, hci, hx3⟩ := List.mem_flatMap.1 hx2
    obtain ⟨p, hp, rfl⟩ := List.mem_map.1 hx3
    obtain ⟨hp1, hp2⟩ := List.mem_filter.1 hp
    exact ⟨ci, hci, p, hp1, by simpa using hp2, rfl, rfl, rfl, rfl, rfl, rfl⟩
  · simp [foldl_add_eq_sum (fun item : CartRow => item.subtotal)]
  · simp [foldl_add_eq_sum (fun item : CartRow => item.quantity)]
  · intro h
    simp [cartJoin, h]

/-! ## Rowids stay positive -/

theorem apply_keeps_rowidsPositive (op : Op) (s : Store) (h : s.rowidsPositive) :
    (op.apply s).rowidsPositive := by
  obtain ⟨hp, hc, ho⟩ := h
  cases op with
  | postProducts body =>
    simp only [Op.apply, postProducts]
    split
    · split
      · exact ⟨hp, hc, ho⟩
      · refine ⟨?_, hc, ho⟩
        intro p hpm
        rcases List.mem_append.1 hpm with h | h
        · exact hp p h
        · rw [List.mem_singleton] at h
          subst h
          exact (nextRowid_fresh _ _).1
    · exact ⟨hp, hc, ho⟩
  | putProductsId id body =>
    simp only [Op.apply, putProductsId]
    split
    · split
      · exact ⟨hp, hc, ho⟩
      · split
        · exact ⟨hp, hc, ho⟩
        · refine ⟨?_, hc, ho⟩
          intro p hpm
          obtain ⟨x, hx, rfl⟩ := List.mem_map.1 hpm
          split <;> exact hp x hx
    · exact ⟨hp, hc, ho⟩
  | deleteProductsId id =>
    simp only [Op.apply, deleteProductsId]
    split
    · exact ⟨hp, hc, ho⟩
    · exact ⟨fun p hpm => hp p (List.mem_filter.1 hpm).1, hc, ho⟩
  | postCart now body =>
    simp only [Op.apply, postCart]
    split
    · exact ⟨hp, hc, ho⟩
    · split
      · exact ⟨hp, hc, ho⟩
      · split
        · exact ⟨hp, hc, ho⟩
        · split
          · refine ⟨hp, ?_, ho⟩
            intro c hcm
            obtain ⟨x, hx, rfl⟩ := List.mem_map.1 hcm
            split <;> exact hc x hx
          · refine ⟨hp, ?_, ho⟩
            intro c hcm
            rcases List.mem_append.1 hcm with h | h
            · exact hc c h
            · rw [List.mem_singleton] at h
              subst h
              exact (nextRowid_fresh _ _).1
  | putCartId id quantity =>
    simp only [Op.apply, putCartId]
    split
    · exact ⟨hp, hc, ho⟩
    · split
      · exact ⟨hp, hc, ho⟩
      · split
        · exact ⟨hp, hc, ho⟩
        · refine ⟨hp, ?_, ho⟩
          intro c hcm
          obtain ⟨x, hx, rfl⟩ := List.mem_map.1 hcm
          split <;> exact hc x hx
  | deleteCartId id =>
    simp only [Op.apply, deleteCartId]
    split
    · exact ⟨hp, hc, ho⟩
    · exact ⟨hp, fun c hcm => hc c (List.mem_filter.1 hcm).1, ho⟩
  | postCheckout insertErr clearErr now body =>
    have hnew : ∀ o : Order, o.id = nextRowid (s.orders.map (·.id)) s.ordersSeq →
        ∀ x ∈ s.orders ++ [o], x.id ≠ 0 := by
      intro o hid x hxm
      rcases List.mem_append.1 hxm with h | h
      · exact ho x h
      · rw [List.mem_singleton] at h
        subst h
        rw [hid]
        exact (nextRowid_fresh _ _).1
    simp only [Op.apply, postCheckout]
    split
    · exact ⟨hp, hc, ho⟩
    · split
      · exact ⟨hp, hc, ho⟩
      · split
        · exact ⟨hp, hc, ho⟩
        · split
          · exact ⟨hp, hc, ho⟩
          · split
            · exact ⟨hp, hc, ho⟩
            · split
              · exact ⟨hp, hc, hnew _ rfl⟩
              · exact ⟨hp, fun c hcm => absurd hcm (List.not_mem_nil c), hnew _ rfl⟩

/-- Rowids are positive in every store reached from one where they are, so in
every store reached from the empty database. -/
theorem run_keeps_rowidsPositive (ops : List Op) (s : Store) (h : s.rowidsPositive) :
    (run ops s).rowidsPositive := by
  induction ops generalizing s with
  | nil => exact h
  | cons op ops ih => exact ih (op.apply s) (apply_keeps_rowidsPositive op s h)

/-! ## Cart line ids stay distinct -/

theorem map_cart_id_update (l : List CartItem) (f : CartItem → CartItem)
    (hf : ∀ c, (f c).id = c.id) :
    (l.map f).map (·.id) = l.map (·.id) := by
  rw [List.map_map]
  exact List.map_congr_left (fun c _ => by simp [hf c])

/-- The primary key of `cart_items`: a request leaves the ids of the cart lines
pairwise distinct. -/
theorem apply_keeps_cart_key (op : Op) (s : Store) (h : (s.cart_items.map (·.id)).Nodup) :
    ((op.apply s).cart_items.map (·.id)).Nodup := by
  cases op with
  | postProducts body =>
    simp only [Op.apply, postProducts]
    repeat (first | exact h | split)
  | putProductsId id body =>
    simp only [Op.apply, putProductsId]
    repeat (first | exact h | split)
  | deleteProductsId id =>
    simp only [Op.apply, deleteProductsId]
    split <;> exact h
  | postCart now body =>
    simp only [Op.apply, postCart]
    split
    · exact h
    · split
      · exact h
      · split
        · exact h
        · split
          · rw [map_cart_id_update]
            · exact h
            · intro c
              split <;> rfl
          · simp only [List.map_append, List.map_cons, List.map_nil]
            refine List.Nodup.append h (List.nodup_singleton _) ?_
            rw [List.disjoint_singleton]
            intro hmem
            exact absurd ((nextRowid_fresh _ s.cartSeq).2.2 _ hmem) (lt_irrefl _)
  | putCartId id quantity =>
    simp only [Op.apply, putCartId]
    split
    · exact h
    · split
      · exact h
      · split
        · exact h
        · rw [map_cart_id_update]
          · exact h
          · intro c
            split <;> rfl
  | deleteCartId id =>
    simp only [Op.apply, deleteCartId]
    split
    · exact h
    · exact h.sublist ((List.filter_sublist _).map _)
  | postCheckout insertErr clearErr now body =>
    simp only [Op.apply, postCheckout]
    repeat (first | exact h | exact List.nodup_nil | split)

/-! ## Which cart lines `GET /api/cart` returns -/

theorem filter_product_key (l : List Product) (k : Nat) (hpk : (l.map (·.id)).Nodup) :
    l.filter (fun p => p.id == k) = (l.find? (fun p => p.id == k)).toList := by
  induction l with
  | nil => rfl
  | cons a l ih =>
    rw [List.map_cons, List.nodup_cons] at hpk
    obtain ⟨ha, hl⟩ := hpk
    by_cases hak : a.id = k
    · have hrest : ∀ x ∈ l, x.id ≠ k :=
        fun x hx hxk => ha (hak ▸ hxk ▸ List.mem_map_of_mem _ hx)
      have hnil : l.filter (fun p => p.id == k) = [] := by
        rw [List.filter_eq_nil_iff]
        intro x hx
        simpa using hrest x hx
      simp [List.filter_cons, List.find?_cons, hak, hnil]
    · simp [List.filter_cons, List.find?_cons, hak, ih hl]

theorem any_product_eq_isSome (l : List Product) (k : Nat) :
    l.any (fun p => p.id == k) = (l.find? (fun p => p.id == k)).isSome := by
  induction l with
  | nil => rfl
  | cons a l ih =>
    by_cases hak : a.id = k
    · simp [List.find?_cons, hak]
    · simp [List.find?_cons, hak, ih]

theorem cartJoin_line_ids (products : List Product) (cart : List CartItem)
    (hpk : (products.map (·.id)).Nodup) :
    (cart.flatMap (fun ci =>
        (products.filter (fun p => p.id == ci.product_id)).map (fun p => (ci, p)))).map
      (fun x => x.1.id)
      = (cart.filter (fun ci => products.any (fun p => p.id == ci.product_id))).map (·.id) := by
  induction cart with
  | nil => rfl
  | cons ci cart ih =>
    rw [List.flatMap_cons, List.map_append, ih, List.filter_cons, filter_product_key _ _ hpk,
      any_product_eq_isSome]
    cases products.find? (fun p => p.id == ci.product_id) <;> simp

/-- C11, as stated, fails: from the empty database, create a product, add it to
the cart and delete the product; the cart store then holds one line, and
`GET /api/cart` returns no item. -/
theorem getCart_hides_orphaned_line :
    (run [.postProducts ⟨some "Mouse", some (.number 999), none, none⟩, .postCart 5 ⟨some 1, some 2⟩,
        .deleteProductsId 1] ⟨[], 0, [], 0, [], 0⟩).cart_items = [⟨1, 1, 2, 5⟩] ∧
    getCart (run [.postProducts ⟨some "Mouse", some (.number 999), none, none⟩,
        .postCart 5 ⟨some 1, some 2⟩, .deleteProductsId 1] ⟨[], 0, [], 0, [], 0⟩)
      = .ok ⟨[], 0, 0⟩ := by
  decide

/-- C11, amended: in a store whose products have distinct ids (the primary key),
`GET /api/cart` returns exactly the cart lines whose product reference resolves
to an existing product: the cart line ids of the returned items are, up to
order, the ids of those lines, one item per line, and each item carries the
id and quantity of its line and the id, name, price, description and image of
the product the line refers to.  When every line refers to an existing product
these are all the lines of the cart store. -/
theorem getCart_lines (s : Store) (hpk : (s.products.map (·.id)).Nodup) :
    ∃ d, getCart s = .ok d ∧
      (d.items.map (·.cart_item_id)).Perm
        ((s.cart_items.filter (fun ci => s.products.any (fun p => p.id == ci.product_id))).map
          (·.id)) ∧
      (∀ item ∈ d.items, ∃ ci ∈ s.cart_items, ∃ p ∈ s.products,
        p.id = ci.product_id ∧ item.cart_item_id = ci.id ∧ item.quantity = ci.quantity ∧
        item.id = p.id ∧ item.name = p.name ∧ item.price = p.price ∧
        item.description = p.description ∧ item.imageUrl = p.imageUrl) ∧
      ((∀ ci ∈ s.cart_items, ∃ p ∈ s.products, p.id = ci.product_id) →
        (d.items.map (·.cart_item_id)).Perm (s.cart_items.map (·.id))) := by
  have hids : (((cartJoin s).insertionSort cartNewerFirst).map cartRow).map (·.cart_item_id)
      = ((cartJoin s).insertionSort cartNewerFirst).map (fun x => x.1.id) := by
    rw [List.map_map]
    rfl
  have hperm : ((((cartJoin s).insertionSort cartNewerFirst).map cartRow).map
      (·.cart_item_id)).Perm
      ((s.cart_items.filter (fun ci => s.products.any (fun p => p.id == ci.product_id))).map
        (·.id)) := by
    rw [hids, ← cartJoin_line_ids s.products s.cart_items hpk]
    exact (List.perm_insertionSort _ _).map _
  refine ⟨_, rfl, hperm, ?_, ?_⟩
  · intro item hitem
    obtain ⟨x, hx, rfl⟩ := List.mem_map.1 hitem
    have hx2 : x ∈ cartJoin s := (List.perm_insertionSort _ _).mem_iff.1 hx
    obtain ⟨ci, hci, hx3⟩ := List.mem_flatMap.1 hx2
    obtain ⟨p, hp, rfl⟩ := List.mem_map.1 hx3
    obtain ⟨hp1, hp2⟩ := List.mem_filter.1 hp
    exact ⟨ci, hci, p, hp1, by simpa using hp2, rfl, rfl, rfl, rfl, rfl, rfl, rfl⟩
  · intro hall
    have hfilter : s.cart_items.filter
        (fun ci => s.products.any (fun p => p.id == ci.product_id)) = s.cart_items := by
      rw [List.filter_eq_self]
      intro ci hci
      obtain ⟨p, hp, hpid⟩ := hall ci hci
      exact List.any_eq_true.2 ⟨p, hp, by simpa using hpid⟩
    rw [hfilter] at hperm
    exact hperm

theorem getCart_lines_witness :
    ∃ d, getCart ⟨[⟨1, "Mouse", 999, none, none⟩], 1, [⟨1, 1, 2, 5⟩, ⟨2, 7, 1, 6⟩], 2, [], 0⟩
        = .ok d ∧
      (d.items.map (·.cart_item_id)).Perm
        ((([⟨1, 1, 2, 5⟩, ⟨2, 7, 1, 6⟩] : List CartItem).filter
          (fun ci => ([⟨1, "Mouse", 999, none, none⟩] : List Product).any
            (fun p => p.id == ci.product_id))).map (·.id)) ∧
      (∀ item ∈ d.items, ∃ ci ∈ ([⟨1, 1, 2, 5⟩, ⟨2, 7, 1, 6⟩] : List CartItem),
        ∃ p ∈ ([⟨1, "Mouse", 999, none, none⟩] : List Product),
        p.id = ci.product_id ∧ item.cart_item_id = ci.id ∧ item.quantity = ci.quantity ∧
        item.id = p.id ∧ item.name = p.name ∧ item.price = p.price ∧
        item.description = p.description ∧ item.imageUrl = p.imageUrl) ∧
      ((∀ ci ∈ ([⟨1, 1, 2, 5⟩, ⟨2, 7, 1, 6⟩] : List CartItem),
          ∃ p ∈ ([⟨1, "Mouse", 999, none, none⟩] : List Product), p.id = ci.product_id) →
        (d.items.map (·.cart_item_id)).Perm
          (([⟨1, 1, 2, 5⟩, ⟨2, 7, 1, 6⟩] : List CartItem).map (·.id))) :=
  getCart_lines ⟨[⟨1, "Mouse", 999, none, none⟩], 1, [⟨1, 1, 2, 5⟩, ⟨2, 7, 1, 6⟩], 2, [], 0⟩
    (by decide)

/-! ## Quantities of cart lines -/

/-- C12 at its failing input: with product 1 in the catalog and an empty cart,
`POST /api/cart` with quantity 0 is answered with success and stores a cart line
of quantity 0, and with quantity -2 one of quantity -2, while
`PUT /api/cart/:id` refuses both quantities with 400. -/
theorem postCart_stores_nonpositive_quantity :
    postCart 5 ⟨some 1, some 0⟩ ⟨[⟨1, "Mouse", 999, none, none⟩], 1, [], 0, [], 0⟩
      = (.ok (.added 1 1 0),
          ⟨[⟨1, "Mouse", 999, none, none⟩], 1, [⟨1, 1, 0, 5⟩], 1, [], 0⟩) ∧
    (run [.postCart 5 ⟨some 1, some (-2)⟩]
        ⟨[⟨1, "Mouse", 999, none, none⟩], 1, [], 0, [], 0⟩).cart_items = [⟨1, 1, -2, 5⟩] ∧
    (putCartId 1 (some 0)
        ⟨[⟨1, "Mouse", 999, none, none⟩], 1, [⟨1, 1, 3, 5⟩], 1, [], 0⟩).1.status = 400 ∧
    (putCartId 1 (some (-2))
        ⟨[⟨1, "Mouse", 999, none, none⟩], 1, [⟨1, 1, 3, 5⟩], 1, [], 0⟩).1.status = 400 := by
  decide

theorem apply_keeps_quantities (op : Op) (s : Store) (hop : op.addsAtLeastOne)
    (h : ∀ c ∈ s.cart_items, 1 ≤ c.quantity) :
    ∀ c ∈ (op.apply s).cart_items, 1 ≤ c.quantity := by
  cases op with
  | postProducts body =>
    simp only [Op.apply, postProducts]
    repeat (first | exact h | split)
  | putProductsId id body =>
    simp only [Op.apply, putProductsId]
    repeat (first | exact h | split)
  | deleteProductsId id =>
    simp only [Op.apply, deleteProductsId]
    split <;> exact h
  | postCart now body =>
    have hq : 1 ≤ body.quantity.getD 1 := hop
    simp only [Op.apply, postCart]
    split
    · exact h
    · split
      · exact h
      · split
        · exact h
        · split
          · intro c hc
            obtain ⟨x, hx, rfl⟩ := List.mem_map.1 hc
            have hx1 := h x hx
            split
            · show 1 ≤ x.quantity + body.quantity.getD 1
              omega
            · exact hx1
          · intro c hc
            rcases List.mem_append.1 hc with hc | hc
            · exact h c hc
            · rw [List.mem_singleton] at hc
              subst hc
              exact hq
  | putCartId id quantity =>
    simp only [Op.apply, putCartId]
    split
    · exact h
    · split
      · exact h
      · split
        · exact h
        · rename_i q hq _
          intro c hc
          obtain ⟨x, hx, rfl⟩ := List.mem_map.1 hc
          split
          · show 1 ≤ q
            simp only [Bool.or_eq_true, beq_iff_eq, decide_eq_true_eq, not_or, not_lt] at hq
            exact hq.2
          · exact h x hx
  | deleteCartId id =>
    simp only [Op.apply, deleteCartId]
    split
    · exact h
    · exact fun c hc => h c (List.mem_filter.1 hc).1
  | postCheckout insertErr clearErr now body =>
    simp only [Op.apply, postCheckout]
    repeat (first | exact h | exact (fun c hc => absurd hc (List.not_mem_nil c)) | split)

/-- What the handlers do keep: when every `POST /api/cart` of a sequence carries no
quantity or one that is at least 1, every cart line reached from an empty cart
has a quantity of at least 1. -/
theorem run_keeps_quantities (ops : List Op) (s : Store) (hops : ∀ op ∈ ops, op.addsAtLeastOne)
    (h : ∀ c ∈ s.cart_items, 1 ≤ c.quantity) :
    ∀ c ∈ (run ops s).cart_items, 1 ≤ c.quantity := by
  induction ops generalizing s with
  | nil => exact h
  | cons op ops ih =>
    exact ih (op.apply s) (fun o ho => hops o (List.mem_cons_of_mem _ ho))
      (apply_keeps_quantities op s (hops op (List.mem_cons_self _ _)) h)

/-! ## Names and prices in the catalog -/

/-- C13, the code at the failing requests: `POST /api/products` with name "X" and
the number -5 as price is accepted and stores a product whose price is -5; with
the price "0", the string the admin page posts for a price of 0 (its other
text fields empty), it is accepted and stores a product whose price is 0;
`PUT /api/products/:id` accepts both prices as well.  A store with a product
whose price is not positive is therefore reached from the empty catalog. -/
theorem postProducts_stores_nonpositive_price :
    postProducts ⟨some "X", some (.number (-5)), none, none⟩ ⟨[], 0, [], 0, [], 0⟩
      = (.ok 1, ⟨[⟨1, "X", -5, none, none⟩], 1, [], 0, [], 0⟩) ∧
    postProducts ⟨some "X", some (.numeral 0), some "", some ""⟩ ⟨[], 0, [], 0, [], 0⟩
      = (.ok 1, ⟨[⟨1, "X", 0, some "", some ""⟩], 1, [], 0, [], 0⟩) ∧
    putProductsId 1 ⟨some "Mouse", some (.number (-5)), none, none⟩
        ⟨[⟨1, "Mouse", 999, none, none⟩], 1, [], 0, [], 0⟩
      = (.ok 1, ⟨[⟨1, "Mouse", -5, none, none⟩], 1, [], 0, [], 0⟩) ∧
    putProductsId 1 ⟨some "Mouse", some (.numeral 0), some "", some ""⟩
        ⟨[⟨1, "Mouse", 999, none, none⟩], 1, [], 0, [], 0⟩
      = (.ok 1, ⟨[⟨1, "Mouse", 0, some "", some ""⟩], 1, [], 0, [], 0⟩) ∧
    (¬ ∀ p ∈ (run [.postProducts ⟨some "X", some (.number (-5)), none, none⟩]
        ⟨[], 0, [], 0, [], 0⟩).products, 0 < p.price) ∧
    ¬ ∀ p ∈ (run [.postProducts ⟨some "X", some (.numeral 0), some "", some ""⟩]
        ⟨[], 0, [], 0, [], 0⟩).products, 0 < p.price := by
  decide

/-- The guard of the two catalog handlers: a request whose name is missing or
empty, or whose price is missing or the number 0, is answered 400 and changes
nothing. -/
theorem products_rejected (id : Nat) (body : ProductBody) (s : Store)
    (h : body.name = none ∨ body.name = some "" ∨ body.price = none ∨
      body.price = some (.number 0)) :
    postProducts body s = (.error 400 "Name and price are required.", s) ∧
    putProductsId id body s = (.error 400 "Name and price are required.", s) := by
  obtain ⟨name, price, description, imageUrl⟩ := body
  cases name with
  | none => simp [postProducts, putProductsId]
  | some n =>
    cases price with
    | none => simp [postProducts, putProductsId]
    | some pr =>
      have hor : n = "" ∨ pr.truthy = false := by
        rcases h with h | h | h | h
        · simp at h
        · exact Or.inl (by simpa using h)
        · simp at h
        · refine Or.inr ?_
          simp only [Option.some.injEq] at h
          subst h
          rfl
      rcases hor with h | h <;> simp [postProducts, putProductsId, h]

theorem apply_keeps_names (op : Op) (s : Store) (h : ∀ p ∈ s.products, p.name ≠ "") :
    ∀ p ∈ (op.apply s).products, p.name ≠ "" := by
  cases op with
  | postProducts body =>
    simp only [Op.apply, postProducts]
    split
    · split
      · exact h
      · rename_i name price _ _ hnp
        simp only [Bool.or_eq_true, beq_iff_eq, not_or] at hnp
        intro p hp
        rcases List.mem_append.1 hp with hp | hp
        · exact h p hp
        · rw [List.mem_singleton] at hp
          subst hp
          exact hnp.1
    · exact h
  | putProductsId id body =>
    simp only [Op.apply, putProductsId]
    split
    · split
      · exact h
      · rename_i name price _ _ hnp
        simp only [Bool.or_eq_true, beq_iff_eq, not_or] at hnp
        split
        · exact h
        · intro p hp
          obtain ⟨x, hx, rfl⟩ := List.mem_map.1 hp
          split
          · exact hnp.1
          · exact h x hx
    · exact h
  | deleteProductsId id =>
    simp only [Op.apply, deleteProductsId]
    split
    · exact h
    · exact fun p hp => h p (List.mem_filter.1 hp).1
  | postCart now body =>
    simp only [Op.apply, postCart]
    repeat (first | exact h | split)
  | putCartId id quantity =>
    simp only [Op.apply, putCartId]
    repeat (first | exact h | split)
  | deleteCartId id =>
    simp only [Op.apply, deleteCartId]
    split <;> exact h
  | postCheckout insertErr clearErr now body =>
    simp only [Op.apply, postCheckout]
    repeat (first | exact h | split)

theorem apply_keeps_prices (op : Op) (s : Store) (hop : op.pricePositive)
    (h : ∀ p ∈ s.products, 0 < p.price) :
    ∀ p ∈ (op.apply s).products, 0 < p.price := by
  cases op with
  | postProducts body =>
    obtain ⟨bname, bprice, description, imageUrl⟩ := body
    simp only [Op.apply, postProducts]
    split
    · split
      · exact h
      · intro p hp
        rcases List.mem_append.1 hp with hp | hp
        · exact h p hp
        · rw [List.mem_singleton] at hp
          subst hp
          simpa [Op.pricePositive] using hop
    · exact h
  | putProductsId id body =>
    obtain ⟨bname, bprice, description, imageUrl⟩ := body
    simp only [Op.apply, putProductsId]
    split
    · split
      · exact h
      · split
        · exact h
        · intro p hp
          obtain ⟨x, hx, rfl⟩ := List.mem_map.1 hp
          split
          · simpa [Op.pricePositive] using hop
          · exact h x hx
    · exact h
  | deleteProductsId id =>
    simp only [Op.apply, deleteProductsId]
    split
    · exact h
    · exact fun p hp => h p (List.mem_filter.1 hp).1
  | postCart now body =>
    simp only [Op.apply, postCart]
    repeat (first | exact h | split)
  | putCartId id quantity =>
    simp only [Op.apply, putCartId]
    repeat (first | exact h | split)
  | deleteCartId id =>
    simp only [Op.apply, deleteCartId]
    split <;> exact h
  | postCheckout insertErr clearErr now body =>
    simp only [Op.apply, postCheckout]
    repeat (first | exact h | split)

/-- What the handlers do keep of the names: in every store reached by a sequence
of requests from a catalog whose products have a non-empty name (the empty
catalog is one), every product has a non-empty name. -/
theorem run_keeps_names (ops : List Op) (s : Store) (h : ∀ p ∈ s.products, p.name ≠ "") :
    ∀ p ∈ (run ops s).products, p.name ≠ "" := by
  induction ops generalizing s with
  | nil => exact h
  | cons op ops ih => exact ih (op.apply s) (apply_keeps_names op s h)

/-- What the handlers do keep of the prices: when every create or update request
of a sequence carries no price or one that denotes a number greater than 0,
every product reached from a catalog of positive prices has a positive price. -/
theorem run_keeps_prices (ops : List Op) (s : Store) (hops : ∀ op ∈ ops, op.pricePositive)
    (h : ∀ p ∈ s.products, 0 < p.price) :
    ∀ p ∈ (run ops s).products, 0 < p.price := by
  induction ops generalizing s with
  | nil => exact h
  | cons op ops ih =>
    exact ih (op.apply s) (fun o ho => hops o (List.mem_cons_of_mem _ ho))
      (apply_keeps_prices op s (hops op (List.mem_cons_self _ _)) h)

/-! ## Setting the quantity of a cart line -/

theorem filter_cart_id_ne_nil (l : List CartItem) (id : Nat) (h : ∃ c ∈ l, c.id = id) :
    (l.filter (fun c => c.id == id)).length ≠ 0 := by
  obtain ⟨c, hc, hcid⟩ := h
  intro hlen
  have hmem : c ∈ l.filter (fun c => c.id == id) := List.mem_filter.2 ⟨hc, by simpa using hcid⟩
  rw [List.length_eq_zero.1 hlen] at hmem
  exact List.not_mem_nil _ hmem

/-- C14: `PUT /api/cart/:id` with quantity `q` answers 400 and leaves the store as
it was when `q` is missing or less than 1; otherwise it answers 404 and leaves
the store as it was when no cart line has that id; otherwise it succeeds, the
catalog and the orders are unchanged, and the cart is the old cart, line by
line, where a line with that id has quantity `q` and its id, product
reference and creation time as before, and every other line is unchanged. -/
theorem putCartId_contract (id : Nat) (s : Store) :
    ((putCartId id none s).1.status = 400 ∧ (putCartId id none s).2 = s) ∧
    (∀ q : Int, q < 1 →
      (putCartId id (some q) s).1.status = 400 ∧ (putCartId id (some q) s).2 = s) ∧
    (∀ q : Int, 1 ≤ q → (∀ c ∈ s.cart_items, c.id ≠ id) →
      (putCartId id (some q) s).1.status = 404 ∧ (putCartId id (some q) s).2 = s) ∧
    (∀ q : Int, 1 ≤ q → (∃ c ∈ s.cart_items, c.id = id) →
      (∃ changes, (putCartId id (some q) s).1 = .ok changes) ∧
      (putCartId id (some q) s).2.products = s.products ∧
      (putCartId id (some q) s).2.orders = s.orders ∧
      List.Forall₂
        (fun c d => d.id = c.id ∧ d.product_id = c.product_id ∧ d.created_at = c.created_at ∧
          (c.id = id → d.quantity = q) ∧ (c.id ≠ id → d = c))
        s.cart_items (putCartId id (some q) s).2.cart_items) := by
  refine ⟨⟨rfl, rfl⟩, ?_, ?_, ?_⟩
  · intro q hq
    have hq1 : (q == 0 || decide (q < 1)) = true := by simp [hq]
    simp [putCartId, hq1, Response.status]
  · intro q hq habs
    have hq1 : (q == 0 || decide (q < 1)) = false := by
      simp only [Bool.or_eq_false_iff, beq_eq_false_iff_ne, ne_eq, decide_eq_false_iff_not]
      omega
    have hnil := (filter_cart_id_of_absent s.cart_items id habs).1
    simp [putCartId, hq1, hnil, Response.status]
  · intro q hq hex
    have hq1 : (q == 0 || decide (q < 1)) = false := by
      simp only [Bool.or_eq_false_iff, beq_eq_false_iff_ne, ne_eq, decide_eq_false_iff_not]
      omega
    have hlen := filter_cart_id_ne_nil s.cart_items id hex
    have hstep : putCartId id (some q) s
        = (.ok (s.cart_items.filter (fun c => c.id == id)).length,
            { s with
              cart_items := s.cart_items.map (fun c =>
                if c.id == id then { c with quantity := q } else c) }) := by
      simp only [putCartId, hq1]
      simp [hlen]
    rw [hstep]
    refine ⟨⟨_, rfl⟩, rfl, rfl, ?_⟩
    rw [List.forall₂_map_right_iff, List.forall₂_same]
    intro c _
    by_cases hc : c.id = id
    · simp [hc]
    · simp [hc]

theorem putCartId_contract_witness :
    (∃ changes, (putCartId 1 (some 7)
        ⟨[], 0, [⟨1, 1, 2, 5⟩, ⟨2, 2, 1, 6⟩], 2, [], 0⟩).1 = .ok changes) ∧
    (putCartId 1 (some 7) ⟨[], 0, [⟨1, 1, 2, 5⟩, ⟨2, 2, 1, 6⟩], 2, [], 0⟩).2.products = [] ∧
    (putCartId 1 (some 7) ⟨[], 0, [⟨1, 1, 2, 5⟩, ⟨2, 2, 1, 6⟩], 2, [], 0⟩).2.orders = [] ∧
    List.Forall₂
      (fun c d => d.id = c.id ∧ d.product_id = c.product_id ∧ d.created_at = c.created_at ∧
        (c.id = 1 → d.quantity = 7) ∧ (c.id ≠ 1 → d = c))
      [⟨1, 1, 2, 5⟩, ⟨2, 2, 1, 6⟩]
      (putCartId 1 (some 7) ⟨[], 0, [⟨1, 1, 2, 5⟩, ⟨2, 2, 1, 6⟩], 2, [], 0⟩).2.cart_items :=
  (putCartId_contract 1 ⟨[], 0, [⟨1, 1, 2, 5⟩, ⟨2, 2, 1, 6⟩], 2, [], 0⟩).2.2.2 7 (by decide)
    ⟨⟨1, 1, 2, 5⟩, by simp, rfl⟩

/-! ## Refusals of `POST /api/cart` -/

/-- C15, as stated, fails: no product has id 0, so a productId of 0 does not
resolve to a product, and `POST /api/cart` with productId 0 is answered 400, not
404. -/
theorem postCart_zero_productId :
    ([⟨1, "Mouse", 999, none, none⟩] : List Product).find? (fun p => p.id == 0) = none ∧
    postCart 5 ⟨some 0, some 1⟩ ⟨[⟨1, "Mouse", 999, none, none⟩], 1, [], 0, [], 0⟩
      = (.error 400 "Product ID is required.",
          ⟨[⟨1, "Mouse", 999, none, none⟩], 1, [], 0, [], 0⟩) := by
  decide

/-- C15, amended: `POST /api/cart` answers 400 when productId is missing or 0, and
404 when productId is another value that no product has as its id; in both
cases the store is left as it was; and a request whose quantity is omitted is
handled exactly as the request with quantity 1. -/
theorem postCart_refusals (now : Nat) (quantity : Option Int) (s : Store) :
    ((postCart now ⟨none, quantity⟩ s).1.status = 400 ∧ (postCart now ⟨none, quantity⟩ s).2 = s) ∧
    ((postCart now ⟨some 0, quantity⟩ s).1.status = 400 ∧
      (postCart now ⟨some 0, quantity⟩ s).2 = s) ∧
    (∀ p : Nat, p ≠ 0 → (∀ x ∈ s.products, x.id ≠ p) →
      (postCart now ⟨some p, quantity⟩ s).1.status = 404 ∧
      (postCart now ⟨some p, quantity⟩ s).2 = s) ∧
    (∀ p : Nat, postCart now ⟨some p, none⟩ s = postCart now ⟨some p, some 1⟩ s) := by
  refine ⟨⟨rfl, rfl⟩, ⟨rfl, rfl⟩, ?_, fun _ => rfl⟩
  intro p hp habs
  have hnone := find?_product_none s.products p habs
  simp [postCart, hp, hnone, Response.status]

theorem postCart_refusals_witness :
    (postCart 5 ⟨some 4, some 2⟩
        ⟨[⟨1, "Mouse", 999, none, none⟩], 1, [⟨1, 1, 2, 5⟩], 1, [], 0⟩).1.status = 404 ∧
    (postCart 5 ⟨some 4, some 2⟩
        ⟨[⟨1, "Mouse", 999, none, none⟩], 1, [⟨1, 1, 2, 5⟩], 1, [], 0⟩).2
      = ⟨[⟨1, "Mouse", 999, none, none⟩], 1, [⟨1, 1, 2, 5⟩], 1, [], 0⟩ :=
  (postCart_refusals 5 (some 2)
    ⟨[⟨1, "Mouse", 999, none, none⟩], 1, [⟨1, 1, 2, 5⟩], 1, [], 0⟩).2.2.1 4 (by decide)
    (by simp)

/-! ## Updating a product -/

theorem filter_product_id_ne_nil (l : List Product) (id : Nat) (h : ∃ x ∈ l, x.id = id) :
    (l.filter (fun p => p.id == id)).length ≠ 0 := by
  obtain ⟨x, hx, hxid⟩ := h
  intro hlen
  have hmem : x ∈ l.filter (fun p => p.id == id) := List.mem_filter.2 ⟨hx, by simpa using hxid⟩
  rw [List.length_eq_zero.1 hlen] at hmem
  exact List.not_mem_nil _ hmem

/-- C16, the code at the failing request: product 1 exists and the request
carries the name "Mouse 2" and the price 0 as a JSON number, yet
`PUT /api/products/1` answers 400 "Name and price are required." and replaces
nothing.  The same request with the price as the string "0", the form in
which the admin page posts it, is accepted and sets the price to 0. -/
theorem putProductsId_refuses_price_zero :
    putProductsId 1 ⟨some "Mouse 2", some (.number 0), none, none⟩
        ⟨[⟨1, "Mouse", 999, none, none⟩], 1, [], 0, [], 0⟩
      = (.error 400 "Name and price are required.",
          ⟨[⟨1, "Mouse", 999, none, none⟩], 1, [], 0, [], 0⟩) ∧
    putProductsId 1 ⟨some "Mouse 2", some (.numeral 0), none, none⟩
        ⟨[⟨1, "Mouse", 999, none, none⟩], 1, [], 0, [], 0⟩
      = (.ok 1, ⟨[⟨1, "Mouse 2", 0, none, none⟩], 1, [], 0, [], 0⟩) := by
  decide

/-- What `PUT /api/products/:id` does on every other request: it answers 400 and
leaves the store as it was when name is missing or empty or price is missing;
for a non-empty name and a truthy price it answers 404 and leaves the store as
it was when no product has that id; otherwise it succeeds, the cart and the
orders are unchanged, and the catalog is the old catalog, product by product,
where a product with that id keeps its id and has the name, price, description
and imageUrl of the request (an omitted description or imageUrl is stored as
NULL), and every other product is unchanged. -/
theorem putProductsId_cases (id : Nat) (body : ProductBody) (s : Store) :
    ((body.name = none ∨ body.name = some "" ∨ body.price = none) →
      (putProductsId id body s).1.status = 400 ∧ (putProductsId id body s).2 = s) ∧
    (∀ (name : String) (price : PriceField), body.name = some name → body.price = some price →
      name ≠ "" → price.truthy = true →
      ((∀ x ∈ s.products, x.id ≠ id) →
        (putProductsId id body s).1.status = 404 ∧ (putProductsId id body s).2 = s) ∧
      ((∃ x ∈ s.products, x.id = id) →
        (∃ changes, (putProductsId id body s).1 = .ok changes) ∧
        (putProductsId id body s).2.cart_items = s.cart_items ∧
        (putProductsId id body s).2.orders = s.orders ∧
        List.Forall₂
          (fun p r =>
            (p.id = id → r = ⟨p.id, name, price.stored, body.description, body.imageUrl⟩) ∧
            (p.id ≠ id → r = p))
          s.products (putProductsId id body s).2.products)) := by
  constructor
  · intro h
    have h4 : body.name = none ∨ body.name = some "" ∨ body.price = none ∨
        body.price = some (.number 0) := by
      rcases h with h | h | h
      · exact Or.inl h
      · exact Or.inr (Or.inl h)
      · exact Or.inr (Or.inr (Or.inl h))
    rw [(products_rejected id body s h4).2]
    exact ⟨rfl, rfl⟩
  · intro name price hname hprice hn hp
    obtain ⟨bname, bprice, description, imageUrl⟩ := body
    simp only at hname hprice
    subst hname
    subst hprice
    constructor
    · intro habs
      have hnil : s.products.filter (fun p => p.id == id) = [] := by
        rw [List.filter_eq_nil_iff]
        intro x hx
        simpa using habs x hx
      simp [putProductsId, hn, hp, hnil, Response.status]
    · intro hex
      have hlen := filter_product_id_ne_nil s.products id hex
      have hstep : putProductsId id ⟨some name, some price, description, imageUrl⟩ s
          = (.ok (s.products.filter (fun p => p.id == id)).length,
              { s with
                products := s.products.map (fun p =>
                  if p.id == id then ⟨p.id, name, price.stored, description, imageUrl⟩
                  else p) }) := by
        simp only [putProductsId]
        simp [hn, hp, hlen]
      rw [hstep]
      refine ⟨⟨_, rfl⟩, rfl, rfl, ?_⟩
      rw [List.forall₂_map_right_iff, List.forall₂_same]
      intro x _
      by_cases hx : x.id = id
      · simp [hx]
      · simp [hx]

/-! ## Deleting a product -/

theorem filter_product_id_of_mem (l : List Product) (x : Product)
    (hpk : (l.map (·.id)).Nodup) (hx : x ∈ l) :
    l.filter (fun p => p.id == x.id) = [x] ∧ l.filter (fun p => !(p.id == x.id)) = l.erase x := by
  induction l with
  | nil => exact absurd hx (List.not_mem_nil _)
  | cons a l ih =>
    rw [List.map_cons, List.nodup_cons] at hpk
    obtain ⟨ha, hl⟩ := hpk
    have hrest : ∀ y ∈ l, y.id ≠ a.id := fun y hy hya => ha (hya ▸ List.mem_map_of_mem _ hy)
    by_cases hax : a = x
    · subst hax
      have h1 : l.filter (fun p => p.id == a.id) = [] := by
        rw [List.filter_eq_nil_iff]
        intro y hy
        simpa using hrest y hy
      have h2 : l.filter (fun p => !(p.id == a.id)) = l := by
        rw [List.filter_eq_self]
        intro y hy
        simpa using hrest y hy
      simp [List.filter_cons, h1, h2]
    · have hxl : x ∈ l := by
        rcases List.mem_cons.1 hx with h | h
        · exact absurd h.symm hax
        · exact h
      have hid : a.id ≠ x.id := fun h => hrest x hxl h.symm
      obtain ⟨h1, h2⟩ := ih hl hxl
      have hbeq : (a == x) = false := by simpa using hax
      simp [List.filter_cons, hid, h1, h2, List.erase_cons, hbeq]

/-- C17: in a store whose products have distinct ids (the primary key), deleting
a product `x` of the catalog succeeds with one change; the catalog afterwards
is the old catalog with `x` taken out and every other product where and as it
was, and the cart store, the order store and the rowid counters are those of
before, whatever the cart lines refer to: lines that refer to `x` stay in the
cart store. -/
theorem deleteProductsId_frame (x : Product) (s : Store)
    (hpk : (s.products.map (·.id)).Nodup) (hx : x ∈ s.products) :
    deleteProductsId x.id s = (.ok 1, { s with products := s.products.erase x }) ∧
    (∀ y, y ∈ (deleteProductsId x.id s).2.products ↔ y ∈ s.products ∧ y ≠ x) ∧
    (deleteProductsId x.id s).2.cart_items = s.cart_items ∧
    (deleteProductsId x.id s).2.orders = s.orders ∧
    (∀ c ∈ s.cart_items, c.product_id = x.id → c ∈ (deleteProductsId x.id s).2.cart_items) := by
  obtain ⟨h1, h2⟩ := filter_product_id_of_mem s.products x hpk hx
  have hstep : deleteProductsId x.id s = (.ok 1, { s with products := s.products.erase x }) := by
    simp [deleteProductsId, h1, h2]
  have hnd : s.products.Nodup := List.Nodup.of_map _ hpk
  rw [hstep]
  refine ⟨rfl, ?_, rfl, rfl, fun c hc _ => hc⟩
  intro y
  simp only [hnd.mem_erase_iff]
  tauto

theorem deleteProductsId_frame_witness :
    deleteProductsId 1
        ⟨[⟨1, "Mouse", 999, none, none⟩, ⟨2, "Pad", 50, none, none⟩], 2, [⟨1, 1, 2, 5⟩], 1, [], 0⟩
      = (.ok 1,
          { (⟨[⟨1, "Mouse", 999, none, none⟩, ⟨2, "Pad", 50, none, none⟩], 2,
              [⟨1, 1, 2, 5⟩], 1, [], 0⟩ : Store) with
            products := ([⟨1, "Mouse", 999, none, none⟩, ⟨2, "Pad", 50, none, none⟩] :
              List Product).erase ⟨1, "Mouse", 999, none, none⟩ }) ∧
    (∀ y, y ∈ (deleteProductsId 1
        ⟨[⟨1, "Mouse", 999, none, none⟩, ⟨2, "Pad", 50, none, none⟩], 2,
          [⟨1, 1, 2, 5⟩], 1, [], 0⟩).2.products ↔
      y ∈ ([⟨1, "Mouse", 999, none, none⟩, ⟨2, "Pad", 50, none, none⟩] : List Product) ∧
        y ≠ ⟨1, "Mouse", 999, none, none⟩) ∧
    (deleteProductsId 1
        ⟨[⟨1, "Mouse", 999, none, none⟩, ⟨2, "Pad", 50, none, none⟩], 2,
          [⟨1, 1, 2, 5⟩], 1, [], 0⟩).2.cart_items = [⟨1, 1, 2, 5⟩] ∧
    (deleteProductsId 1
        ⟨[⟨1, "Mouse", 999, none, none⟩, ⟨2, "Pad", 50, none, none⟩], 2,
          [⟨1, 1, 2, 5⟩], 1, [], 0⟩).2.orders = [] ∧
    (∀ c ∈ ([⟨1, 1, 2, 5⟩] : List CartItem), c.product_id = 1 →
      c ∈ (deleteProductsId 1
        ⟨[⟨1, "Mouse", 999, none, none⟩, ⟨2, "Pad", 50, none, none⟩], 2,
          [⟨1, 1, 2, 5⟩], 1, [], 0⟩).2.cart_items) :=
  deleteProductsId_frame ⟨1, "Mouse", 999, none, none⟩
    ⟨[⟨1, "Mouse", 999, none, none⟩, ⟨2, "Pad", 50, none, none⟩], 2, [⟨1, 1, 2, 5⟩], 1, [], 0⟩
    (by decide) (by simp)

/-- The primary key of `products`: a request leaves the ids of the products
pairwise distinct. -/
theorem apply_keeps_products_key (op : Op) (s : Store) (h : (s.products.map (·.id)).Nodup) :
    ((op.apply s).products.map (·.id)).Nodup := by
  cases op with
  | postProducts body =>
    simp only [Op.apply, postProducts]
    split
    · split
      · exact h
      · simp only [List.map_append, List.map_cons, List.map_nil]
        refine List.Nodup.append h (List.nodup_singleton _) ?_
        rw [List.disjoint_singleton]
        intro hmem
        exact absurd ((nextRowid_fresh _ s.productsSeq).2.2 _ hmem) (lt_irrefl _)
    · exact h
  | putProductsId id body =>
    simp only [Op.apply, putProductsId]
    split
    · split
      · exact h
      · split
        · exact h
        · have hmap : ∀ (f : Product → Product), (∀ p, (f p).id = p.id) →
              (s.products.map f).map (·.id) = s.products.map (·.id) := by
            intro f hf
            rw [List.map_map]
            exact List.map_congr_left (fun p _ => by simp [hf p])
          rw [hmap]
          · exact h
          · intro p
            split <;> rfl
    · exact h
  | deleteProductsId id =>
    simp only [Op.apply, deleteProductsId]
    split
    · exact h
    · exact h.sublist ((List.filter_sublist _).map _)
  | postCart now body =>
    simp only [Op.apply, postCart]
    repeat (first | exact h | split)
  | putCartId id quantity =>
    simp only [Op.apply, putCartId]
    repeat (first | exact h | split)
  | deleteCartId id =>
    simp only [Op.apply, deleteCartId]
    split <;> exact h
  | postCheckout insertErr clearErr now body =>
    simp only [Op.apply, postCheckout]
    repeat (first | exact h | split)

/-! ## The order store only grows -/

theorem postCheckout_orders (insertErr clearErr : Option String) (now : Nat)
    (body : CheckoutBody) (s : Store) :
    ((∀ r, (postCheckout insertErr clearErr now body s).1 ≠ .ok r) ∧
      (postCheckout insertErr clearErr now body s).2.orders = s.orders) ∨
    ∃ r o, (postCheckout insertErr clearErr now body s).1 = .ok r ∧ o.id = r.orderId ∧
      (postCheckout insertErr clearErr now body s).2.orders = s.orders ++ [o] := by
  unfold postCheckout
  split
  · exact Or.inl ⟨fun r h => by simp at h, rfl⟩
  · split
    · exact Or.inl ⟨fun r h => by simp at h, rfl⟩
    · split
      · exact Or.inl ⟨fun r h => by simp at h, rfl⟩
      · split
        · exact Or.inl ⟨fun r h => by simp at h, rfl⟩
        · split
          · exact Or.inl ⟨fun r h => by simp at h, rfl⟩
          · rename_i info _ _ _ items _ _ _
            refine Or.inr ⟨_,
              ⟨nextRowid (s.orders.map (·.id)) s.ordersSeq, info.name.getD "",
                info.email.getD "", info.address.getD "", info.city.getD "", info.zip.getD "",
                totalAmount items, items, now⟩, rfl, rfl, ?_⟩
            split <;> rfl

theorem apply_orders (op : Op) (s : Store) :
    (op.apply s).orders = s.orders ∨
    ∃ insertErr clearErr now body r o, op = .postCheckout insertErr clearErr now body ∧
      (postCheckout insertErr clearErr now body s).1 = .ok r ∧ o.id = r.orderId ∧
      (op.apply s).orders = s.orders ++ [o] := by
  cases op with
  | postProducts body =>
    left
    simp only [Op.apply, postProducts]
    repeat (first | rfl | split)
  | putProductsId id body =>
    left
    simp only [Op.apply, putProductsId]
    repeat (first | rfl | split)
  | deleteProductsId id =>
    left
    simp only [Op.apply, deleteProductsId]
    split <;> rfl
  | postCart now body =>
    left
    simp only [Op.apply, postCart]
    repeat (first | rfl | split)
  | putCartId id quantity =>
    left
    simp only [Op.apply, putCartId]
    repeat (first | rfl | split)
  | deleteCartId id =>
    left
    simp only [Op.apply, deleteCartId]
    split <;> rfl
  | postCheckout insertErr clearErr now body =>
    rcases postCheckout_orders insertErr clearErr now body s with h | ⟨r, o, h1, h2, h3⟩
    · exact Or.inl h.2
    · exact Or.inr ⟨insertErr, clearErr, now, body, r, o, rfl, h1, h2, h3⟩

/-- C18: the order store is append-only.  After any sequence of requests the
order store is the old one followed by the orders added since, so every order
present before is present afterwards with the same id, customer fields,
total_amount and order_items.  A single request either leaves the order store
as it was or is a checkout answered with a receipt, which appends exactly one
order, the one whose id the receipt carries; and every checkout answered with
a receipt does append one order. -/
theorem orders_append_only (ops : List Op) (op : Op) (s : Store) :
    (∃ added, (run ops s).orders = s.orders ++ added) ∧
    ((op.apply s).orders = s.orders ∨
      ∃ insertErr clearErr now body r o, op = .postCheckout insertErr clearErr now body ∧
        (postCheckout insertErr clearErr now body s).1 = .ok r ∧ o.id = r.orderId ∧
        (op.apply s).orders = s.orders ++ [o]) ∧
    (∀ insertErr clearErr now body r,
      (postCheckout insertErr clearErr now body s).1 = .ok r →
      ∃ o, o.id = r.orderId ∧
        (postCheckout insertErr clearErr now body s).2.orders = s.orders ++ [o]) := by
  refine ⟨?_, apply_orders op s, ?_⟩
  · induction ops generalizing s with
    | nil => exact ⟨[], by simp [run]⟩
    | cons o ops ih =>
      obtain ⟨added, hadded⟩ := ih (o.apply s)
      have hrun : run (o :: ops) s = run ops (o.apply s) := rfl
      rw [hrun, hadded]
      rcases apply_orders o s with h | ⟨_, _, _, _, _, x, _, _, _, h⟩
      · exact ⟨added, by rw [h]⟩
      · exact ⟨x :: added, by rw [h]; simp⟩
  · intro insertErr clearErr now body r hr
    rcases postCheckout_orders insertErr clearErr now body s with h | ⟨r2, o, h1, h2, h3⟩
    · exact absurd hr (h.1 r)
    · rw [hr] at h1
      simp only [Response.ok.injEq] at h1
      subst h1
      exact ⟨o, h2, h3⟩

/-! ## The total comes from the request -/

/-- C19: the same valid checkout request, handled in two arbitrary stores (any
catalogs, any carts), is answered in both with a receipt and an order appended
whose totals are equal and whose order_items are equal: the total is the sum
of price × quantity over the submitted items and the order_items are the
submitted items, whatever prices the catalog holds. -/
theorem postCheckout_total_from_body (clearErr1 clearErr2 : Option String) (now1 now2 : Nat)
    (name email : String) (address city zip : Option String) (items : List LineItem)
    (s1 s2 : Store) (hname : name ≠ "") (hemail : email ≠ "") (hitems : items ≠ []) :
    ∃ r1 r2 o1 o2,
      (postCheckout none clearErr1 now1
        ⟨some ⟨some name, some email, address, city, zip⟩, some items⟩ s1).1 = .ok r1 ∧
      (postCheckout none clearErr1 now1
        ⟨some ⟨some name, some email, address, city, zip⟩, some items⟩ s1).2.orders
          = s1.orders ++ [o1] ∧
      (postCheckout none clearErr2 now2
        ⟨some ⟨some name, some email, address, city, zip⟩, some items⟩ s2).1 = .ok r2 ∧
      (postCheckout none clearErr2 now2
        ⟨some ⟨some name, some email, address, city, zip⟩, some items⟩ s2).2.orders
          = s2.orders ++ [o2] ∧
      r1.total = r2.total ∧ o1.total_amount = o2.total_amount ∧
      o1.order_items = o2.order_items ∧ o1.order_items = items ∧
      o1.total_amount = r1.total ∧
      r1.total = (items.map (fun item => item.price * item.quantity)).sum := by
  rw [postCheckout_executed clearErr1 now1 name email address city zip items s1
      hname hemail hitems,
    postCheckout_executed clearErr2 now2 name email address city zip items s2
      hname hemail hitems]
  exact ⟨_, _, _, _, rfl, rfl, rfl, rfl, rfl, rfl, rfl, rfl, rfl, totalAmount_eq_sum items⟩

theorem postCheckout_total_from_body_witness :
    ∃ r1 r2 o1 o2,
      (postCheckout none none 9
        ⟨some ⟨some "A", some "a@b.com", none, none, none⟩, some [⟨1, "Mouse", 1, 2, none⟩]⟩
        ⟨[⟨1, "Mouse", 999, none, none⟩], 1, [⟨1, 1, 2, 5⟩], 1, [], 0⟩).1 = .ok r1 ∧
      (postCheckout none none 9
        ⟨some ⟨some "A", some "a@b.com", none, none, none⟩, some [⟨1, "Mouse", 1, 2, none⟩]⟩
        ⟨[⟨1, "Mouse", 999, none, none⟩], 1, [⟨1, 1, 2, 5⟩], 1, [], 0⟩).2.orders
          = [] ++ [o1] ∧
      (postCheckout none none 12
        ⟨some ⟨some "A", some "a@b.com", none, none, none⟩, some [⟨1, "Mouse", 1, 2, none⟩]⟩
        ⟨[], 0, [], 0, [], 0⟩).1 = .ok r2 ∧
      (postCheckout none none 12
        ⟨some ⟨some "A", some "a@b.com", none, none, none⟩, some [⟨1, "Mouse", 1, 2, none⟩]⟩
        ⟨[], 0, [], 0, [], 0⟩).2.orders = [] ++ [o2] ∧
      r1.total = r2.total ∧ o1.total_amount = o2.total_amount ∧
      o1.order_items = o2.order_items ∧ o1.order_items = [⟨1, "Mouse", 1, 2, none⟩] ∧
      o1.total_amount = r1.total ∧
      r1.total = (([⟨1, "Mouse", 1, 2, none⟩] : List LineItem).map
        (fun item => item.price * item.quantity)).sum :=
  postCheckout_total_from_body none none 9 12 "A" "a@b.com" none none none
    [⟨1, "Mouse", 1, 2, none⟩]
    ⟨[⟨1, "Mouse", 999, none, none⟩], 1, [⟨1, 1, 2, 5⟩], 1, [], 0⟩ ⟨[], 0, [], 0, [], 0⟩
    (by decide) (by decide) (by simp)

/-! ## Reading back the order of a receipt -/

theorem find?_order_none (l : List Order) (id : Nat) (h : ∀ x ∈ l, x.id ≠ id) :
    l.find? (fun x => x.id == id) = none := by
  rw [List.find?_eq_none]
  intro x hx
  simpa using h x hx

/-- C20: for a valid checkout request whose order insert is executed, the answer
is a receipt, and `GET /api/orders/:id` with the orderId of the receipt returns
the order created by the request: its customer_name and customer_email are the
submitted name and email, its customer_address, customer_city and customer_zip
are the submitted values, or the empty string for an omitted one, its
total_amount is the total of the receipt, and its order_items are the
submitted cartItems. -/
theorem postCheckout_then_getOrdersId (clearErr : Option String) (now : Nat)
    (name email : String) (address city zip : Option String) (items : List LineItem)
    (s : Store) (hname : name ≠ "") (hemail : email ≠ "") (hitems : items ≠ []) :
    ∃ r o, (postCheckout none clearErr now
        ⟨some ⟨some name, some email, address, city, zip⟩, some items⟩ s).1 = .ok r ∧
      getOrdersId r.orderId (postCheckout none clearErr now
        ⟨some ⟨some name, some email, address, city, zip⟩, some items⟩ s).2 = .ok o ∧
      o ∉ s.orders ∧
      o.id = r.orderId ∧ o.customer_name = name ∧ o.customer_email = email ∧
      o.customer_address = address.getD "" ∧ o.customer_city = city.getD "" ∧
      o.customer_zip = zip.getD "" ∧ o.total_amount = r.total ∧ o.order_items = items := by
  have hfresh := (nextRowid_fresh (s.orders.map (·.id)) s.ordersSeq).2.2
  have hne : ∀ x ∈ s.orders, x.id ≠ nextRowid (s.orders.map (·.id)) s.ordersSeq :=
    fun x hx => ne_of_lt (hfresh x.id (List.mem_map_of_mem _ hx))
  have hnone := find?_order_none s.orders _ hne
  rw [postCheckout_executed clearErr now name email address city zip items s hname hemail hitems]
  refine ⟨_, ⟨nextRowid (s.orders.map (·.id)) s.ordersSeq, name, email, address.getD "",
    city.getD "", zip.getD "", totalAmount items, items, now⟩, rfl, ?_, ?_,
    rfl, rfl, rfl, rfl, rfl, rfl, rfl, rfl⟩
  · simp [getOrdersId, List.find?_append, hnone]
  · intro hmem
    exact hne _ hmem rfl

theorem postCheckout_then_getOrdersId_witness :
    ∃ r o, (postCheckout none none 9
        ⟨some ⟨some "A", some "a@b.com", some "1 Road", none, none⟩,
          some [⟨1, "Mouse", 999, 2, none⟩]⟩
        ⟨[⟨1, "Mouse", 999, none, none⟩], 1, [⟨1, 1, 2, 5⟩], 1, [], 0⟩).1 = .ok r ∧
      getOrdersId r.orderId (postCheckout none none 9
        ⟨some ⟨some "A", some "a@b.com", some "1 Road", none, none⟩,
          some [⟨1, "Mouse", 999, 2, none⟩]⟩
        ⟨[⟨1, "Mouse", 999, none, none⟩], 1, [⟨1, 1, 2, 5⟩], 1, [], 0⟩).2 = .ok o ∧
      o ∉ ([] : List Order) ∧
      o.id = r.orderId ∧ o.customer_name = "A" ∧ o.customer_email = "a@b.com" ∧
      o.customer_address = (some "1 Road").getD "" ∧ o.customer_city = (none).getD "" ∧
      o.customer_zip = (none).getD "" ∧ o.total_amount = r.total ∧
      o.order_items = [⟨1, "Mouse", 999, 2, none⟩] :=
  postCheckout_then_getOrdersId none 9 "A" "a@b.com" (some "1 Road") none none
    [⟨1, "Mouse", 999, 2, none⟩]
    ⟨[⟨1, "Mouse", 999, none, none⟩], 1, [⟨1, 1, 2, 5⟩], 1, [], 0⟩
    (by decide) (by decide) (by simp)


/-! ## Checkout when sqlite reports an error -/

/-- C21: for a valid checkout request, when the order insert is executed and the
`DELETE FROM cart_items` reports an error, the answer is the receipt, the new
order is in the order store and the cart store is as it was; when the order
insert itself reports an error the answer is 500 with the error text and the
store, orders and cart included, is as it was. -/
theorem postCheckout_statement_errors (message : String) (now : Nat)
    (name email : String) (address city zip : Option String) (items : List LineItem)
    (s : Store) (hname : name ≠ "") (hemail : email ≠ "") (hitems : items ≠ []) :
    (∃ r o, (postCheckout none (some message) now
        ⟨some ⟨some name, some email, address, city, zip⟩, some items⟩ s).1 = .ok r ∧
      r.customerName = name ∧ r.customerEmail = email ∧ r.items = items ∧
      o.id = r.orderId ∧ o.total_amount = r.total ∧ o.order_items = items ∧
      (postCheckout none (some message) now
        ⟨some ⟨some name, some email, address, city, zip⟩, some items⟩ s).2.orders
          = s.orders ++ [o] ∧
      (postCheckout none (some message) now
        ⟨some ⟨some name, some email, address, city, zip⟩, some items⟩ s).2.cart_items
          = s.cart_items ∧
      (postCheckout none (some message) now
        ⟨some ⟨some name, some email, address, city, zip⟩, some items⟩ s).2.products
          = s.products) ∧
    ∀ clearErr, postCheckout (some message) clearErr now
        ⟨some ⟨some name, some email, address, city, zip⟩, some items⟩ s
      = (.error 500 message, s) := by
  constructor
  · rw [postCheckout_executed (some message) now name email address city zip items s
      hname hemail hitems]
    exact ⟨_, ⟨nextRowid (s.orders.map (·.id)) s.ordersSeq, name, email, address.getD "",
      city.getD "", zip.getD "", totalAmount items, items, now⟩,
      rfl, rfl, rfl, rfl, rfl, rfl, rfl, rfl, rfl, rfl⟩
  · intro clearErr
    exact postCheckout_insert_failed message clearErr now name email address city zip items s
      hname hemail hitems

theorem postCheckout_statement_errors_witness :
    (∃ r o, (postCheckout none (some "SQLITE_BUSY: database is locked") 9
        ⟨some ⟨some "A", some "a@b.com", none, none, none⟩, some [⟨1, "Mouse", 999, 2, none⟩]⟩
        ⟨[⟨1, "Mouse", 999, none, none⟩], 1, [⟨1, 1, 2, 5⟩], 1, [], 0⟩).1 = .ok r ∧
      r.customerName = "A" ∧ r.customerEmail = "a@b.com" ∧
      r.items = [⟨1, "Mouse", 999, 2, none⟩] ∧
      o.id = r.orderId ∧ o.total_amount = r.total ∧
      o.order_items = [⟨1, "Mouse", 999, 2, none⟩] ∧
      (postCheckout none (some "SQLITE_BUSY: database is locked") 9
        ⟨some ⟨some "A", some "a@b.com", none, none, none⟩, some [⟨1, "Mouse", 999, 2, none⟩]⟩
        ⟨[⟨1, "Mouse", 999, none, none⟩], 1, [⟨1, 1, 2, 5⟩], 1, [], 0⟩).2.orders = [] ++ [o] ∧
      (postCheckout none (some "SQLITE_BUSY: database is locked") 9
        ⟨some ⟨some "A", some "a@b.com", none, none, none⟩, some [⟨1, "Mouse", 999, 2, none⟩]⟩
        ⟨[⟨1, "Mouse", 999, none, none⟩], 1, [⟨1, 1, 2, 5⟩], 1, [], 0⟩).2.cart_items
          = [⟨1, 1, 2, 5⟩] ∧
      (postCheckout none (some "SQLITE_BUSY: database is locked") 9
        ⟨some ⟨some "A", some "a@b.com", none, none, none⟩, some [⟨1, "Mouse", 999, 2, none⟩]⟩
        ⟨[⟨1, "Mouse", 999, none, none⟩], 1, [⟨1, 1, 2, 5⟩], 1, [], 0⟩).2.products
          = [⟨1, "Mouse", 999, none, none⟩]) ∧
    ∀ clearErr, postCheckout (some "SQLITE_BUSY: database is locked") clearErr 9
        ⟨some ⟨some "A", some "a@b.com", none, none, none⟩, some [⟨1, "Mouse", 999, 2, none⟩]⟩
        ⟨[⟨1, "Mouse", 999, none, none⟩], 1, [⟨1, 1, 2, 5⟩], 1, [], 0⟩
      = (.error 500 "SQLITE_BUSY: database is locked",
          ⟨[⟨1, "Mouse", 999, none, none⟩], 1, [⟨1, 1, 2, 5⟩], 1, [], 0⟩) :=
  postCheckout_statement_errors "SQLITE_BUSY: database is locked" 9 "A" "a@b.com" none none none
    [⟨1, "Mouse", 999, 2, none⟩]
    ⟨[⟨1, "Mouse", 999, none, none⟩], 1, [⟨1, 1, 2, 5⟩], 1, [], 0⟩
    (by decide) (by decide) (by simp)

/-! ## The quantity reported by an add to an existing line -/

/-- C30: when product `p` exists and `c` is the cart line that refers to it,
`POST /api/cart` for `p` with quantity `q` (1 when omitted) answers with
newQuantity equal to the quantity of `c` plus `q`, and afterwards the cart
line with the id of `c` is the line that refers to `p` and its stored quantity
is that same number. -/
theorem postCart_newQuantity (now : Nat) (p : Nat) (quantity : Option Int) (c : CartItem)
    (s : Store) (hp0 : p ≠ 0) (hp : ∃ x ∈ s.products, x.id = p)
    (hc : c ∈ s.cart_items) (hcp : c.product_id = p)
    (hone : ∀ d ∈ s.cart_items, d.product_id = p → d = c) :
    (postCart now ⟨some p, quantity⟩ s).1 = .ok (.updated p (c.quantity + quantity.getD 1)) ∧
    (∃ d ∈ (postCart now ⟨some p, quantity⟩ s).2.cart_items,
      d.id = c.id ∧ d.product_id = p ∧ d.quantity = c.quantity + quantity.getD 1) ∧
    (∀ d ∈ (postCart now ⟨some p, quantity⟩ s).2.cart_items, d.product_id = p →
      d.id = c.id ∧ d.quantity = c.quantity + quantity.getD 1) := by
  obtain ⟨row, hrow⟩ := find?_product_isSome s.products p hp
  have hfind : s.cart_items.find? (fun d => d.product_id == p) = some c := by
    cases hf : s.cart_items.find? (fun d => d.product_id == p) with
    | none =>
      rw [List.find?_eq_none] at hf
      exact absurd (by simpa using hcp) (hf c hc)
    | some d =>
      have hd := List.find?_some hf
      have hdm := List.mem_of_find?_eq_some hf
      rw [hone d hdm (by simpa using hd)]
  have hstep : postCart now ⟨some p, quantity⟩ s
      = (.ok (.updated p (c.quantity + quantity.getD 1)),
          { s with
            cart_items := s.cart_items.map (fun d =>
              if d.product_id == p then { d with quantity := d.quantity + quantity.getD 1 }
              else d) }) := by
    simp [postCart, hp0, hrow, hfind]
  rw [hstep]
  refine ⟨rfl, ⟨{ c with quantity := c.quantity + quantity.getD 1 }, ?_, rfl, hcp, rfl⟩, ?_⟩
  · exact List.mem_map.2 ⟨c, hc, by simp [hcp]⟩
  · intro d hd hdp
    obtain ⟨e, he, rfl⟩ := List.mem_map.1 hd
    by_cases hep : e.product_id = p
    · have hec := hone e he hep
      subst hec
      simp [hep]
    · simp only [beq_iff_eq, hep, ↓reduceIte] at hdp

theorem postCart_newQuantity_witness :
    (postCart 9 ⟨some 1, some 3⟩
        ⟨[⟨1, "Mouse", 999, none, none⟩], 1, [⟨1, 1, 2, 5⟩], 1, [], 0⟩).1
      = .ok (.updated 1 ((⟨1, 1, 2, 5⟩ : CartItem).quantity + (some (3 : Int)).getD 1)) ∧
    (∃ d ∈ (postCart 9 ⟨some 1, some 3⟩
        ⟨[⟨1, "Mouse", 999, none, none⟩], 1, [⟨1, 1, 2, 5⟩], 1, [], 0⟩).2.cart_items,
      d.id = (⟨1, 1, 2, 5⟩ : CartItem).id ∧ d.product_id = 1 ∧
      d.quantity = (⟨1, 1, 2, 5⟩ : CartItem).quantity + (some (3 : Int)).getD 1) ∧
    (∀ d ∈ (postCart 9 ⟨some 1, some 3⟩
        ⟨[⟨1, "Mouse", 999, none, none⟩], 1, [⟨1, 1, 2, 5⟩], 1, [], 0⟩).2.cart_items,
      d.product_id = 1 →
      d.id = (⟨1, 1, 2, 5⟩ : CartItem).id ∧
      d.quantity = (⟨1, 1, 2, 5⟩ : CartItem).quantity + (some (3 : Int)).getD 1) :=
  postCart_newQuantity 9 1 (some 3) ⟨1, 1, 2, 5⟩
    ⟨[⟨1, "Mouse", 999, none, none⟩], 1, [⟨1, 1, 2, 5⟩], 1, [], 0⟩
    (by decide) ⟨⟨1, "Mouse", 999, none, none⟩, by simp, rfl⟩ (by simp) rfl (by simp)


/-! ## Checking out what the cart shows -/

theorem totalAmount_checkoutItems (rows : List CartRow)
    (h : ∀ row ∈ rows, row.subtotal = row.price * row.quantity) :
    totalAmount (checkoutItems (rows.map ClientItem.ofCartRow))
      = rows.foldl (fun sum item => sum + item.subtotal) 0 := by
  rw [totalAmount_eq_sum, foldl_add_eq_sum (fun item : CartRow => item.subtotal), zero_add]
  simp only [checkoutItems, List.map_map]
  congr 1
  apply List.map_congr_left
  intro row hrow
  simp [ClientItem.ofCartRow, h row hrow]

/-- C23: when `GET /api/cart` returns `data` with at least one item and the client
submits those items as the checkout page maps them (id, name, price, quantity,
imageUrl) with a non-empty name and email, the order insert being executed,
the answer is a receipt whose total equals the total that `GET /api/cart`
reported.  This holds in every store, in particular in one where every cart
line refers to an existing product. -/
theorem checkout_total_matches_cart (clearErr : Option String) (now : Nat)
    (name email : String) (address city zip : Option String) (s : Store) (data : CartData)
    (hget : getCart s = .ok data) (hitems : data.items ≠ [])
    (hname : name ≠ "") (hemail : email ≠ "") :
    ∃ r, (postCheckout none clearErr now
        ⟨some ⟨some name, some email, address, city, zip⟩,
          some (checkoutItems (data.items.map ClientItem.ofCartRow))⟩ s).1 = .ok r ∧
      r.total = data.total := by
  have hne : checkoutItems (data.items.map ClientItem.ofCartRow) ≠ [] := by
    simpa [checkoutItems] using hitems
  rw [postCheckout_executed clearErr now name email address city zip _ s hname hemail hne]
  refine ⟨_, rfl, ?_⟩
  simp only [getCart, Response.ok.injEq] at hget
  subst hget
  apply totalAmount_checkoutItems
  intro row hrow
  obtain ⟨x, _, rfl⟩ := List.mem_map.1 hrow
  rfl

theorem checkout_total_matches_cart_witness :
    ∃ r, (postCheckout none none 9
        ⟨some ⟨some "A", some "a@b.com", none, none, none⟩,
          some (checkoutItems ((⟨[⟨1, 2, 1, "Mouse", 999, none, none, 1998⟩], 1998, 2⟩ :
            CartData).items.map ClientItem.ofCartRow))⟩
        ⟨[⟨1, "Mouse", 999, none, none⟩], 1, [⟨1, 1, 2, 5⟩], 1, [], 0⟩).1 = .ok r ∧
      r.total = (⟨[⟨1, 2, 1, "Mouse", 999, none, none, 1998⟩], 1998, 2⟩ : CartData).total :=
  checkout_total_matches_cart none 9 "A" "a@b.com" none none none
    ⟨[⟨1, "Mouse", 999, none, none⟩], 1, [⟨1, 1, 2, 5⟩], 1, [], 0⟩
    ⟨[⟨1, 2, 1, "Mouse", 999, none, none, 1998⟩], 1998, 2⟩
    (by decide) (by simp) (by decide) (by decide)

/-! ## Totals of the client cart context -/

/-- What `fetchCartData` keeps: whether the request is answered by `GET /api/cart`
of some store or fails, the totals it sets are the sum of the quantities and
the sum of price × quantity of the cart items it sets. -/
theorem fetchCartData_totals (s : Store) (data : CartData) (st : CartContextState) :
    (getCart s = .ok data →
      getTotalItems (fetchCartData (some data) st)
        = ((fetchCartData (some data) st).cartItems.map (·.quantity)).sum ∧
      getTotalAmount (fetchCartData (some data) st)
        = ((fetchCartData (some data) st).cartItems.map
            (fun item => item.price * item.quantity)).sum) ∧
    getTotalItems (fetchCartData none st)
      = ((fetchCartData none st).cartItems.map (·.quantity)).sum ∧
    getTotalAmount (fetchCartData none st)
      = ((fetchCartData none st).cartItems.map (fun item => item.price * item.quantity)).sum := by
  refine ⟨?_, ?_, ?_⟩
  · intro hget
    simp only [getCart, Response.ok.injEq] at hget
    subst hget
    simp only [getTotalItems, getTotalAmount, fetchCartData, List.map_map]
    constructor
    · rw [foldl_add_eq_sum (fun item : CartRow => item.quantity), zero_add, List.map_map]
      rfl
    · rw [foldl_add_eq_sum (fun item : CartRow => item.subtotal), zero_add, List.map_map]
      rfl
  · simp [getTotalItems, fetchCartData, foldl_add_eq_sum (fun item : ClientItem => item.quantity)]
  · simp [getTotalAmount, fetchCartData,
      foldl_add_eq_sum (fun item : ClientItem => item.price * item.quantity)]

/-- C27 at its failing input: with an empty cart context and the API out of
reach, `addToCart` of a product of price 999 leaves one cart item of quantity 1
while `getTotalItems()` and `getTotalAmount()` still return 0; likewise the
fallbacks of `removeFromCart` and `clearCart` change the cart items and leave
the totals as they were. -/
theorem addToCart_fallback_stale_totals :
    (addToCart false none ⟨1, "Mouse", 999, none, none⟩ ⟨[], 0, 0, none⟩).cartItems
      = [⟨none, 1, 1, "Mouse", 999, none, none, none⟩] ∧
    getTotalItems (addToCart false none ⟨1, "Mouse", 999, none, none⟩ ⟨[], 0, 0, none⟩) = 0 ∧
    getTotalAmount (addToCart false none ⟨1, "Mouse", 999, none, none⟩ ⟨[], 0, 0, none⟩) = 0 ∧
    (removeFromCart false none 1
        ⟨[⟨some 1, 2, 1, "Mouse", 999, none, none, some 1998⟩], 1998, 2, none⟩).cartItems = [] ∧
    getTotalItems (removeFromCart false none 1
        ⟨[⟨some 1, 2, 1, "Mouse", 999, none, none, some 1998⟩], 1998, 2, none⟩) = 2 ∧
    (clearCart false none
        ⟨[⟨some 1, 2, 1, "Mouse", 999, none, none, some 1998⟩], 1998, 2, none⟩).cartItems = [] ∧
    getTotalAmount (clearCart false none
        ⟨[⟨some 1, 2, 1, "Mouse", 999, none, none, some 1998⟩], 1998, 2, none⟩) = 1998 := by
  decide


/-! ## The local fallback of `addToCart` -/

theorem find?_clientItem_none (l : List ClientItem) (k : Nat) (h : ∀ x ∈ l, x.id ≠ k) :
    l.find? (fun item => item.id == k) = none := by
  rw [List.find?_eq_none]
  intro x hx
  simpa using h x hx

theorem find?_clientItem_isSome (l : List ClientItem) (k : Nat) (h : ∃ x ∈ l, x.id = k) :
    ∃ item, l.find? (fun item => item.id == k) = some item := by
  obtain ⟨x, hx, hxk⟩ := h
  cases hf : l.find? (fun item => item.id == k) with
  | some item => exact ⟨item, rfl⟩
  | none =>
    rw [List.find?_eq_none] at hf
    exact absurd (by simpa using hxk) (hf x hx)

theorem sum_quantity_bump (l : List ClientItem) (k : Nat) (hd : (l.map (·.id)).Nodup)
    (h : ∃ x ∈ l, x.id = k) :
    ((l.map (fun item =>
        if item.id == k then { item with quantity := item.quantity + 1 } else item)).map
      (·.quantity)).sum = (l.map (·.quantity)).sum + 1 := by
  induction l with
  | nil =>
    obtain ⟨x, hx, _⟩ := h
    exact absurd hx (List.not_mem_nil _)
  | cons a l ih =>
    rw [List.map_cons, List.nodup_cons] at hd
    obtain ⟨ha, hl⟩ := hd
    by_cases hak : a.id = k
    · have hrest : ∀ x ∈ l, x.id ≠ k :=
        fun x hx hxk => ha (hak ▸ hxk ▸ List.mem_map_of_mem _ hx)
      have hid : l.map (fun item =>
          if item.id == k then { item with quantity := item.quantity + 1 } else item)
          = l.map id :=
        List.map_congr_left (fun x hx => by simp [hrest x hx])
      rw [List.map_cons, hid, List.map_id]
      simp [hak]
      ring
    · have hex : ∃ x ∈ l, x.id = k := by
        obtain ⟨x, hx, hxk⟩ := h
        rcases List.mem_cons.1 hx with rfl | hx
        · exact absurd hxk hak
        · exact ⟨x, hx, hxk⟩
      rw [List.map_cons]
      simp only [beq_iff_eq, hak, ↓reduceIte, List.map_cons, List.sum_cons]
      have := ih hl hex
      simp only [beq_iff_eq] at this
      rw [this]
      ring

/-- C28: the fallback of `addToCart` maps cart items with pairwise distinct product
ids to cart items with pairwise distinct product ids.  When an item with the
id of the product is present, the result is the old list, item by item, where
that item has its quantity increased by 1 and every other item is unchanged;
otherwise the result is the old list followed by the product with quantity 1.
In both cases the sum of the quantities grows by exactly 1. -/
theorem addToCartFallback_distinct (product : Product) (prevItems : List ClientItem)
    (hd : (prevItems.map (·.id)).Nodup) :
    ((addToCartFallback product prevItems).map (·.id)).Nodup ∧
    ((∃ item ∈ prevItems, item.id = product.id) →
      List.Forall₂
        (fun a b => (a.id = product.id → b = { a with quantity := a.quantity + 1 }) ∧
          (a.id ≠ product.id → b = a))
        prevItems (addToCartFallback product prevItems)) ∧
    ((∀ item ∈ prevItems, item.id ≠ product.id) →
      ∃ added, addToCartFallback product prevItems = prevItems ++ [added] ∧
        added.id = product.id ∧ added.quantity = 1 ∧ added.name = product.name ∧
        added.price = product.price) ∧
    ((addToCartFallback product prevItems).map (·.quantity)).sum
      = (prevItems.map (·.quantity)).sum + 1 := by
  by_cases hex : ∃ item ∈ prevItems, item.id = product.id
  · obtain ⟨found, hfound⟩ := find?_clientItem_isSome prevItems product.id hex
    have hstep : addToCartFallback product prevItems
        = prevItems.map (fun item =>
            if item.id == product.id then { item with quantity := item.quantity + 1 }
            else item) := by
      simp [addToCartFallback, hfound]
    rw [hstep]
    refine ⟨?_, ?_, ?_, sum_quantity_bump prevItems product.id hd hex⟩
    · have hids : (prevItems.map (fun item =>
          if item.id == product.id then { item with quantity := item.quantity + 1 }
          else item)).map (·.id) = prevItems.map (·.id) := by
        rw [List.map_map]
        apply List.map_congr_left
        intro x _
        by_cases hx : x.id = product.id <;> simp [hx]
      rw [hids]
      exact hd
    · intro _
      rw [List.forall₂_map_right_iff, List.forall₂_same]
      intro x _
      by_cases hx : x.id = product.id <;> simp [hx]
    · intro habs
      obtain ⟨x, hx, hxid⟩ := hex
      exact absurd hxid (habs x hx)
  · have habs : ∀ item ∈ prevItems, item.id ≠ product.id :=
      fun item hitem hid => hex ⟨item, hitem, hid⟩
    have hnone := find?_clientItem_none prevItems product.id habs
    have hstep : addToCartFallback product prevItems
        = prevItems ++ [ClientItem.ofProduct product] := by
      simp [addToCartFallback, hnone]
    rw [hstep]
    refine ⟨?_, fun h => absurd h hex, fun _ => ⟨_, rfl, rfl, rfl, rfl, rfl⟩, ?_⟩
    · simp only [List.map_append, List.map_cons, List.map_nil]
      refine List.Nodup.append hd (List.nodup_singleton _) ?_
      rw [List.disjoint_singleton]
      intro hmem
      obtain ⟨x, hx, hxid⟩ := List.mem_map.1 hmem
      exact habs x hx hxid
    · simp [ClientItem.ofProduct]

theorem addToCartFallback_distinct_witness :
    ((addToCartFallback ⟨1, "Mouse", 999, none, none⟩
        [⟨some 1, 2, 1, "Mouse", 999, none, none, some 1998⟩,
          ⟨some 2, 1, 2, "Pad", 50, none, none, some 50⟩]).map (·.id)).Nodup ∧
    ((∃ item ∈ ([⟨some 1, 2, 1, "Mouse", 999, none, none, some 1998⟩,
          ⟨some 2, 1, 2, "Pad", 50, none, none, some 50⟩] : List ClientItem),
        item.id = (⟨1, "Mouse", 999, none, none⟩ : Product).id) →
      List.Forall₂
        (fun a b =>
          (a.id = (⟨1, "Mouse", 999, none, none⟩ : Product).id →
            b = { a with quantity := a.quantity + 1 }) ∧
          (a.id ≠ (⟨1, "Mouse", 999, none, none⟩ : Product).id → b = a))
        [⟨some 1, 2, 1, "Mouse", 999, none, none, some 1998⟩,
          ⟨some 2, 1, 2, "Pad", 50, none, none, some 50⟩]
        (addToCartFallback ⟨1, "Mouse", 999, none, none⟩
          [⟨some 1, 2, 1, "Mouse", 999, none, none, some 1998⟩,
            ⟨some 2, 1, 2, "Pad", 50, none, none, some 50⟩])) ∧
    ((∀ item ∈ ([⟨some 1, 2, 1, "Mouse", 999, none, none, some 1998⟩,
          ⟨some 2, 1, 2, "Pad", 50, none, none, some 50⟩] : List ClientItem),
        item.id ≠ (⟨1, "Mouse", 999, none, none⟩ : Product).id) →
      ∃ added, addToCartFallback ⟨1, "Mouse", 999, none, none⟩
          [⟨some 1, 2, 1, "Mouse", 999, none, none, some 1998⟩,
            ⟨some 2, 1, 2, "Pad", 50, none, none, some 50⟩]
          = [⟨some 1, 2, 1, "Mouse", 999, none, none, some 1998⟩,
              ⟨some 2, 1, 2, "Pad", 50, none, none, some 50⟩] ++ [added] ∧
        added.id = (⟨1, "Mouse", 999, none, none⟩ : Product).id ∧ added.quantity = 1 ∧
        added.name = (⟨1, "Mouse", 999, none, none⟩ : Product).name ∧
        added.price = (⟨1, "Mouse", 999, none, none⟩ : Product).price) ∧
    ((addToCartFallback ⟨1, "Mouse", 999, none, none⟩
        [⟨some 1, 2, 1, "Mouse", 999, none, none, some 1998⟩,
          ⟨some 2, 1, 2, "Pad", 50, none, none, some 50⟩]).map (·.quantity)).sum
      = (([⟨some 1, 2, 1, "Mouse", 999, none, none, some 1998⟩,
          ⟨some 2, 1, 2, "Pad", 50, none, none, some 50⟩] : List ClientItem).map
            (·.quantity)).sum + 1 :=
  addToCartFallback_distinct ⟨1, "Mouse", 999, none, none⟩
    [⟨some 1, 2, 1, "Mouse", 999, none, none, some 1998⟩,
      ⟨some 2, 1, 2, "Pad", 50, none, none, some 50⟩] (by decide)

/-! ## Client validation against server validation -/

/-- C29: a form that passes the validation of `handleSubmit` (name, email, address,
city and zip non-empty and the email matching the regular expression) is
posted with a body that passes the server's validation of the customer
information: with a non-empty cart the answer of `POST /api/checkout` is never
400, and it is the receipt when the order insert is executed.  The converse
fails: a form with empty address, city and zip is refused by `handleSubmit`,
and the server accepts the same customer information. -/
theorem handleSubmit_passes_server (formData : CheckoutForm) (cartItems : List ClientItem)
    (body : CheckoutBody) (insertErr clearErr : Option String) (now : Nat) (s : Store)
    (hsubmit : handleSubmit formData cartItems = .ok body) (hcart : cartItems ≠ []) :
    (postCheckout insertErr clearErr now body s).1.status ≠ 400 ∧
    (insertErr = none → ∃ r, (postCheckout insertErr clearErr now body s).1 = .ok r) ∧
    (handleSubmit ⟨"A", "a@b.com", "", "", ""⟩ cartItems
        = .error "Please fill in all required fields." ∧
      (postCheckout insertErr clearErr now
        ⟨some ⟨some "A", some "a@b.com", some "", some "", some ""⟩,
          some (checkoutItems cartItems)⟩ s).1.status ≠ 400 ∧
      (insertErr = none → ∃ r, (postCheckout insertErr clearErr now
        ⟨some ⟨some "A", some "a@b.com", some "", some "", some ""⟩,
          some (checkoutItems cartItems)⟩ s).1 = .ok r)) := by
  have hne : checkoutItems cartItems ≠ [] := by
    simpa [checkoutItems] using hcart
  have hserver : ∀ (name email : String) (address city zip : Option String),
      name ≠ "" → email ≠ "" →
      (postCheckout insertErr clearErr now
        ⟨some ⟨some name, some email, address, city, zip⟩, some (checkoutItems cartItems)⟩
        s).1.status ≠ 400 ∧
      (insertErr = none → ∃ r, (postCheckout insertErr clearErr now
        ⟨some ⟨some name, some email, address, city, zip⟩, some (checkoutItems cartItems)⟩
        s).1 = .ok r) := by
    intro name email address city zip hname hemail
    cases insertErr with
    | some message =>
      rw [postCheckout_insert_failed message clearErr now name email address city zip _ s
        hname hemail hne]
      exact ⟨by simp [Response.status], fun h => by simp at h⟩
    | none =>
      rw [postCheckout_executed clearErr now name email address city zip _ s hname hemail hne]
      exact ⟨by simp [Response.status], fun _ => ⟨_, rfl⟩⟩
  have hbody : body = ⟨some ⟨some formData.name, some formData.email, some formData.address,
      some formData.city, some formData.zip⟩, some (checkoutItems cartItems)⟩ ∧
      formData.name ≠ "" ∧ formData.email ≠ "" := by
    unfold handleSubmit at hsubmit
    split at hsubmit
    · simp at hsubmit
    · rename_i hfields
      split at hsubmit
      · simp at hsubmit
      · simp only [Except.ok.injEq] at hsubmit
        simp only [Bool.or_eq_true, beq_iff_eq, not_or] at hfields
        exact ⟨hsubmit.symm, hfields.1.1.1.1, hfields.1.1.1.2⟩
  obtain ⟨hb, hname, hemail⟩ := hbody
  subst hb
  obtain ⟨h1, h2⟩ := hserver formData.name formData.email (some formData.address)
    (some formData.city) (some formData.zip) hname hemail
  obtain ⟨h3, h4⟩ := hserver "A" "a@b.com" (some "") (some "") (some "") (by decide) (by decide)
  exact ⟨h1, h2, by simp [handleSubmit], h3, h4⟩

theorem handleSubmit_passes_server_witness :
    (postCheckout none none 9
        ⟨some ⟨some "A", some "a@b.com", some "1 Road", some "Pune", some "411001"⟩,
          some (checkoutItems [⟨some 1, 2, 1, "Mouse", 999, none, none, some 1998⟩])⟩
        ⟨[⟨1, "Mouse", 999, none, none⟩], 1, [⟨1, 1, 2, 5⟩], 1, [], 0⟩).1.status ≠ 400 ∧
    ((none : Option String) = none → ∃ r, (postCheckout none none 9
        ⟨some ⟨some "A", some "a@b.com", some "1 Road", some "Pune", some "411001"⟩,
          some (checkoutItems [⟨some 1, 2, 1, "Mouse", 999, none, none, some 1998⟩])⟩
        ⟨[⟨1, "Mouse", 999, none, none⟩], 1, [⟨1, 1, 2, 5⟩], 1, [], 0⟩).1 = .ok r) ∧
    (handleSubmit ⟨"A", "a@b.com", "", "", ""⟩
        [⟨some 1, 2, 1, "Mouse", 999, none, none, some 1998⟩]
        = .error "Please fill in all required fields." ∧
      (postCheckout none none 9
        ⟨some ⟨some "A", some "a@b.com", some "", some "", some ""⟩,
          some (checkoutItems [⟨some 1, 2, 1, "Mouse", 999, none, none, some 1998⟩])⟩
        ⟨[⟨1, "Mouse", 999, none, none⟩], 1, [⟨1, 1, 2, 5⟩], 1, [], 0⟩).1.status ≠ 400 ∧
      ((none : Option String) = none → ∃ r, (postCheckout none none 9
        ⟨some ⟨some "A", some "a@b.com", some "", some "", some ""⟩,
          some (checkoutItems [⟨some 1, 2, 1, "Mouse", 999, none, none, some 1998⟩])⟩
        ⟨[⟨1, "Mouse", 999, none, none⟩], 1, [⟨1, 1, 2, 5⟩], 1, [], 0⟩).1 = .ok r)) :=
  handleSubmit_passes_server ⟨"A", "a@b.com", "1 Road", "Pune", "411001"⟩
    [⟨some 1, 2, 1, "Mouse", 999, none, none, some 1998⟩] _ none none 9
    ⟨[⟨1, "Mouse", 999, none, none⟩], 1, [⟨1, 1, 2, 5⟩], 1, [], 0⟩ rfl (by simp)


/-! ## Image URLs -/

theorem startsWith_http (url : List Char) (h : startsWith "http".toList url = true) :
    ∃ rest, url = 'h' :: 't' :: 't' :: 'p' :: rest := by
  have hlit : "http".toList = ['h', 't', 't', 'p'] := rfl
  rw [hlit] at h
  match url, h with
  | a :: b :: c :: d :: rest, h =>
    simp only [startsWith, Bool.and_eq_true, beq_iff_eq, Bool.and_true] at h
    obtain ⟨h1, h2, h3, h4⟩ := h
    exact ⟨rest, by rw [← h1, ← h2, ← h3, ← h4]⟩
  | [], h => simp [startsWith] at h
  | [_], h => simp [startsWith] at h
  | [_, _], h => simp [startsWith] at h
  | [_, _, _], h => simp [startsWith] at h

theorem takeWhile_takeWhile_append (p : Char → Bool) (l t : List Char) (x : Char)
    (hx : p x = false) :
    (l.takeWhile p ++ x :: t).takeWhile p = l.takeWhile p := by
  induction l with
  | nil => simp [List.takeWhile, hx]
  | cons a l ih =>
    by_cases ha : p a = true
    · simp [List.takeWhile_cons, ha, ih]
    · simp [List.takeWhile_cons, ha, hx]

theorem beforeQuestionMark_split (s : List Char) :
    ∃ rest, s = beforeQuestionMark s ++ rest ∧ '?' ∉ beforeQuestionMark s ∧
      (rest = [] ∨ ∃ tail, rest = '?' :: tail) := by
  refine ⟨s.dropWhile (fun c => c != '?'), (List.takeWhile_append_dropWhile _ s).symm, ?_, ?_⟩
  · intro hmem
    have := List.mem_takeWhile_imp hmem
    simp at this
  · cases hd : s.dropWhile (fun c => c != '?') with
    | nil => exact Or.inl rfl
    | cons a tail =>
      right
      have ha := List.head_dropWhile_not (fun c => c != '?') s (by simp [hd])
      simp only [hd, List.head_cons] at ha
      exact ⟨tail, by simp at ha; rw [ha]⟩


theorem getImageUrl_cons (a : Char) (l : List Char) :
    getImageUrl (some (a :: l))
      = if startsWith "http".toList (a :: l) then a :: l
        else "/images/products/".toList ++ a :: l := by
  unfold getImageUrl
  rfl

theorem includes_nil_unsplash : includes "unsplash.com".toList [] = false := by
  decide

theorem getOptimizedImageUrl_of_includes (imageUrl : Option (List Char))
    (width height : Option Nat)
    (hinc : includes "unsplash.com".toList (getImageUrl imageUrl) = true) :
    getOptimizedImageUrl imageUrl width height
      = beforeQuestionMark (getImageUrl imageUrl) ++ "?w=".toList ++ digits (width.getD 600) ++
          "&h=".toList ++ digits (height.getD 400) ++ "&fit=crop&q=80".toList := by
  have hne : ¬ (getImageUrl imageUrl).isEmpty = true := by
    intro hempty
    rw [List.isEmpty_iff] at hempty
    rw [hempty, includes_nil_unsplash] at hinc
    exact absurd hinc (by decide)
  unfold getOptimizedImageUrl
  dsimp only
  rw [if_neg hne, if_pos hinc]

theorem getOptimizedImageUrl_of_not_includes (imageUrl : Option (List Char))
    (width height : Option Nat)
    (hinc : includes "unsplash.com".toList (getImageUrl imageUrl) = false) :
    getOptimizedImageUrl imageUrl width height = getImageUrl imageUrl := by
  unfold getOptimizedImageUrl
  dsimp only
  by_cases hempty : (getImageUrl imageUrl).isEmpty = true
  · rw [if_pos hempty]
    exact (List.isEmpty_iff.1 hempty).symm
  · rw [if_neg hempty, if_neg (by rw [hinc]; decide)]

/-- C24, as stated, fails in its last part: for the file name "unsplash.com.jpg",
whose URL "/images/products/unsplash.com.jpg" contains "unsplash.com",
applying `getOptimizedImageUrl` to its own result gives another string (the
local path is put in front once more). -/
theorem getOptimizedImageUrl_twice_local :
    getImageUrl (some "unsplash.com.jpg".toList) = "/images/products/unsplash.com.jpg".toList ∧
    getOptimizedImageUrl (some "unsplash.com.jpg".toList) none none
      = "/images/products/unsplash.com.jpg?w=600&h=400&fit=crop&q=80".toList ∧
    getOptimizedImageUrl
        (some (getOptimizedImageUrl (some "unsplash.com.jpg".toList) none none)) none none
      = "/images/products//images/products/unsplash.com.jpg?w=600&h=400&fit=crop&q=80".toList ∧
    getOptimizedImageUrl
        (some (getOptimizedImageUrl (some "unsplash.com.jpg".toList) none none)) none none
      ≠ getOptimizedImageUrl (some "unsplash.com.jpg".toList) none none := by
  decide

/-- C24, amended: `getOptimizedImageUrl` returns "" when imageUrl is absent or
empty; `getImageUrl` returns a non-empty input as it is when it starts with
"http" and with "/images/products/" in front otherwise; when that URL does not
contain "unsplash.com" it is returned unchanged; when it does, the result is
the part of the URL before its first "?" followed by
"?w=<width>&h=<height>&fit=crop&q=80" (600 and 400 when omitted); and when
imageUrl starts with "http", applying the function again to its own result
with the same width and height returns the same string. -/
theorem getOptimizedImageUrl_contract (url : List Char) (width height : Option Nat) :
    getOptimizedImageUrl none width height = [] ∧
    getOptimizedImageUrl (some []) width height = [] ∧
    (url ≠ [] → startsWith "http".toList url = true → getImageUrl (some url) = url) ∧
    (url ≠ [] → startsWith "http".toList url = false →
      getImageUrl (some url) = "/images/products/".toList ++ url) ∧
    (includes "unsplash.com".toList (getImageUrl (some url)) = false →
      getOptimizedImageUrl (some url) width height = getImageUrl (some url)) ∧
    (includes "unsplash.com".toList (getImageUrl (some url)) = true →
      ∃ base rest, getImageUrl (some url) = base ++ rest ∧ '?' ∉ base ∧
        (rest = [] ∨ ∃ tail, rest = '?' :: tail) ∧
        getOptimizedImageUrl (some url) width height
          = base ++ "?w=".toList ++ digits (width.getD 600) ++ "&h=".toList ++
              digits (height.getD 400) ++ "&fit=crop&q=80".toList) ∧
    (startsWith "http".toList url = true →
      getOptimizedImageUrl (some (getOptimizedImageUrl (some url) width height)) width height
        = getOptimizedImageUrl (some url) width height) := by
  refine ⟨rfl, rfl, ?_, ?_, ?_, ?_, ?_⟩
  · intro hne hs
    cases url with
    | nil => exact absurd rfl hne
    | cons a l => rw [getImageUrl_cons, if_pos hs]
  · intro hne hs
    cases url with
    | nil => exact absurd rfl hne
    | cons a l => rw [getImageUrl_cons, if_neg (by rw [hs]; decide)]
  · exact getOptimizedImageUrl_of_not_includes (some url) width height
  · intro hinc
    obtain ⟨rest, hsplit, hbase, hrest⟩ := beforeQuestionMark_split (getImageUrl (some url))
    exact ⟨_, rest, hsplit, hbase, hrest,
      getOptimizedImageUrl_of_includes (some url) width height hinc⟩
  · intro hs
    obtain ⟨rest, rfl⟩ := startsWith_http url hs
    have hfull : getImageUrl (some ('h' :: 't' :: 't' :: 'p' :: rest))
        = 'h' :: 't' :: 't' :: 'p' :: rest := by
      rw [getImageUrl_cons, if_pos hs]
    cases hinc : includes "unsplash.com".toList
        (getImageUrl (some ('h' :: 't' :: 't' :: 'p' :: rest))) with
    | false =>
      have hstep : getOptimizedImageUrl (some ('h' :: 't' :: 't' :: 'p' :: rest)) width height
          = 'h' :: 't' :: 't' :: 'p' :: rest := by
        rw [getOptimizedImageUrl_of_not_includes _ width height hinc, hfull]
      rw [hstep, hstep]
    | true =>
      have hbase : beforeQuestionMark ('h' :: 't' :: 't' :: 'p' :: rest)
          = 'h' :: 't' :: 't' :: 'p' :: rest.takeWhile (fun c => c != '?') := by
        unfold beforeQuestionMark
        rfl
      have hstep : getOptimizedImageUrl (some ('h' :: 't' :: 't' :: 'p' :: rest)) width height
          = 'h' :: 't' :: 't' :: 'p' :: (rest.takeWhile (fun c => c != '?') ++
              '?' :: ("w=".toList ++ digits (width.getD 600) ++ "&h=".toList ++
                digits (height.getD 400) ++ "&fit=crop&q=80".toList)) := by
        rw [getOptimizedImageUrl_of_includes _ width height hinc, hfull, hbase]
        have hq : "?w=".toList = '?' :: "w=".toList := rfl
        rw [hq]
        simp only [List.cons_append, List.append_assoc]
      rw [hstep]
      have hs2 : startsWith "http".toList
          ('h' :: 't' :: 't' :: 'p' :: (rest.takeWhile (fun c => c != '?') ++
              '?' :: ("w=".toList ++ digits (width.getD 600) ++ "&h=".toList ++
                digits (height.getD 400) ++ "&fit=crop&q=80".toList))) = true := rfl
      have hfull2 : getImageUrl
          (some ('h' :: 't' :: 't' :: 'p' :: (rest.takeWhile (fun c => c != '?') ++
              '?' :: ("w=".toList ++ digits (width.getD 600) ++ "&h=".toList ++
                digits (height.getD 400) ++ "&fit=crop&q=80".toList))))
          = 'h' :: 't' :: 't' :: 'p' :: (rest.takeWhile (fun c => c != '?') ++
              '?' :: ("w=".toList ++ digits (width.getD 600) ++ "&h=".toList ++
                digits (height.getD 400) ++ "&fit=crop&q=80".toList)) := by
        rw [getImageUrl_cons, if_pos hs2]
      have hbase2 : beforeQuestionMark
          ('h' :: 't' :: 't' :: 'p' :: (rest.takeWhile (fun c => c != '?') ++
              '?' :: ("w=".toList ++ digits (width.getD 600) ++ "&h=".toList ++
                digits (height.getD 400) ++ "&fit=crop&q=80".toList)))
          = 'h' :: 't' :: 't' :: 'p' :: rest.takeWhile (fun c => c != '?') := by
        have hq := takeWhile_takeWhile_append (fun c => c != '?') rest
          ("w=".toList ++ digits (width.getD 600) ++ "&h=".toList ++
            digits (height.getD 400) ++ "&fit=crop&q=80".toList) '?' (by decide)
        have hcons : ∀ l : List Char, beforeQuestionMark ('h' :: 't' :: 't' :: 'p' :: l)
            = 'h' :: 't' :: 't' :: 'p' :: l.takeWhile (fun c => c != '?') := by
          intro l
          unfold beforeQuestionMark
          rfl
        rw [hcons, hq]
      cases hinc2 : includes "unsplash.com".toList
          (getImageUrl (some ('h' :: 't' :: 't' :: 'p' :: (rest.takeWhile (fun c => c != '?') ++
              '?' :: ("w=".toList ++ digits (width.getD 600) ++ "&h=".toList ++
                digits (height.getD 400) ++ "&fit=crop&q=80".toList))))) with
      | false =>
        rw [getOptimizedImageUrl_of_not_includes _ width height hinc2, hfull2]
      | true =>
        rw [getOptimizedImageUrl_of_includes _ width height hinc2, hfull2, hbase2]
        have hq : "?w=".toList = '?' :: "w=".toList := rfl
        rw [hq]
        simp only [List.cons_append, List.append_assoc]


theorem getOptimizedImageUrl_contract_witness :
    getOptimizedImageUrl
        (some (getOptimizedImageUrl
          (some "https://images.unsplash.com/photo-1?w=1200".toList) (some 300) none))
        (some 300) none
      = getOptimizedImageUrl
          (some "https://images.unsplash.com/photo-1?w=1200".toList) (some 300) none :=
  (getOptimizedImageUrl_contract "https://images.unsplash.com/photo-1?w=1200".toList
    (some 300) none).2.2.2.2.2.2 rfl

/-! ## File extensions -/

theorem lastIndexOf_spec (c : Char) (s : List Char) :
    (c ∉ s → lastIndexOf c s = -1) ∧
    (c ∈ s → ∃ a b, s = a ++ c :: b ∧ c ∉ b ∧ lastIndexOf c s = a.length) := by
  induction s with
  | nil => exact ⟨fun _ => rfl, fun h => absurd h (List.not_mem_nil _)⟩
  | cons x xs ih =>
    obtain ⟨ih1, ih2⟩ := ih
    by_cases hxs : c ∈ xs
    · obtain ⟨a, b, hab, hb, hidx⟩ := ih2 hxs
      have hstep : lastIndexOf c (x :: xs) = lastIndexOf c xs + 1 := by
        rw [lastIndexOf, if_pos (by rw [hidx]; exact Int.natCast_nonneg _)]
      refine ⟨fun h => absurd (List.mem_cons_of_mem _ hxs) h, fun _ => ⟨x :: a, b, ?_, hb, ?_⟩⟩
      · rw [hab]
        rfl
      · rw [hstep, hidx]
        simp
    · have hneg : ¬ (0 ≤ lastIndexOf c xs) := by
        rw [ih1 hxs]
        decide
      by_cases hx : x = c
      · subst hx
        refine ⟨fun h => absurd (List.mem_cons_self _ _) h, fun _ => ⟨[], xs, rfl, hxs, ?_⟩⟩
        rw [lastIndexOf, if_neg hneg]
        simp
      · refine ⟨fun _ => ?_, fun h => ?_⟩
        · rw [lastIndexOf, if_neg hneg]
          simp [hx]
        · rcases List.mem_cons.1 h with h | h
          · exact absurd h.symm hx
          · exact absurd h hxs

/-- C25 at its failing input: for the file name made of U+0130 (capital I with dot
above) followed by ".png", the part of the name from its last "." is ".png",
which is a valid extension, and `isValidImageFile` returns false: the index of
the "." is taken in the name and applied to the lowercase name, in which the
"." stands one place further. -/
theorem isValidImageFile_shifted_index :
    substring (lastIndexOf '.' (Char.ofNat 0x130 :: ".png".toList))
        (Char.ofNat 0x130 :: ".png".toList) = ".png".toList ∧
    toLowerCase jsLowerChar ".png".toList ∈ validExtensions ∧
    substring (lastIndexOf '.' (Char.ofNat 0x130 :: ".png".toList))
        (toLowerCase jsLowerChar (Char.ofNat 0x130 :: ".png".toList))
      = Char.ofNat 0x307 :: ".png".toList ∧
    isValidImageFile jsLowerChar (Char.ofNat 0x130 :: ".png".toList) = false := by
  decide

/-- What `isValidImageFile` does keep: when every character of the file name has
a lowercase form of one character and no character other than "." has a "."
in its lowercase form, the function returns true exactly when the name
contains a "." and the lowercase form of the part from its last "." is one of
the valid extensions. -/
theorem isValidImageFile_of_plain (lowerChar : Char → List Char) (filename : List Char)
    (hlen : ∀ c ∈ filename, (lowerChar c).length = 1)
    (hdot : ∀ c, c ≠ '.' → '.' ∉ lowerChar c) :
    isValidImageFile lowerChar filename = true ↔
      '.' ∈ filename ∧
      toLowerCase lowerChar (substring (lastIndexOf '.' filename) filename) ∈ validExtensions := by
  have hcontains : ∀ e : List Char, validExtensions.contains e = true ↔ e ∈ validExtensions :=
    fun e => by simp
  unfold isValidImageFile
  dsimp only
  rw [hcontains]
  by_cases hmem : '.' ∈ filename
  · obtain ⟨a, b, hab, _, hidx⟩ := (lastIndexOf_spec '.' filename).2 hmem
    have hla : (a.flatMap lowerChar).length = a.length := by
      have ha : ∀ c ∈ a, (lowerChar c).length = 1 :=
        fun c hc => hlen c (by rw [hab]; exact List.mem_append_left _ hc)
      clear hab hidx
      induction a with
      | nil => rfl
      | cons x xs ih =>
        rw [List.flatMap_cons, List.length_append, ha x (List.mem_cons_self _ _),
          ih (fun c hc => ha c (List.mem_cons_of_mem _ hc))]
        simp [Nat.add_comm]
    have h1 : substring (lastIndexOf '.' filename) (toLowerCase lowerChar filename)
        = ('.' :: b).flatMap lowerChar := by
      rw [hidx]
      conv_lhs => rw [hab]
      unfold substring toLowerCase
      rw [List.flatMap_append, Int.toNat_natCast, ← hla, List.drop_left]
    have h2 : toLowerCase lowerChar (substring (lastIndexOf '.' filename) filename)
        = ('.' :: b).flatMap lowerChar := by
      rw [hidx]
      conv_lhs => rw [hab]
      unfold substring toLowerCase
      rw [Int.toNat_natCast, List.drop_left]
    rw [h1, h2]
    exact ⟨fun h => ⟨hmem, h⟩, fun h => h.2⟩
  · constructor
    · intro h
      exfalso
      have hdotin : ∀ e ∈ validExtensions, '.' ∈ e := by decide
      have hin := hdotin _ h
      rw [(lastIndexOf_spec '.' filename).1 hmem] at hin
      unfold substring toLowerCase at hin
      have hzero : (-1 : Int).toNat = 0 := rfl
      rw [hzero, List.drop_zero, List.mem_flatMap] at hin
      obtain ⟨c, hc, hcdot⟩ := hin
      have hne : c ≠ '.' := fun h => hmem (h ▸ hc)
      exact hdot c hne hcdot
    · intro h
      exact absurd h.1 hmem


/-! ## Safe file names -/

theorem collapseDashes_head (d : Char) (cs : List Char) :
    ∃ t, collapseDashes (d :: cs) = d :: t := by
  induction cs generalizing d with
  | nil => exact ⟨[], rfl⟩
  | cons e cs ih =>
    obtain ⟨t, ht⟩ := ih e
    by_cases h : (d == '-' && e == '-') = true
    · have hde : d = e := by
        simp only [Bool.and_eq_true, beq_iff_eq] at h
        rw [h.1, h.2]
      refine ⟨t, ?_⟩
      rw [collapseDashes, if_pos h, ht, hde]
    · exact ⟨collapseDashes (e :: cs), by rw [collapseDashes, if_neg h]⟩

theorem collapseDashes_mem (l : List Char) : ∀ c ∈ collapseDashes l, c ∈ l := by
  induction l with
  | nil => intro c hc; exact hc
  | cons d cs ih =>
    cases cs with
    | nil => intro c hc; exact hc
    | cons e cs =>
      intro c hc
      by_cases h : (d == '-' && e == '-') = true
      · rw [collapseDashes, if_pos h] at hc
        exact List.mem_cons_of_mem _ (ih c hc)
      · rw [collapseDashes, if_neg h] at hc
        rcases List.mem_cons.1 hc with hc | hc
        · rw [hc]
          exact List.mem_cons_self _ _
        · exact List.mem_cons_of_mem _ (ih c hc)

theorem collapseDashes_chain (l : List Char) :
    List.Chain' (fun a b : Char => ¬ (a = '-' ∧ b = '-')) (collapseDashes l) := by
  induction l with
  | nil => exact List.chain'_nil
  | cons d cs ih =>
    cases cs with
    | nil => exact List.chain'_singleton _
    | cons e cs =>
      by_cases h : (d == '-' && e == '-') = true
      · rw [collapseDashes, if_pos h]
        exact ih
      · rw [collapseDashes, if_neg h]
        obtain ⟨t, ht⟩ := collapseDashes_head e cs
        rw [ht] at ih ⊢
        refine List.Chain'.cons ?_ ih
        simpa using h

theorem stripDashes_spec (s : List Char)
    (hchain : List.Chain' (fun a b : Char => ¬ (a = '-' ∧ b = '-')) s) :
    (∀ c ∈ stripDashes s, c ∈ s) ∧
    List.Chain' (fun a b : Char => ¬ (a = '-' ∧ b = '-')) (stripDashes s) ∧
    (stripDashes s).head? ≠ some '-' ∧ (stripDashes s).getLast? ≠ some '-' := by
  have hfront : ∃ t, (stripDashes s = if t.getLast? == some '-' then t.dropLast else t) ∧
      (∀ c ∈ t, c ∈ s) ∧ List.Chain' (fun a b : Char => ¬ (a = '-' ∧ b = '-')) t ∧
      t.head? ≠ some '-' := by
    cases s with
    | nil => exact ⟨[], rfl, fun c hc => hc, List.chain'_nil, by simp⟩
    | cons a l =>
      by_cases ha : a = '-'
      · subst ha
        refine ⟨l, rfl, fun c hc => List.mem_cons_of_mem _ hc, hchain.tail, ?_⟩
        intro hhead
        have := (List.chain'_cons'.1 hchain).1 '-' (by simp [hhead])
        exact this ⟨rfl, rfl⟩
      · refine ⟨a :: l, ?_, fun c hc => hc, hchain, by simpa using ha⟩
        unfold stripDashes
        split
        · rename_i cs heq
          simp only [List.cons.injEq] at heq
          exact absurd heq.1 ha
        · rfl
  obtain ⟨t, hstrip, hmem, hct, hhead⟩ := hfront
  rw [hstrip]
  rcases List.eq_nil_or_concat t with rfl | ⟨L, b, rfl⟩
  · exact ⟨fun c hc => absurd hc (by simp), by simp, by simp, by simp⟩
  · rw [List.concat_eq_append] at hmem hct hhead ⊢
    by_cases hb : b = '-'
    · subst hb
      have hlast : ((L ++ ['-']).getLast? == some '-') = true := by simp
      rw [if_pos hlast, List.dropLast_concat]
      refine ⟨fun c hc => hmem c (List.mem_append_left _ hc), hct.left_of_append, ?_, ?_⟩
      · intro hL
        cases L with
        | nil => simp at hL
        | cons x xs =>
          apply hhead
          simpa using hL
      · intro hL
        rcases List.eq_nil_or_concat L with rfl | ⟨M, a, rfl⟩
        · simp at hL
        · rw [List.concat_eq_append] at hL hct
          rw [List.getLast?_concat] at hL
          simp only [Option.some.injEq] at hL
          subst hL
          rw [List.append_assoc] at hct
          have := (List.chain'_split.1 hct).2
          exact (List.chain'_cons.1 this).1 ⟨rfl, rfl⟩
    · have hlast : ¬ ((L ++ [b]).getLast? == some '-') = true := by simpa using hb
      rw [if_neg hlast]
      exact ⟨hmem, hct, hhead, by simpa using hb⟩

/-- C26: for every original file name, product id and timestamp,
`generateSafeFilename` returns "product-", the product id, "-", the timestamp in
decimal, "-" and the safe name, where every character of the safe name is one
of a to z, 0 to 9, "." and "-", the safe name has no two consecutive "-" and
neither starts nor ends with "-".  This holds whatever the lowercase forms of
the characters are. -/
theorem generateSafeFilename_shape (lowerChar : Char → List Char) (timestamp : Nat)
    (originalName productId : List Char) :
    generateSafeFilename lowerChar timestamp originalName productId
      = "product-".toList ++ productId ++ "-".toList ++ digits timestamp ++ "-".toList ++
          safeName lowerChar originalName ∧
    (∀ c ∈ safeName lowerChar originalName,
      (97 ≤ c.toNat ∧ c.toNat ≤ 122) ∨ (48 ≤ c.toNat ∧ c.toNat ≤ 57) ∨ c = '.' ∨ c = '-') ∧
    (¬ ∃ l₁ l₂, safeName lowerChar originalName = l₁ ++ '-' :: '-' :: l₂) ∧
    (safeName lowerChar originalName).head? ≠ some '-' ∧
    (safeName lowerChar originalName).getLast? ≠ some '-' := by
  obtain ⟨hmem, hchain, hhead, hlast⟩ := stripDashes_spec _
    (collapseDashes_chain
      ((toLowerCase lowerChar originalName).map (fun c => if isSafeChar c then c else '-')))
  refine ⟨rfl, ?_, ?_, hhead, hlast⟩
  · intro c hc
    have hc2 := collapseDashes_mem _ c (hmem c hc)
    obtain ⟨x, _, hx⟩ := List.mem_map.1 hc2
    by_cases hsafe : isSafeChar x = true
    · rw [if_pos hsafe] at hx
      subst hx
      simp only [isSafeChar, Bool.or_eq_true, Bool.and_eq_true, decide_eq_true_eq,
        beq_iff_eq] at hsafe
      rcases hsafe with (h | h) | h
      · exact Or.inl h
      · exact Or.inr (Or.inl h)
      · exact Or.inr (Or.inr (Or.inl h))
    · rw [if_neg hsafe] at hx
      exact Or.inr (Or.inr (Or.inr hx.symm))
  · rintro ⟨l₁, l₂, hsplit⟩
    have hc : List.Chain' (fun a b : Char => ¬ (a = '-' ∧ b = '-'))
        (l₁ ++ '-' :: '-' :: l₂) := by
      rw [← hsplit]
      exact hchain
    have := (List.chain'_split.1 hc).2
    exact (List.chain'_cons.1 this).1 ⟨rfl, rfl⟩


/-! ## Two concurrent adds of the same product -/

/-- The three statements of `postCartStep`, executed with nothing in between, are
the handler `postCart`. -/
theorem postCartStep_thrice (now : Nat) (body : CartBody) (s : Store) :
    postCartStep now body
        (postCartStep now body (postCartStep now body .received s).1
          (postCartStep now body .received s).2).1
        (postCartStep now body (postCartStep now body .received s).1
          (postCartStep now body .received s).2).2
      = (.answered (postCart now body s).1, (postCart now body s).2) := by
  obtain ⟨productId, quantity⟩ := body
  cases productId with
  | none => rfl
  | some p =>
    by_cases hp : p = 0
    · subst hp
      rfl
    · cases hprod : s.products.find? (fun x => x.id == p) with
      | none => simp [postCartStep, postCart, hp, hprod]
      | some row =>
        cases hcart : s.cart_items.find? (fun c => c.product_id == p) with
        | none => simp [postCartStep, postCart, hp, hprod, hcart]
        | some c => simp [postCartStep, postCart, hp, hprod, hcart]

theorem linesFor_find?_none (p : Nat) (cart : List CartItem)
    (h : cart.find? (fun c => c.product_id == p) = none) : (linesFor p cart).length = 0 := by
  rw [List.find?_eq_none] at h
  have hnil : linesFor p cart = [] := by
    unfold linesFor
    rw [List.filter_eq_nil_iff]
    exact h
  rw [hnil]
  rfl

theorem linesFor_find?_some (p : Nat) (cart : List CartItem) (c : CartItem)
    (h : cart.find? (fun c => c.product_id == p) = some c) : 1 ≤ (linesFor p cart).length := by
  have hc := List.find?_some h
  have hmem : c ∈ linesFor p cart := List.mem_filter.2 ⟨List.mem_of_find?_eq_some h, hc⟩
  exact List.length_pos_of_mem hmem

theorem linesFor_bump (p : Nat) (q : Int) (cart : List CartItem) :
    (linesFor p (cart.map (fun c =>
        if c.product_id == p then { c with quantity := c.quantity + q } else c))).length
      = (linesFor p cart).length ∧
    quantityFor p (cart.map (fun c =>
        if c.product_id == p then { c with quantity := c.quantity + q } else c))
      = quantityFor p cart + q * (linesFor p cart).length := by
  induction cart with
  | nil => simp [linesFor, quantityFor]
  | cons a l ih =>
    obtain ⟨ih1, ih2⟩ := ih
    unfold quantityFor at ih2 ⊢
    unfold linesFor at ih1 ih2 ⊢
    by_cases ha : a.product_id = p
    · simp only [List.map_cons, beq_iff_eq, ha, ↓reduceIte, List.filter_cons, List.length_cons,
        List.sum_cons]
      simp only [beq_iff_eq] at ih1 ih2
      rw [ih1, ih2]
      constructor
      · trivial
      · push_cast
        ring
    · simp only [List.map_cons, beq_iff_eq, ha, ↓reduceIte, List.filter_cons]
      simp only [beq_iff_eq] at ih1 ih2
      exact ⟨ih1, ih2⟩

theorem linesFor_append_line (p : Nat) (cart : List CartItem) (id : Nat) (q : Int) (now : Nat) :
    (linesFor p (cart ++ [⟨id, p, q, now⟩])).length = (linesFor p cart).length + 1 ∧
    quantityFor p (cart ++ [⟨id, p, q, now⟩]) = quantityFor p cart + q := by
  simp [linesFor, quantityFor, List.filter_append]


theorem cartRun_flags (r : CartRun) :
    (r.aboutToInsert = true → r.foundNoLine = true ∧ r.inserted = 0) ∧
    (r.inserted = 0 ∨ (r.inserted = 1 ∧ r.foundNoLine = true)) ∧
    (r.isAnswered = true → r.pending 0 = 0 ∧ ∀ q, r.pending q = 0) := by
  cases r with
  | received => simp [CartRun.aboutToInsert, CartRun.inserted, CartRun.isAnswered]
  | productChecked => simp [CartRun.aboutToInsert, CartRun.inserted, CartRun.isAnswered]
  | cartChecked x =>
    cases x <;>
      simp [CartRun.aboutToInsert, CartRun.inserted, CartRun.isAnswered, CartRun.foundNoLine]
  | answered resp =>
    cases resp with
    | error code msg =>
      simp [CartRun.aboutToInsert, CartRun.inserted, CartRun.isAnswered, CartRun.pending]
    | ok a =>
      cases a <;>
        simp [CartRun.aboutToInsert, CartRun.inserted, CartRun.isAnswered, CartRun.pending,
          CartRun.foundNoLine]

theorem raceInv_symm (p : Nat) (s0 : Store) (qa qb : Int) (ra rb : CartRun) (st : Store)
    (h : RaceInv p s0 qa qb ra rb st) : RaceInv p s0 qb qa rb ra st := by
  obtain ⟨hfa, hfb, hprods, hcount, hsum, hno, h5, h6, h7⟩ := h
  refine ⟨hfb, hfa, hprods, by omega, by linarith, ?_, h6, h5, ?_⟩
  · intro h
    exact hno (by rw [Bool.or_comm]; exact h)
  · intro h
    exact h7 (by rw [Bool.or_comm]; exact h)

theorem raceInv_step (now p : Nat) (quantity : Option Int) (s0 : Store) (qb : Int)
    (ra rb : CartRun) (st : Store) (hp0 : p ≠ 0) (hprod : ∃ x ∈ s0.products, x.id = p)
    (hn0 : (linesFor p s0.cart_items).length ≤ 1)
    (h : RaceInv p s0 (quantity.getD 1) qb ra rb st) :
    RaceInv p s0 (quantity.getD 1) qb (postCartStep now ⟨some p, quantity⟩ ra st).1 rb
      (postCartStep now ⟨some p, quantity⟩ ra st).2 := by
  obtain ⟨hfa, hfb, hprods, hcount, hsum, hno, h5, h6, h7⟩ := h
  obtain ⟨hbins, hbcases, _⟩ := cartRun_flags rb
  cases ra with
  | received =>
    obtain ⟨row, hrow⟩ := find?_product_isSome st.products p (by rw [hprods]; exact hprod)
    have hstep : postCartStep now ⟨some p, quantity⟩ .received st = (.productChecked, st) := by
      simp [postCartStep, hp0, hrow]
    rw [hstep]
    exact ⟨rfl, hfb, hprods, hcount, hsum, hno, h5, h6, h7⟩
  | productChecked =>
    have hstep : postCartStep now ⟨some p, quantity⟩ .productChecked st
        = (.cartChecked (st.cart_items.find? (fun c => c.product_id == p)), st) := rfl
    rw [hstep]
    have hcount1 : (linesFor p st.cart_items).length
        = (linesFor p s0.cart_items).length + 0 + rb.inserted := hcount
    have hno1 : rb.foundNoLine = true → (linesFor p s0.cart_items).length = 0 :=
      fun hb => hno (by rw [hb]; exact Bool.or_true _)
    have h71 : rb.foundLine = true → (linesFor p st.cart_items).length = 1 :=
      fun hb => h7 (by rw [hb]; exact Bool.or_true _)
    cases hfind : st.cart_items.find? (fun c => c.product_id == p) with
    | none =>
      have hzero := linesFor_find?_none p st.cart_items hfind
      have hbl : rb.foundLine = false := by
        cases hb : rb.foundLine with
        | false => rfl
        | true =>
          have := h71 hb
          omega
      refine ⟨rfl, hfb, hprods, hcount, hsum, ?_, ?_, ?_, ?_⟩
      · intro _
        omega
      · exact Bool.false_and _
      · rw [hbl]
        rfl
      · intro hor
        have hor1 : (false || rb.foundLine) = true := hor
        rw [hbl] at hor1
        exact absurd hor1 (by decide)
    | some c =>
      have hpos := linesFor_find?_some p st.cart_items c hfind
      have hba : rb.aboutToInsert = false := by
        cases hb : rb.aboutToInsert with
        | false => rfl
        | true =>
          obtain ⟨hb1, hb2⟩ := hbins hb
          have := hno1 hb1
          omega
      have hone : (linesFor p st.cart_items).length = 1 := by
        rcases hbcases with hb | ⟨hb1, hb2⟩
        · omega
        · have := hno1 hb2
          omega
      refine ⟨rfl, hfb, hprods, hcount, hsum, ?_, ?_, ?_, ?_⟩
      · intro hor
        have hor1 : (false || rb.foundNoLine) = true := hor
        rw [Bool.false_or] at hor1
        exact hno1 hor1
      · rw [hba]
        exact Bool.and_false _
      · exact Bool.and_false _
      · intro _
        exact hone
  | cartChecked x =>
    cases x with
    | none =>
      have hstep : postCartStep now ⟨some p, quantity⟩ (.cartChecked none) st
          = (.answered (.ok (.added (nextRowid (st.cart_items.map (·.id)) st.cartSeq) p
              (quantity.getD 1))),
            { st with
              cart_items := st.cart_items ++
                [⟨nextRowid (st.cart_items.map (·.id)) st.cartSeq, p, quantity.getD 1, now⟩]
              cartSeq := nextRowid (st.cart_items.map (·.id)) st.cartSeq }) := rfl
      rw [hstep]
      obtain ⟨hlen, hq⟩ := linesFor_append_line p st.cart_items
        (nextRowid (st.cart_items.map (·.id)) st.cartSeq) (quantity.getD 1) now
      have hcount1 : (linesFor p st.cart_items).length
          = (linesFor p s0.cart_items).length + 0 + rb.inserted := hcount
      have hsum1 : quantityFor p st.cart_items + quantity.getD 1 + rb.pending qb
          = quantityFor p s0.cart_items + quantity.getD 1 + qb := hsum
      have hno1 : (linesFor p s0.cart_items).length = 0 := hno (Bool.true_or _)
      have h61 : (rb.foundLine && true) = false := h6
      rw [Bool.and_true] at h61
      refine ⟨rfl, hfb, hprods, ?_, ?_, ?_, ?_, ?_, ?_⟩
      · show (linesFor p (st.cart_items ++
            [⟨nextRowid (st.cart_items.map (·.id)) st.cartSeq, p, quantity.getD 1, now⟩])).length
          = (linesFor p s0.cart_items).length + 1 + rb.inserted
        rw [hlen]
        omega
      · show quantityFor p (st.cart_items ++
            [⟨nextRowid (st.cart_items.map (·.id)) st.cartSeq, p, quantity.getD 1, now⟩])
            + 0 + rb.pending qb = quantityFor p s0.cart_items + quantity.getD 1 + qb
        rw [hq]
        linarith
      · intro _
        exact hno1
      · exact Bool.false_and _
      · exact Bool.and_false _
      · intro hor
        have hor1 : (false || rb.foundLine) = true := hor
        rw [h61] at hor1
        exact absurd hor1 (by decide)
    | some c =>
      have hstep : postCartStep now ⟨some p, quantity⟩ (.cartChecked (some c)) st
          = (.answered (.ok (.updated p (c.quantity + quantity.getD 1))),
            { st with
              cart_items := st.cart_items.map (fun d =>
                if d.product_id == p then { d with quantity := d.quantity + quantity.getD 1 }
                else d) }) := rfl
      rw [hstep]
      obtain ⟨hlen, hq⟩ := linesFor_bump p (quantity.getD 1) st.cart_items
      have hcount1 : (linesFor p st.cart_items).length
          = (linesFor p s0.cart_items).length + 0 + rb.inserted := hcount
      have hsum1 : quantityFor p st.cart_items + quantity.getD 1 + rb.pending qb
          = quantityFor p s0.cart_items + quantity.getD 1 + qb := hsum
      have h71 : (linesFor p st.cart_items).length = 1 := h7 (Bool.true_or _)
      have h51 : (true && rb.aboutToInsert) = false := h5
      refine ⟨rfl, hfb, hprods, ?_, ?_, ?_, ?_, ?_, ?_⟩
      · show (linesFor p (st.cart_items.map (fun d =>
            if d.product_id == p then { d with quantity := d.quantity + quantity.getD 1 }
            else d))).length = (linesFor p s0.cart_items).length + 0 + rb.inserted
        rw [hlen]
        exact hcount1
      · show quantityFor p (st.cart_items.map (fun d =>
            if d.product_id == p then { d with quantity := d.quantity + quantity.getD 1 }
            else d)) + 0 + rb.pending qb = quantityFor p s0.cart_items + quantity.getD 1 + qb
        rw [hq, h71]
        push_cast
        linarith
      · intro hor
        have hor1 : (false || rb.foundNoLine) = true := hor
        rw [Bool.false_or] at hor1
        exact hno (by rw [hor1]; exact Bool.or_true _)
      · exact h51
      · exact Bool.and_false _
      · intro _
        show (linesFor p (st.cart_items.map (fun d =>
            if d.product_id == p then { d with quantity := d.quantity + quantity.getD 1 }
            else d))).length = 1
        rw [hlen]
        exact h71
  | answered resp =>
    exact ⟨hfa, hfb, hprods, hcount, hsum, hno, h5, h6, h7⟩


theorem raceStep_inv (now1 now2 p : Nat) (quantity1 quantity2 : Option Int) (s0 : Store)
    (r : Race) (pick : Bool) (hp0 : p ≠ 0) (hprod : ∃ x ∈ s0.products, x.id = p)
    (hn0 : (linesFor p s0.cart_items).length ≤ 1)
    (h : RaceInv p s0 (quantity1.getD 1) (quantity2.getD 1) r.first r.second r.store) :
    RaceInv p s0 (quantity1.getD 1) (quantity2.getD 1)
      (raceStep now1 now2 ⟨some p, quantity1⟩ ⟨some p, quantity2⟩ r pick).first
      (raceStep now1 now2 ⟨some p, quantity1⟩ ⟨some p, quantity2⟩ r pick).second
      (raceStep now1 now2 ⟨some p, quantity1⟩ ⟨some p, quantity2⟩ r pick).store := by
  cases pick with
  | true =>
    exact raceInv_step now1 p quantity1 s0 (quantity2.getD 1) r.first r.second r.store
      hp0 hprod hn0 h
  | false =>
    apply raceInv_symm
    exact raceInv_step now2 p quantity2 s0 (quantity1.getD 1) r.second r.first r.store
      hp0 hprod hn0 (raceInv_symm _ _ _ _ _ _ _ h)

theorem race_quantity (now1 now2 p : Nat) (quantity1 quantity2 : Option Int) (s : Store)
    (schedule : List Bool) (hp0 : p ≠ 0) (hprod : ∃ x ∈ s.products, x.id = p)
    (hn0 : (linesFor p s.cart_items).length ≤ 1)
    (h1 : (race now1 now2 ⟨some p, quantity1⟩ ⟨some p, quantity2⟩ schedule s).first.isAnswered
      = true)
    (h2 : (race now1 now2 ⟨some p, quantity1⟩ ⟨some p, quantity2⟩ schedule s).second.isAnswered
      = true) :
    quantityFor p (race now1 now2 ⟨some p, quantity1⟩ ⟨some p, quantity2⟩ schedule s).store.cart_items
      = quantityFor p s.cart_items + quantity1.getD 1 + quantity2.getD 1 := by
  have hinv : ∀ (sched : List Bool) (r : Race),
      RaceInv p s (quantity1.getD 1) (quantity2.getD 1) r.first r.second r.store →
      RaceInv p s (quantity1.getD 1) (quantity2.getD 1)
        (sched.foldl (raceStep now1 now2 ⟨some p, quantity1⟩ ⟨some p, quantity2⟩) r).first
        (sched.foldl (raceStep now1 now2 ⟨some p, quantity1⟩ ⟨some p, quantity2⟩) r).second
        (sched.foldl (raceStep now1 now2 ⟨some p, quantity1⟩ ⟨some p, quantity2⟩) r).store := by
    intro sched
    induction sched with
    | nil => exact fun r h => h
    | cons pick sched ih =>
      intro r h
      exact ih _ (raceStep_inv now1 now2 p quantity1 quantity2 s r pick hp0 hprod hn0 h)
  have hstart : RaceInv p s (quantity1.getD 1) (quantity2.getD 1) .received .received s := by
    refine ⟨rfl, rfl, rfl, rfl, rfl, ?_, rfl, rfl, ?_⟩
    · intro h
      exact absurd h (by decide)
    · intro h
      exact absurd h (by decide)
  have hend := hinv schedule ⟨.received, .received, s⟩ hstart
  obtain ⟨_, _, _, _, hsum, _⟩ := hend
  have hp1 := ((cartRun_flags _).2.2 h1).2 (quantity1.getD 1)
  have hp2 := ((cartRun_flags _).2.2 h2).2 (quantity2.getD 1)
  unfold race at h1 h2 hp1 hp2 ⊢
  rw [hp1, hp2] at hsum
  linarith

/-- C22, as stated, fails: with one cart line of quantity 2 for product 1 and two
concurrent `POST /api/cart` requests for product 1 with quantities 1 and 1,
there is no order of their statements after which both are answered and the
quantity stored for the product is less than 2 + 1 + 1. -/
theorem race_loses_no_increment :
    ¬ ∃ schedule : List Bool,
      (race 9 9 ⟨some 1, some 1⟩ ⟨some 1, some 1⟩ schedule
        ⟨[⟨1, "Mouse", 999, none, none⟩], 1, [⟨1, 1, 2, 5⟩], 1, [], 0⟩).first.isAnswered = true ∧
      (race 9 9 ⟨some 1, some 1⟩ ⟨some 1, some 1⟩ schedule
        ⟨[⟨1, "Mouse", 999, none, none⟩], 1, [⟨1, 1, 2, 5⟩], 1, [], 0⟩).second.isAnswered = true ∧
      quantityFor 1 (race 9 9 ⟨some 1, some 1⟩ ⟨some 1, some 1⟩ schedule
        ⟨[⟨1, "Mouse", 999, none, none⟩], 1, [⟨1, 1, 2, 5⟩], 1, [], 0⟩).store.cart_items
        < 2 + 1 + 1 := by
  rintro ⟨schedule, h1, h2, hlt⟩
  have h := race_quantity 9 9 1 (some 1) (some 1)
    ⟨[⟨1, "Mouse", 999, none, none⟩], 1, [⟨1, 1, 2, 5⟩], 1, [], 0⟩ schedule (by decide)
    ⟨⟨1, "Mouse", 999, none, none⟩, by simp, rfl⟩ (by decide) h1 h2
  rw [h] at hlt
  exact absurd hlt (by decide)


/-- C22, amended: for two concurrent `POST /api/cart` requests for a product `p`
that exists and has at most one cart line, with quantities `q1` and `q2`, no
order of their statements loses an increment: whenever both requests have been
answered, the quantities stored for `p` sum to the prior quantity + q1 + q2
(the `UPDATE` adds to the stored value).  The order in which the first request
runs to its end before the second starts is that of two successive calls of
the handler.  When `p` has no cart line, the order in which both cart lookups
come before either insert leaves two cart lines for `p`, one of quantity `q1`
and one of quantity `q2`. -/
theorem race_keeps_increments (now1 now2 p : Nat) (q1 q2 : Int) (s : Store)
    (hp0 : p ≠ 0) (hprod : ∃ x ∈ s.products, x.id = p)
    (hn0 : (linesFor p s.cart_items).length ≤ 1) :
    (∀ schedule : List Bool,
      (race now1 now2 ⟨some p, some q1⟩ ⟨some p, some q2⟩ schedule s).first.isAnswered = true →
      (race now1 now2 ⟨some p, some q1⟩ ⟨some p, some q2⟩ schedule s).second.isAnswered = true →
      quantityFor p (race now1 now2 ⟨some p, some q1⟩ ⟨some p, some q2⟩ schedule s).store.cart_items
        = quantityFor p s.cart_items + q1 + q2) ∧
    race now1 now2 ⟨some p, some q1⟩ ⟨some p, some q2⟩ [true, true, true, false, false, false] s
      = ⟨.answered (postCart now1 ⟨some p, some q1⟩ s).1,
          .answered (postCart now2 ⟨some p, some q2⟩ (postCart now1 ⟨some p, some q1⟩ s).2).1,
          (postCart now2 ⟨some p, some q2⟩ (postCart now1 ⟨some p, some q1⟩ s).2).2⟩ ∧
    (linesFor p s.cart_items = [] →
      ∃ id1 id2 : Nat,
        race now1 now2 ⟨some p, some q1⟩ ⟨some p, some q2⟩
            [true, false, true, false, true, false] s
          = ⟨.answered (.ok (.added id1 p q1)), .answered (.ok (.added id2 p q2)),
              { s with
                cart_items := s.cart_items ++ [⟨id1, p, q1, now1⟩, ⟨id2, p, q2, now2⟩]
                cartSeq := id2 }⟩) := by
  refine ⟨?_, ?_, ?_⟩
  · intro schedule h1 h2
    exact race_quantity now1 now2 p (some q1) (some q2) s schedule hp0 hprod hn0 h1 h2
  · have h3 := postCartStep_thrice now1 ⟨some p, some q1⟩ s
    have h4 := postCartStep_thrice now2 ⟨some p, some q2⟩ (postCart now1 ⟨some p, some q1⟩ s).2
    simp only [race, List.foldl, raceStep, ↓reduceIte, Bool.false_eq_true]
    rw [h3]
    simp only []
    rw [h4]
  · intro hnil
    obtain ⟨row, hrow⟩ := find?_product_isSome s.products p hprod
    have hnone : s.cart_items.find? (fun c => c.product_id == p) = none := by
      rw [List.find?_eq_none]
      intro c hc hcp
      have hmem : c ∈ linesFor p s.cart_items := List.mem_filter.2 ⟨hc, hcp⟩
      rw [hnil] at hmem
      exact List.not_mem_nil _ hmem
    refine ⟨nextRowid (s.cart_items.map (·.id)) s.cartSeq,
      nextRowid ((s.cart_items ++
          [(⟨nextRowid (s.cart_items.map (·.id)) s.cartSeq, p, q1, now1⟩ : CartItem)]).map
        (·.id)) (nextRowid (s.cart_items.map (·.id)) s.cartSeq), ?_⟩
    simp [race, raceStep, postCartStep, hp0, hrow, hnone]


theorem race_keeps_increments_witness :
    (∀ schedule : List Bool,
      (race 9 9 ⟨some 1, some 1⟩ ⟨some 1, some 2⟩ schedule ⟨[⟨1, "Mouse", 999, none, none⟩], 1, [], 0, [], 0⟩).first.isAnswered = true →
      (race 9 9 ⟨some 1, some 1⟩ ⟨some 1, some 2⟩ schedule ⟨[⟨1, "Mouse", 999, none, none⟩], 1, [], 0, [], 0⟩).second.isAnswered = true →
      quantityFor 1 (race 9 9 ⟨some 1, some 1⟩ ⟨some 1, some 2⟩ schedule ⟨[⟨1, "Mouse", 999, none, none⟩], 1, [], 0, [], 0⟩).store.cart_items
        = quantityFor 1 ([] : List CartItem) + 1 + 2) ∧
    race 9 9 ⟨some 1, some 1⟩ ⟨some 1, some 2⟩ [true, true, true, false, false, false] ⟨[⟨1, "Mouse", 999, none, none⟩], 1, [], 0, [], 0⟩
      = ⟨.answered (postCart 9 ⟨some 1, some 1⟩ ⟨[⟨1, "Mouse", 999, none, none⟩], 1, [], 0, [], 0⟩).1,
          .answered (postCart 9 ⟨some 1, some 2⟩ (postCart 9 ⟨some 1, some 1⟩ ⟨[⟨1, "Mouse", 999, none, none⟩], 1, [], 0, [], 0⟩).2).1,
          (postCart 9 ⟨some 1, some 2⟩ (postCart 9 ⟨some 1, some 1⟩ ⟨[⟨1, "Mouse", 999, none, none⟩], 1, [], 0, [], 0⟩).2).2⟩ ∧
    (linesFor 1 ([] : List CartItem) = [] →
      ∃ id1 id2 : Nat,
        race 9 9 ⟨some 1, some 1⟩ ⟨some 1, some 2⟩ [true, false, true, false, true, false] ⟨[⟨1, "Mouse", 999, none, none⟩], 1, [], 0, [], 0⟩
          = ⟨.answered (.ok (.added id1 1 1)), .answered (.ok (.added id2 1 2)),
              { (⟨[⟨1, "Mouse", 999, none, none⟩], 1, [], 0, [], 0⟩ : Store) with
                cart_items := [] ++ [⟨id1, 1, 1, 9⟩, ⟨id2, 1, 2, 9⟩]
                cartSeq := id2 }⟩) :=
  race_keeps_increments 9 9 1 1 2 ⟨[⟨1, "Mouse", 999, none, none⟩], 1, [], 0, [], 0⟩ (by decide)
    ⟨⟨1, "Mouse", 999, none, none⟩, by simp, rfl⟩ (by decide)

end Ecom
